import Mathlib

/-!
# Gridlock: ledger-side verification and settlement

A shallow embedding of the chaincode in `gridlock.go`, `common/ledger.go`,
`settlement/gross.go` and `settlement/net.go`.

Modelling conventions.

* Commitments are elements of an additive commutative group `G` (the curve
  group `bn256.G2`, whose arithmetic is an external library).  A stored
  commitment is identified with the group element it marshals, so
  `bytes.Compare` of two marshalled commitments is equality in `G`.
* The range-proof scheme (`zkrangeproof`) is a parameter `Scheme`: the
  commitment `C` carried by a proof and the verdict of `VerifyUL`.
* The key/value store is one table per key prefix.  Keys of the shape
  `Table + fmt.Sprint(id)` are represented by `id`; proposal keys, which
  concatenate two decimal numbers, are kept as strings.
* Bank, payment and session ids are `int32` in the source; they are only
  compared and printed, never added, so they are modelled as `Int`.
* A Go function returning `(x, error)` becomes a `Res`; a runtime panic
  (nil dereference, index out of range) is the result `Res.panic`.
* A store read sees the writes issued earlier in the same invocation (the
  behaviour of the stub the repository's tests run on); store-level read and
  write failures and message decoding are outside the model.
-/

namespace Gridlock

/-! ## Declarations (`common/declarations.go`) -/

/-- Go `common.NumOfBanks`. -/
def NumOfBanks : Int := 5

/-- Go `common.U`: base of the range proof. -/
def U : Nat := 10

/-- Go `common.L`: number of digits of the range proof. -/
def L : Nat := 10

/-! ## Data model -/

/-- Go `pb.StatusType`. -/
inductive StatusType where
  | ACTIVE
  | SETTLED
deriving DecidableEq, Repr

/-- Go `pb.GLRStatusType`. -/
inductive GLRStatusType where
  | START
  | SUCCESS
deriving DecidableEq, Repr

/-- Go `pb.StoredPaymentMessage`. -/
structure StoredPaymentMessage (G P : Type) where
  Sender : Int
  Receiver : Int
  CmAmount : G
  Zkrp : P
  Status : StatusType

/-- Go `pb.GLRConfiguration`. -/
structure GLRConfiguration where
  GridlockId : Int
  BankIds : List Int
  Status : GLRStatusType
deriving DecidableEq

/-- Go `pb.StoredGridlockProposal`. -/
structure StoredGridlockProposal (G P : Type) where
  OutgoingIds : List Int
  InfeasibleIds : List Int
  CmBalance : G
  Zkrp1 : P
  Zkrp2 : P

/-- Go `pb.GridlockProposal`: the payload of `proposeNettableSet`. -/
structure GridlockProposal (G P : Type) where
  GridlockId : Int
  BankId : Int
  OutgoingIds : List Int
  InfeasibleIds : List Int
  CmBalance : G
  Zkrp1 : P
  Zkrp2 : P

/-- Go `pb.BankAccount`: one entry of the payload of `mintAccount`. -/
structure BankAccount (G P : Type) where
  BankId : Int
  CmBalance : G
  Zkrp : P

/-- Go `pb.PaymentMessage`: the payload of `addMessage`. -/
structure PaymentMessage (G P : Type) where
  PaymentId : Int
  Sender : Int
  Receiver : Int
  CmAmount : G
  Zkrp : P

/-- Go `pb.GrossSettlementSet`: the payload of `grossSettlement`. -/
structure GrossSettlementSet (G P : Type) where
  BankId : Int
  PaymentId : Int
  CmBalance : G
  Zkrp : P

/-- The range-proof scheme of package `zkrangeproof`, taken as a parameter:
`C` is the commitment carried by an unmarshalled proof (`proof.C`) and
`VerifyUL` the verdict of the verifier under the stored parameters (absent
when `initParams` has not run). -/
structure Scheme (G P PP : Type) where
  C : P → G
  VerifyUL : P → Option PP → Bool

/-- The three queue-shaped tables: `InQueueTable`, `OutQueueTable` and
`InfeasibleTable`. -/
inductive QueueTable where
  | InQueueTable
  | OutQueueTable
  | InfeasibleTable
deriving DecidableEq, Repr

/-- The key/value store, one component per table. -/
structure Ledger (G P PP : Type) where
  params : Option PP
  account : Int → Option G
  payment : Int → Option (StoredPaymentMessage G P)
  queue : QueueTable → Int → Option (List Int)
  config : Int → Option GLRConfiguration
  proposal : String → Option (StoredGridlockProposal G P)

/-- Result of a Go function returning `(value, error)`; `panic` is a runtime
panic. -/
inductive Res (α : Type) where
  | ok (a : α)
  | error (msg : String)
  | panic
deriving DecidableEq

/-- Result of a store-mutating operation: what it returned, and the store
with the writes issued up to that point. -/
structure Outcome (σ : Type) where
  res : Res Unit
  state : σ

/-- Go `x, err := f()` followed by a field access on `x` with `err` not
checked: an absent record is a nil pointer and the access panics. -/
def Res.unchecked {α : Type} : Res α → Res α
  | .ok a => .ok a
  | .error _ => .panic
  | .panic => .panic

/-- Sequencing of a single-write helper inside an operation: on failure the
operation returns the helper's error with the store as written so far. -/
def Res.andThen {σ : Type} (r : Res σ) (s : σ) (k : σ → Outcome σ) : Outcome σ :=
  match r with
  | .ok s1 => k s1
  | .error m => ⟨.error m, s⟩
  | .panic => ⟨.panic, s⟩

/-- The store key suffix `fmt.Sprint(gid) + fmt.Sprint(bankId)` of the proposal
table. -/
def proposalKey (gid bankId : Int) : String :=
  toString gid ++ toString bankId

/-- A decoded invocation: the function name dispatched by `Invoke` together
with its unmarshalled argument. -/
inductive Invocation (G P PP : Type) where
  | initParams (params : PP)
  | mintAccount (accounts : List (BankAccount G P))
  | addMessage (paymentMessage : PaymentMessage G P)
  | grossSettlement (settlementSet : GrossSettlementSet G P)
  | startGLResolution (config : GLRConfiguration)
  | proposeNettableSet (proposal : GridlockProposal G P)
  | tallyGridlockProposal (gridlockId : Int)
  | NetGLSettlement (gridlockId : Int)

section Store

variable {G P PP : Type}

/-! ## Ledger store (`common/ledger.go`) -/

/-- Go `AddAccountToLedger`. -/
def AddAccountToLedger (s : Ledger G P PP) (bankId : Int) (cmBalance : G) : Ledger G P PP :=
  { s with account := Function.update s.account bankId (some cmBalance) }

/-- Go `GetAccountFromLedger`. -/
def GetAccountFromLedger (s : Ledger G P PP) (bankId : Int) : Res G :=
  match s.account bankId with
  | none => .error "No stored account with this key"
  | some a => .ok a

/-- Go `UpdateAccountFromLedger`. -/
def UpdateAccountFromLedger [AddCommGroup G] (s : Ledger G P PP) (bankId : Int)
    (isIncrease : Bool) (cmAmount : G) : Res (Ledger G P PP) :=
  match GetAccountFromLedger s bankId with
  | .error m => .error m
  | .panic => .panic
  | .ok cmBalance =>
    let cmPostBalance := if isIncrease = true then cmBalance + cmAmount else cmBalance + -cmAmount
    .ok { s with account := Function.update s.account bankId (some cmPostBalance) }

/-- Go `GetPaymentFromLedger`. -/
def GetPaymentFromLedger (s : Ledger G P PP) (pid : Int) : Res (StoredPaymentMessage G P) :=
  match s.payment pid with
  | none => .error "No stored payment with this key"
  | some p => .ok p

/-- Go `AddPaymentToLedger`. -/
def AddPaymentToLedger (s : Ledger G P PP) (pid : Int) (p : StoredPaymentMessage G P) :
    Ledger G P PP :=
  { s with payment := Function.update s.payment pid (some p) }

/-- Go `MarkPaymentFromLedger`. -/
def MarkPaymentFromLedger (s : Ledger G P PP) (pid : Int) : Res (Ledger G P PP) :=
  match GetPaymentFromLedger s pid with
  | .error m => .error m
  | .panic => .panic
  | .ok paymentMessage =>
    .ok { s with payment := Function.update s.payment pid
                   (some { paymentMessage with Status := StatusType.SETTLED }) }

/-- Go `GetQueueFromLedger`: an absent queue reads as the empty list. -/
def GetQueueFromLedger (s : Ledger G P PP) (t : QueueTable) (k : Int) : List Int :=
  match s.queue t k with
  | some q => q
  | none => []

/-- Go `AddQueueToLedger`. -/
def AddQueueToLedger (s : Ledger G P PP) (t : QueueTable) (k : Int) (q : List Int) :
    Ledger G P PP :=
  { s with queue := Function.update s.queue t (Function.update (s.queue t) k (some q)) }

/-- Go `AddQueueElementToLedger`. -/
def AddQueueElementToLedger (s : Ledger G P PP) (t : QueueTable) (k : Int) (paymentId : Int) :
    Ledger G P PP :=
  AddQueueToLedger s t k (GetQueueFromLedger s t k ++ [paymentId])

/-- The loop of `RemoveQueueElementFromLedger`: keep the stored ids that equal
none of `paymentIds`. -/
def removeIds (stored paymentIds : List Int) : List Int :=
  stored.foldl
    (fun newPaymentIds paymentId =>
      if paymentIds.any (fun id => paymentId == id) then newPaymentIds
      else newPaymentIds ++ [paymentId])
    []

/-- Go `RemoveQueueElementFromLedger`. -/
def RemoveQueueElementFromLedger (s : Ledger G P PP) (t : QueueTable) (k : Int)
    (paymentIds : List Int) : Res (Ledger G P PP) :=
  match s.queue t k with
  | none => .error "No stored queue with this key"
  | some stored => .ok (AddQueueToLedger s t k (removeIds stored paymentIds))

/-- Go `AddGLRConfigurationToLedger`. -/
def AddGLRConfigurationToLedger (s : Ledger G P PP) (gid : Int) (config : GLRConfiguration) :
    Ledger G P PP :=
  { s with config := Function.update s.config gid (some config) }

/-- Go `GetGLRConfigFromLedger`. -/
def GetGLRConfigFromLedger (s : Ledger G P PP) (gid : Int) : Res GLRConfiguration :=
  match s.config gid with
  | none => .error "No stored config with this key"
  | some c => .ok c

/-- Go `AddGridlockProposalToLedger`. -/
def AddGridlockProposalToLedger (s : Ledger G P PP) (key : String)
    (proposal : StoredGridlockProposal G P) : Ledger G P PP :=
  { s with proposal := Function.update s.proposal key (some proposal) }

/-- Go `GetGridlockProposalFromLedger`. -/
def GetGridlockProposalFromLedger (s : Ledger G P PP) (key : String) :
    Res (StoredGridlockProposal G P) :=
  match s.proposal key with
  | none => .error "No stored proposal with this key"
  | some p => .ok p

/-! ## Minting (`account/account.go`) -/

/-- Go `verifyAccount`. -/
def verifyAccount [DecidableEq G] (S : Scheme G P PP) (s : Ledger G P PP)
    (account : BankAccount G P) : Res Bool :=
  if account.BankId > NumOfBanks ∨ account.BankId ≤ 0 then .ok false
  else
    let paramsUL := s.params
    if S.C account.Zkrp ≠ account.CmBalance then .ok false
    else if S.VerifyUL account.Zkrp paramsUL ≠ true then .error "ZKP verification failed"
    else .ok true

/-- Go `MintAccount`, from the decoded `MintAccount{Accounts}` on. -/
def MintAccount [DecidableEq G] (S : Scheme G P PP) :
    Ledger G P PP → List (BankAccount G P) → Outcome (Ledger G P PP)
  | s, [] => ⟨.ok (), s⟩
  | s, account :: rest =>
    match verifyAccount S s account with
    | .error m => ⟨.error m, s⟩
    | .panic => ⟨.panic, s⟩
    | .ok false => ⟨.error "MintAcount is not valid", s⟩
    | .ok true => MintAccount S (AddAccountToLedger s account.BankId account.CmBalance) rest

/-! ## Message admission (`message/message.go`) -/

/-- Go `verifyPaymentMessage`. -/
def verifyPaymentMessage [DecidableEq G] (S : Scheme G P PP) (s : Ledger G P PP)
    (paymentMessage : PaymentMessage G P) : Res Bool :=
  if paymentMessage.Sender > NumOfBanks ∨ paymentMessage.Sender ≤ 0 then .ok false
  else if paymentMessage.Receiver > NumOfBanks ∨ paymentMessage.Receiver ≤ 0 then .ok false
  else if paymentMessage.Sender = paymentMessage.Receiver then .ok false
  else
    let paramsUL := s.params
    if S.C paymentMessage.Zkrp ≠ paymentMessage.CmAmount then .ok false
    else if S.VerifyUL paymentMessage.Zkrp paramsUL ≠ true then .error "ZKP verification failed"
    else .ok true

/-- Go `AddMessage`, from the decoded `PaymentMessage` on. -/
def AddMessage [DecidableEq G] (S : Scheme G P PP) (s : Ledger G P PP)
    (paymentMessage : PaymentMessage G P) : Outcome (Ledger G P PP) :=
  match verifyPaymentMessage S s paymentMessage with
  | .error m => ⟨.error m, s⟩
  | .panic => ⟨.panic, s⟩
  | .ok false => ⟨.error "Payment message is not valid", s⟩
  | .ok true =>
    let s1 := AddPaymentToLedger s paymentMessage.PaymentId
      { Sender := paymentMessage.Sender
        Receiver := paymentMessage.Receiver
        CmAmount := paymentMessage.CmAmount
        Zkrp := paymentMessage.Zkrp
        Status := StatusType.ACTIVE }
    let s2 := AddQueueElementToLedger s1 QueueTable.OutQueueTable paymentMessage.Sender
      paymentMessage.PaymentId
    let s3 := AddQueueElementToLedger s2 QueueTable.InQueueTable paymentMessage.Receiver
      paymentMessage.PaymentId
    ⟨.ok (), s3⟩

/-! ## Gross settlement (`settlement/gross.go`) -/

/-- First loop of `VerifyStrictPriority`: the queue ids that equal none of
`paymentIds`. -/
def infeasibleOf (outQueue paymentIds : List Int) : List Int :=
  outQueue.foldl
    (fun infeasible qid =>
      if paymentIds.any (fun pid => qid == pid) then infeasible else infeasible ++ [qid])
    []

/-- Go `VerifyStrictPriority`. -/
def VerifyStrictPriority (s : Ledger G P PP) (bankId : Int) (paymentIds : List Int) :
    Res Bool :=
  let outQueue := GetQueueFromLedger s QueueTable.OutQueueTable bankId
  let infeasible := infeasibleOf outQueue paymentIds
  if infeasible.length = 0 then .ok true
  else
    match infeasible.head?, paymentIds.head? with
    | none, _ => .panic
    | some _, none => .panic
    | some q0, some p0 =>
      let smallestQid := infeasible.foldl (fun m qid => if qid < m then qid else m) q0
      let biggestPid := paymentIds.foldl (fun m pid => if pid > m then pid else m) p0
      if smallestQid ≤ biggestPid then .ok false else .ok true

/-- The loop of `verifySettlementSet`: subtract each payment's amount from
`cmSum`, rejecting a payment that `bankId` did not send or that is settled. -/
def subtractOwnOutgoing [AddCommGroup G] (s : Ledger G P PP) (bankId : Int) :
    List Int → G → Res G
  | [], cmSum => .ok cmSum
  | id :: rest, cmSum =>
    match GetPaymentFromLedger s id with
    | .error m => .error m
    | .panic => .panic
    | .ok payment =>
      if payment.Sender ≠ bankId then .error "payment's sender is not bankId"
      else if payment.Status = StatusType.SETTLED then .error "The payment is already settled"
      else subtractOwnOutgoing s bankId rest (cmSum + -payment.CmAmount)

/-- Go `verifySettlementSet`. -/
def verifySettlementSet [AddCommGroup G] [DecidableEq G] (S : Scheme G P PP)
    (s : Ledger G P PP) (bankId : Int) (cmBalance : G) (zkrp : P) (paymentIds : List Int) :
    Res Bool :=
  if bankId > NumOfBanks ∨ bankId ≤ 0 then .ok false
  else
    let paramsUL := s.params
    match (GetAccountFromLedger s bankId).unchecked with
    | .error _ => .panic
    | .panic => .panic
    | .ok account =>
      if account ≠ cmBalance then .ok false
      else
        match subtractOwnOutgoing s bankId paymentIds account with
        | .error m => .error m
        | .panic => .panic
        | .ok cmSum =>
          if S.C zkrp ≠ cmSum then .ok false
          else if S.VerifyUL zkrp paramsUL ≠ true then .error "ZKP verification failed"
          else .ok true

/-- Go `GrossSettlement`, from the decoded `GrossSettlementSet` on. -/
def GrossSettlement [AddCommGroup G] [DecidableEq G] (S : Scheme G P PP)
    (s : Ledger G P PP) (settlementSet : GrossSettlementSet G P) : Outcome (Ledger G P PP) :=
  match VerifyStrictPriority s settlementSet.BankId [settlementSet.PaymentId] with
  | .error m => ⟨.error m, s⟩
  | .panic => ⟨.panic, s⟩
  | .ok false => ⟨.error "Verification of strict priority failed", s⟩
  | .ok true =>
    match verifySettlementSet S s settlementSet.BankId settlementSet.CmBalance
        settlementSet.Zkrp [settlementSet.PaymentId] with
    | .error m => ⟨.error m, s⟩
    | .panic => ⟨.panic, s⟩
    | .ok false => ⟨.error "Settlement Set is not valid", s⟩
    | .ok true =>
      (MarkPaymentFromLedger s settlementSet.PaymentId).andThen s fun s1 =>
      match GetPaymentFromLedger s1 settlementSet.PaymentId with
      | .error m => ⟨.error m, s1⟩
      | .panic => ⟨.panic, s1⟩
      | .ok paymentMessage =>
        (UpdateAccountFromLedger s1 paymentMessage.Sender false paymentMessage.CmAmount).andThen s1
          fun s2 =>
        (UpdateAccountFromLedger s2 paymentMessage.Receiver true paymentMessage.CmAmount).andThen s2
          fun s3 =>
        (RemoveQueueElementFromLedger s3 QueueTable.InQueueTable paymentMessage.Receiver
          [settlementSet.PaymentId]).andThen s3 fun s4 =>
        (RemoveQueueElementFromLedger s4 QueueTable.OutQueueTable paymentMessage.Sender
          [settlementSet.PaymentId]).andThen s4 fun s5 =>
        ⟨.ok (), s5⟩

/-! ## Net settlement (`settlement/net.go`) -/

/-- The in-memory maps of `NetGLSettlement` together with the store. -/
structure NetState (G P PP : Type) where
  ledger : Ledger G P PP
  bankBalance : Int → Option G
  outgoingIds : Int → List Int
  incomingIds : Int → List Int

/-- First loop of `NetGLSettlement`: snapshot the balance of every bank of the
configuration.  The account is dereferenced before the read error is checked. -/
def snapshotBalances (s : Ledger G P PP) : List Int → (Int → Option G) → Res (Int → Option G)
  | [], bankBalance => .ok bankBalance
  | bankId :: rest, bankBalance =>
    match (GetAccountFromLedger s bankId).unchecked with
    | .error _ => .panic
    | .panic => .panic
    | .ok cmBalance => snapshotBalances s rest (Function.update bankBalance bankId (some cmBalance))

/-- Inner loop of `NetGLSettlement`: settle the outgoing ids of one proposal.
`Add` on a balance missing from the map dereferences nil. -/
def settleOutgoing [AddCommGroup G] :
    List Int → NetState G P PP → Outcome (NetState G P PP)
  | [], st => ⟨.ok (), st⟩
  | pid :: rest, st =>
    match GetPaymentFromLedger st.ledger pid with
    | .error m => ⟨.error m, st⟩
    | .panic => ⟨.panic, st⟩
    | .ok paymentMessage =>
      let cmAmount := paymentMessage.CmAmount
      match st.bankBalance paymentMessage.Sender with
      | none => ⟨.panic, st⟩
      | some balSender =>
        let bankBalance1 :=
          Function.update st.bankBalance paymentMessage.Sender (some (balSender + -cmAmount))
        match bankBalance1 paymentMessage.Receiver with
        | none => ⟨.panic, st⟩
        | some balReceiver =>
          let bankBalance2 :=
            Function.update bankBalance1 paymentMessage.Receiver (some (balReceiver + cmAmount))
          match MarkPaymentFromLedger st.ledger pid with
          | .error m => ⟨.error m, st⟩
          | .panic => ⟨.panic, st⟩
          | .ok s1 =>
            settleOutgoing rest
              { ledger := s1
                bankBalance := bankBalance2
                outgoingIds := Function.update st.outgoingIds paymentMessage.Sender
                  (st.outgoingIds paymentMessage.Sender ++ [pid])
                incomingIds := Function.update st.incomingIds paymentMessage.Receiver
                  (st.incomingIds paymentMessage.Receiver ++ [pid]) }

/-- Second loop of `NetGLSettlement`: for every bank of the configuration read
its proposal under `config.GridlockId` and settle its outgoing ids. -/
def settleProposals [AddCommGroup G] (configGridlockId : Int) :
    List Int → NetState G P PP → Outcome (NetState G P PP)
  | [], st => ⟨.ok (), st⟩
  | bankId :: rest, st =>
    match GetGridlockProposalFromLedger st.ledger (proposalKey configGridlockId bankId) with
    | .error m => ⟨.error m, st⟩
    | .panic => ⟨.panic, st⟩
    | .ok proposal =>
      match settleOutgoing proposal.OutgoingIds st with
      | ⟨.ok (), st1⟩ => settleProposals configGridlockId rest st1
      | ⟨.error m, st1⟩ => ⟨.error m, st1⟩
      | ⟨.panic, st1⟩ => ⟨.panic, st1⟩

/-- Third loop of `NetGLSettlement`: write every bank's balance back and
remove the settled ids from its queues. -/
def writeBack (bankBalance : Int → Option G) (outgoingIds incomingIds : Int → List Int) :
    List Int → Ledger G P PP → Outcome (Ledger G P PP)
  | [], s => ⟨.ok (), s⟩
  | bankId :: rest, s =>
    match bankBalance bankId with
    | none => ⟨.panic, s⟩
    | some cmBalance =>
      let s1 := AddAccountToLedger s bankId cmBalance
      (RemoveQueueElementFromLedger s1 QueueTable.InQueueTable bankId (incomingIds bankId)).andThen
        s1 fun s2 =>
      (RemoveQueueElementFromLedger s2 QueueTable.OutQueueTable bankId (outgoingIds bankId)).andThen
        s2 fun s3 =>
      writeBack bankBalance outgoingIds incomingIds rest s3

/-- Go `NetGLSettlement`, from the decoded `NetGridlockProposal{GridlockId}` on.
In the wrong-status branch the function returns the `err` of the preceding
successful read, which is nil. -/
def NetGLSettlement [AddCommGroup G] (s : Ledger G P PP) (gridlockId : Int) :
    Outcome (Ledger G P PP) :=
  match GetGLRConfigFromLedger s gridlockId with
  | .error m => ⟨.error m, s⟩
  | .panic => ⟨.panic, s⟩
  | .ok config =>
    if config.Status ≠ GLRStatusType.SUCCESS then ⟨.ok (), s⟩
    else
      match snapshotBalances s config.BankIds (fun _ => none) with
      | .error m => ⟨.error m, s⟩
      | .panic => ⟨.panic, s⟩
      | .ok bankBalance =>
        match settleProposals config.GridlockId config.BankIds
            { ledger := s, bankBalance := bankBalance,
              outgoingIds := fun _ => [], incomingIds := fun _ => [] } with
        | ⟨.error m, st⟩ => ⟨.error m, st.ledger⟩
        | ⟨.panic, st⟩ => ⟨.panic, st.ledger⟩
        | ⟨.ok (), st⟩ =>
          writeBack st.bankBalance st.outgoingIds st.incomingIds config.BankIds st.ledger

/-! ## Gridlock resolution (`gridlock.go`) -/

/-- Go `startGLResolution`, from the decoded `GLRConfiguration` on: the
configuration is stored as received. -/
def startGLResolution (s : Ledger G P PP) (config : GLRConfiguration) :
    Outcome (Ledger G P PP) :=
  ⟨.ok (), AddGLRConfigurationToLedger s config.GridlockId config⟩

/-- First summation loop of `verifyGridlockProposal`: add the amount of every
id of the incoming queue that equals no id of the infeasible list. -/
def addFeasibleIncoming [AddCommGroup G] (s : Ledger G P PP) (infeasible : List Int) :
    List Int → G → Res G
  | [], cmSum => .ok cmSum
  | id :: rest, cmSum =>
    if infeasible.any (fun infeasibleId => id == infeasibleId) then
      addFeasibleIncoming s infeasible rest cmSum
    else
      match GetPaymentFromLedger s id with
      | .error m => .error m
      | .panic => .panic
      | .ok payment => addFeasibleIncoming s infeasible rest (cmSum + payment.CmAmount)

/-- Second summation loop of `verifyGridlockProposal`: subtract the amount of
every proposed outgoing id. -/
def subtractOutgoing [AddCommGroup G] (s : Ledger G P PP) : List Int → G → Res G
  | [], cmSum => .ok cmSum
  | id :: rest, cmSum =>
    match GetPaymentFromLedger s id with
    | .error m => .error m
    | .panic => .panic
    | .ok payment => subtractOutgoing s rest (cmSum + -payment.CmAmount)

/-- The loop of `verifyGridlockProposal` that finds the smallest infeasible
id, started at `InfeasibleIds[0]`. -/
def smallestOf (smallest : Int) (ids : List Int) : Int :=
  ids.foldl (fun smallest id => if smallest > id then id else smallest) smallest

/-- Go `verifyGridlockProposal`. -/
def verifyGridlockProposal [AddCommGroup G] [DecidableEq G] (S : Scheme G P PP)
    (s : Ledger G P PP) (proposal : GridlockProposal G P) : Res Bool :=
  match (GetGLRConfigFromLedger s proposal.GridlockId).unchecked with
  | .error _ => .panic
  | .panic => .panic
  | .ok config =>
    if config.Status ≠ GLRStatusType.START then .ok false
    else if config.BankIds.any (fun id => id == proposal.BankId) = false then .ok false
    else
      match VerifyStrictPriority s proposal.BankId proposal.OutgoingIds with
      | .error m => .error m
      | .panic => .panic
      | .ok false => .error "Priority order is not reserved"
      | .ok true =>
        let paramsUL := s.params
        match GetAccountFromLedger s proposal.BankId with
        | .error m => .error m
        | .panic => .panic
        | .ok account =>
          if account ≠ proposal.CmBalance then .ok false
          else
            let infeasible := GetQueueFromLedger s QueueTable.InfeasibleTable proposal.GridlockId
            let inQueue := GetQueueFromLedger s QueueTable.InQueueTable proposal.BankId
            match addFeasibleIncoming s infeasible inQueue account with
            | .error m => .error m
            | .panic => .panic
            | .ok cmSum1 =>
              match subtractOutgoing s proposal.OutgoingIds cmSum1 with
              | .error m => .error m
              | .panic => .panic
              | .ok cmSum =>
                if S.C proposal.Zkrp1 ≠ cmSum then .ok false
                else if S.VerifyUL proposal.Zkrp1 paramsUL ≠ true then
                  .error "ZKP verification failed"
                else
                  match proposal.InfeasibleIds with
                  | [] => .ok true
                  | id0 :: ids =>
                    let smallest := smallestOf id0 (id0 :: ids)
                    match GetPaymentFromLedger s smallest with
                    | .error m => .error m
                    | .panic => .panic
                    | .ok payment =>
                      let cmSumNeg := -(cmSum + -payment.CmAmount)
                      if S.C proposal.Zkrp2 ≠ cmSumNeg then .ok false
                      else if S.VerifyUL proposal.Zkrp2 paramsUL ≠ true then
                        .error "ZKP verification failed"
                      else .ok true

/-- Go `proposeNettableSet`, from the decoded `GridlockProposal` on. -/
def proposeNettableSet [AddCommGroup G] [DecidableEq G] (S : Scheme G P PP)
    (s : Ledger G P PP) (proposal : GridlockProposal G P) : Outcome (Ledger G P PP) :=
  match verifyGridlockProposal S s proposal with
  | .error m => ⟨.error m, s⟩
  | .panic => ⟨.panic, s⟩
  | .ok false => ⟨.error "Verification of gridlock proposal failed", s⟩
  | .ok true =>
    ⟨.ok (), AddGridlockProposalToLedger s (proposalKey proposal.GridlockId proposal.BankId)
      { OutgoingIds := proposal.OutgoingIds
        InfeasibleIds := proposal.InfeasibleIds
        CmBalance := proposal.CmBalance
        Zkrp1 := proposal.Zkrp1
        Zkrp2 := proposal.Zkrp2 }⟩

/-- The proposal loop of `tallyGridlockProposal`: append the infeasible ids of
every configured bank's stored proposal. -/
def collectInfeasible (s : Ledger G P PP) (gid : Int) : List Int → List Int → Res (List Int)
  | [], infeasible => .ok infeasible
  | id :: rest, infeasible =>
    match GetGridlockProposalFromLedger s (proposalKey gid id) with
    | .error m => .error m
    | .panic => .panic
    | .ok proposal => collectInfeasible s gid rest (infeasible ++ proposal.InfeasibleIds)

/-- Go `tallyGridlockProposal`, from the decoded `TallyGridlockProposal{GridlockId}`
on.  The configuration is dereferenced without checking the read error. -/
def tallyGridlockProposal (s : Ledger G P PP) (gridlockId : Int) : Outcome (Ledger G P PP) :=
  match (GetGLRConfigFromLedger s gridlockId).unchecked with
  | .error _ => ⟨.panic, s⟩
  | .panic => ⟨.panic, s⟩
  | .ok config =>
    if config.Status ≠ GLRStatusType.START then ⟨.error "wrong state of current glr", s⟩
    else
      let infeasibleObj := GetQueueFromLedger s QueueTable.InfeasibleTable gridlockId
      match collectInfeasible s gridlockId config.BankIds [] with
      | .error m => ⟨.error m, s⟩
      | .panic => ⟨.panic, s⟩
      | .ok infeasible =>
        let s1 := AddQueueToLedger s QueueTable.InfeasibleTable gridlockId infeasible
        if infeasible.length = infeasibleObj.length then
          let config1 := { config with Status := GLRStatusType.SUCCESS }
          ⟨.ok (), AddGLRConfigurationToLedger s1 config1.GridlockId config1⟩
        else ⟨.ok (), s1⟩

/-- Go `initParams`, from the decoded parameters on. -/
def initParams (s : Ledger G P PP) (params : PP) : Outcome (Ledger G P PP) :=
  ⟨.ok (), { s with params := some params }⟩

/-- Go `Invoke`: the dispatch on the function name, for a recognised name with a
well-formed argument. -/
def Invoke [AddCommGroup G] [DecidableEq G] (S : Scheme G P PP) (s : Ledger G P PP) :
    Invocation G P PP → Outcome (Ledger G P PP)
  | .initParams params => initParams s params
  | .mintAccount accounts => MintAccount S s accounts
  | .addMessage paymentMessage => AddMessage S s paymentMessage
  | .grossSettlement settlementSet => GrossSettlement S s settlementSet
  | .startGLResolution config => startGLResolution s config
  | .proposeNettableSet proposal => proposeNettableSet S s proposal
  | .tallyGridlockProposal gridlockId => tallyGridlockProposal s gridlockId
  | .NetGLSettlement gridlockId => NetGLSettlement s gridlockId

end Store

/-! ## A transparent instance for concrete runs

Commitments are the committed integers themselves and a range proof is
accepted exactly when its commitment lies in `[0, U ^ L)`. -/

/-- The store before any invocation, with the range-proof parameters
installed. -/
def emptyLedger : Ledger Int Int Unit where
  params := some ()
  account := fun _ => none
  payment := fun _ => none
  queue := fun _ _ => none
  config := fun _ => none
  proposal := fun _ => none

/-- The scheme in which a proof carries its committed integer in the clear. -/
def idealScheme : Scheme Int Int Unit where
  C := fun proof => proof
  VerifyUL := fun proof _ => decide (0 ≤ proof ∧ proof < (U : Int) ^ L)

/-! ## Stores described in closed form -/

section Closed

variable {G P PP : Type}

/-- The store a successful `GrossSettlement` of payment `p` leaves behind. -/
def grossPost [AddCommGroup G] (s : Ledger G P PP) (pid : Int) (p : StoredPaymentMessage G P)
    (balS balR : G) (qIn qOut : List Int) : Ledger G P PP :=
  { params := s.params
    account := Function.update
      (Function.update s.account p.Sender (some (balS + -p.CmAmount)))
      p.Receiver (some (balR + p.CmAmount))
    payment := Function.update s.payment pid (some { p with Status := StatusType.SETTLED })
    queue := Function.update
      (Function.update s.queue QueueTable.InQueueTable
        (Function.update (s.queue QueueTable.InQueueTable) p.Receiver
          (some (removeIds qIn [pid]))))
      QueueTable.OutQueueTable
      (Function.update (s.queue QueueTable.OutQueueTable) p.Sender (some (removeIds qOut [pid])))
    config := s.config
    proposal := s.proposal }

/-- The specification's `payment(pid).cmAmount`; the group identity when no
payment is stored under `pid`. -/
def amountOf [AddCommGroup G] (s : Ledger G P PP) (pid : Int) : G :=
  match s.payment pid with
  | some p => p.CmAmount
  | none => 0

/-- Sum of `payment(pid).cmAmount` over a list of ids, with multiplicity. -/
def sumAmounts [AddCommGroup G] (s : Ledger G P PP) (ids : List Int) : G :=
  (ids.map (amountOf s)).sum

/-- Whether the payment stored under `pid` has sender `b`. -/
def senderIs (s : Ledger G P PP) (b pid : Int) : Bool :=
  match s.payment pid with
  | some p => decide (p.Sender = b)
  | none => false

/-- Whether the payment stored under `pid` has receiver `b`. -/
def receiverIs (s : Ledger G P PP) (b pid : Int) : Bool :=
  match s.payment pid with
  | some p => decide (p.Receiver = b)
  | none => false

/-- The outgoing ids of the proposal stored for `(gid, bankId)`; empty when
there is none. -/
def outgoingOf (s : Ledger G P PP) (gid bankId : Int) : List Int :=
  match s.proposal (proposalKey gid bankId) with
  | some p => p.OutgoingIds
  | none => []

/-- The settled ids of a net settlement: the concatenation, in the order of
`bankIds`, of the outgoing ids of the stored proposals. -/
def proposedOutgoing (s : Ledger G P PP) (gid : Int) (bankIds : List Int) : List Int :=
  (bankIds.map (outgoingOf s gid)).flatten

/-- Net change of bank `b` when the payments `ids` are settled: the amounts it
receives minus the amounts it sends. -/
def netDelta [AddCommGroup G] (s : Ledger G P PP) (b : Int) (ids : List Int) : G :=
  sumAmounts s (ids.filter (receiverIs s b)) - sumAmounts s (ids.filter (senderIs s b))

/-- A stored payment with its status set to SETTLED. -/
def settled (p : StoredPaymentMessage G P) : StoredPaymentMessage G P :=
  { p with Status := StatusType.SETTLED }

/-- The payment table after every id of `ids` has been marked settled. -/
def markAll (payment : Int → Option (StoredPaymentMessage G P)) (ids : List Int) :
    Int → Option (StoredPaymentMessage G P) :=
  fun pid => if pid ∈ ids then (payment pid).map settled else payment pid

/-- Sum of the stored balances of the banks `banks`. -/
def totalBalance [AddCommGroup G] (banks : List Int) (s : Ledger G P PP) : G :=
  (banks.map (fun b => (s.account b).getD 0)).sum

/-- The infeasible ids of the proposal stored for `(gid, bankId)`; empty when
there is none. -/
def infeasibleOfProposal (s : Ledger G P PP) (gid bankId : Int) : List Int :=
  match s.proposal (proposalKey gid bankId) with
  | some p => p.InfeasibleIds
  | none => []

/-- Accounts are stored only under bank ids in `[1, NumOfBanks]`. -/
def AccountsInRange (s : Ledger G P PP) : Prop :=
  ∀ b, s.account b ≠ none → 1 ≤ b ∧ b ≤ NumOfBanks

/-- What the two settlement operations may change between two stores: account
balances, the in- and out-queues, and payment records, the latter only by being
marked settled.  Parameters, configurations, proposals and infeasible lists are
the same. -/
def SettlementFrame (s s1 : Ledger G P PP) : Prop :=
  s1.params = s.params ∧ s1.config = s.config ∧ s1.proposal = s.proposal ∧
  s1.queue QueueTable.InfeasibleTable = s.queue QueueTable.InfeasibleTable ∧
  ∀ pid, s1.payment pid = s.payment pid ∨ s1.payment pid = (s.payment pid).map settled

/-- The store before any invocation: every table is empty and no range-proof
parameters are installed. -/
def emptyStore : Ledger G P PP where
  params := none
  account := fun _ => none
  payment := fun _ => none
  queue := fun _ _ => none
  config := fun _ => none
  proposal := fun _ => none

/-- The stores reachable from the empty store by the dispatched operations.  An
invocation that does not return success is not committed, so only the stores
left by successful invocations are steps. -/
inductive Reachable [AddCommGroup G] [DecidableEq G] (S : Scheme G P PP) :
    Ledger G P PP → Prop
  | empty : Reachable S emptyStore
  | step (s : Ledger G P PP) (inv : Invocation G P PP) :
      Reachable S s → (Invoke S s inv).res = Res.ok () → Reachable S (Invoke S s inv).state

/-- Whether an invocation is an `addMessage` whose payment id already has a
stored payment. -/
def reusesPaymentId (s : Ledger G P PP) : Invocation G P PP → Bool
  | .addMessage paymentMessage => (s.payment paymentMessage.PaymentId).isSome
  | _ => false

/-- The stores reachable from the empty store by successful invocations none of
which admits a payment under an id that is already stored. -/
inductive ReachableFresh [AddCommGroup G] [DecidableEq G] (S : Scheme G P PP) :
    Ledger G P PP → Prop
  | empty : ReachableFresh S emptyStore
  | step (s : Ledger G P PP) (inv : Invocation G P PP) :
      ReachableFresh S s → reusesPaymentId s inv = false →
      (Invoke S s inv).res = Res.ok () → ReachableFresh S (Invoke S s inv).state

/-- Modelled from the spec: the hosting ledger runtime, which is not part of the
repository.  `Invoke` answers an invocation that returned an error with
`shim.Error`; the host buffers the writes of an invocation and applies them only
when the invocation succeeded, a failed or aborted one being rolled back.  The
result is the ledger state after the call. -/
def ledgerAfter [AddCommGroup G] [DecidableEq G] (S : Scheme G P PP) (s : Ledger G P PP)
    (inv : Invocation G P PP) : Ledger G P PP :=
  match (Invoke S s inv).res with
  | .ok _ => (Invoke S s inv).state
  | .error _ => s
  | .panic => s

/-- The balance of the last entry of a mint batch that names bank `b`, if any. -/
def lastMinted (batch : List (BankAccount G P)) (b : Int) : Option G :=
  (batch.reverse.find? (fun a => decide (a.BankId = b))).map (fun a => a.CmBalance)

/-- Every stored payment has its sender and its receiver in `[1, NumOfBanks]`
and they differ. -/
def PaymentsWellFormed (s : Ledger G P PP) : Prop :=
  ∀ pid p, s.payment pid = some p →
    (1 ≤ p.Sender ∧ p.Sender ≤ NumOfBanks) ∧ (1 ≤ p.Receiver ∧ p.Receiver ≤ NumOfBanks) ∧
    p.Sender ≠ p.Receiver

/-- Every id listed in an out-queue refers to a stored payment that is ACTIVE
and was sent by the bank of that queue. -/
def OutQueueInvariant (s : Ledger G P PP) : Prop :=
  ∀ b pid, pid ∈ GetQueueFromLedger s QueueTable.OutQueueTable b →
    ∃ p, s.payment pid = some p ∧ p.Status = StatusType.ACTIVE ∧ p.Sender = b

/-- The specification's `cmPost` of a proposal: the submitted balance plus the
amounts of the incoming ids outside the infeasible list minus the amounts of
the proposed outgoing ids. -/
def cmPost [AddCommGroup G] (s : Ledger G P PP) (proposal : GridlockProposal G P) : G :=
  proposal.CmBalance
    + sumAmounts s ((GetQueueFromLedger s QueueTable.InQueueTable proposal.BankId).filter
        (fun id =>
          decide (id ∉ GetQueueFromLedger s QueueTable.InfeasibleTable proposal.GridlockId)))
    - sumAmounts s proposal.OutgoingIds

end Closed

/-! ## Commitment algebra (`pedersencurve/pedersen.go`, `pedersengroup/pedersen.go`) -/

/-- Go `Commit` of package `pedersencurve`: `ScalarBaseMult(x)` to which
`ScalarMult(h, r)` is added.  The curve group `bn256.G2` is a parameter: any
additive commutative group with its base point `g`, a scalar multiple being the
integer multiple of the point. -/
def Commit {G : Type} [AddCommGroup G] (g : G) (x r : Int) (h : G) : G :=
  x • g + r • h

/-- The library type `groups.SchnorrGroup` as far as the commitment uses it:
the modulus `P`, the generator `G` and the order `Q`. -/
structure SchnorrGroup where
  P : Int
  G : Int
  Q : Int
deriving DecidableEq

/-- The library's `Exp` of a Schnorr group, for a non-negative exponent:
`x ^ e mod P`. -/
def SchnorrGroup.Exp (grp : SchnorrGroup) (x e : Int) : Int :=
  x ^ e.toNat % grp.P

/-- The library's `Mul` of a Schnorr group: `x * y mod P`. -/
def SchnorrGroup.Mul (grp : SchnorrGroup) (x y : Int) : Int :=
  x * y % grp.P

/-- Go `PedersenPublic` of package `pedersengroup`. -/
structure PedersenPublic where
  Group : SchnorrGroup
  H : Int
deriving DecidableEq

/-- Go `CalculateCommitment`: the value is refused when `val.Cmp(Q) == 1` or
`val.Cmp(0) == -1`. -/
def PedersenPublic.CalculateCommitment (p : PedersenPublic) (val r : Int) : Res Int :=
  if val > p.Group.Q ∨ val < 0 then
    .error "committed value needs to be in Z_q (order of a base point)"
  else
    let t1 := p.Group.Exp p.Group.G val
    let t2 := p.Group.Exp p.H r
    let comm := p.Group.Mul t1 t2
    .ok comm

/-- Go `SumCommitment`. -/
def PedersenPublic.SumCommitment (p : PedersenPublic) (commitment1 commitment2 : Int) : Int :=
  p.Group.Mul commitment1 commitment2

/-- Go `CheckCommitment`. -/
def PedersenPublic.CheckCommitment (p : PedersenPublic) (val r commitment : Int) : Bool :=
  let t1 := p.Group.Exp p.Group.G val
  let t2 := p.Group.Exp p.H r
  let c := p.Group.Mul t1 t2
  decide (c = commitment)

/-- Public parameters of a small Schnorr group: modulus 23, order 11, generator
2 and second generator 4, both of order 11 modulo 23. -/
def smallPedersen : PedersenPublic :=
  ⟨⟨23, 2, 11⟩, 4⟩

/-! ## Concrete runs

Every run starts from `emptyLedger` and uses `idealScheme`, so a commitment
is the committed integer and a proof is the integer it proves in range. -/

/-- Sequencing of invocations: the next invocation runs on the store the
previous one left, and is skipped once one has failed. -/
def thenDo {σ : Type} (o : Outcome σ) (f : σ → Outcome σ) : Outcome σ :=
  match o.res with
  | .ok _ => f o.state
  | .error _ => o
  | .panic => o

/-- Scenario A before settlement: banks 1 and 2 minted with 100 each, payment
1 of 10 from bank 1 to bank 2 admitted. -/
def scenarioA : Outcome (Ledger Int Int Unit) :=
  thenDo (MintAccount idealScheme emptyLedger [⟨1, 100, 100⟩, ⟨2, 100, 100⟩])
    (fun s => AddMessage idealScheme s ⟨1, 1, 2, 10, 10⟩)

/-- The gross settlement request of Scenario A. -/
def scenarioASet : GrossSettlementSet Int Int :=
  ⟨1, 1, 100, 90⟩

/-- The ten payment messages of Scenario B. -/
def scenarioBMessages : List (PaymentMessage Int Int) :=
  [⟨1, 1, 2, 5, 5⟩, ⟨2, 2, 3, 6, 6⟩, ⟨3, 2, 3, 30, 30⟩, ⟨4, 3, 4, 8, 8⟩, ⟨5, 3, 5, 80, 80⟩,
   ⟨6, 4, 5, 7, 7⟩, ⟨7, 1, 3, 6, 6⟩, ⟨8, 5, 1, 8, 8⟩, ⟨9, 5, 2, 100, 100⟩, ⟨10, 4, 1, 5, 5⟩]

/-- Scenario B with the five accounts minted and the ten payments queued. -/
def scenarioBQueued : Outcome (Ledger Int Int Unit) :=
  scenarioBMessages.foldl (fun o m => thenDo o (fun s => AddMessage idealScheme s m))
    (MintAccount idealScheme emptyLedger
      [⟨1, 3, 3⟩, ⟨2, 4, 4⟩, ⟨3, 5, 5⟩, ⟨4, 4, 4⟩, ⟨5, 3, 3⟩])

/-- Scenario B after `startGLResolution` of session 1001 over banks 1 to 5. -/
def scenarioBStarted : Outcome (Ledger Int Int Unit) :=
  thenDo scenarioBQueued
    (fun s => startGLResolution s ⟨1001, [1, 2, 3, 4, 5], GLRStatusType.START⟩)

/-- Submit a list of proposals one after the other. -/
def proposeAll (o : Outcome (Ledger Int Int Unit)) (ps : List (GridlockProposal Int Int)) :
    Outcome (Ledger Int Int Unit) :=
  ps.foldl (fun o p => thenDo o (fun s => proposeNettableSet idealScheme s p)) o

/-- Scenario B after the first round of proposals and its tally. -/
def scenarioBRound1 : Outcome (Ledger Int Int Unit) :=
  thenDo
    (proposeAll scenarioBStarted
      [⟨1001, 1, [1, 7], [], 3, 5, 0⟩,
       ⟨1001, 2, [2, 3], [], 4, 73, 0⟩,
       ⟨1001, 3, [4], [5], 5, 39, 41⟩,
       ⟨1001, 4, [6, 10], [], 4, 0, 0⟩,
       ⟨1001, 5, [8], [9], 3, 82, 18⟩])
    (fun s => tallyGridlockProposal s 1001)

/-- Scenario B after the second round of proposals and its tally. -/
def scenarioBRound2 : Outcome (Ledger Int Int Unit) :=
  thenDo
    (proposeAll scenarioBRound1
      [⟨1001, 2, [2], [3], 4, 3, 27⟩,
       ⟨1001, 5, [8], [9], 3, 2, 98⟩])
    (fun s => tallyGridlockProposal s 1001)

/-- The proposal of bank 3 in the third round of Scenario B. -/
def scenarioBProposal3 : GridlockProposal Int Int :=
  ⟨1001, 3, [4], [5], 5, 9, 71⟩

/-- Scenario B after the third round and its tally: the session has
converged. -/
def scenarioBConverged : Outcome (Ledger Int Int Unit) :=
  thenDo (proposeAll scenarioBRound2 [scenarioBProposal3])
    (fun s => tallyGridlockProposal s 1001)

/-- A two-bank session in which bank 1 leaves its queued payment 2 out of its
proposal without declaring it infeasible: both banks hold 10, payments 1 and 2
go from bank 1 to bank 2 (3 and 4), payment 3 from bank 2 to bank 1 (15). -/
def omissionQueued : Outcome (Ledger Int Int Unit) :=
  [(⟨1, 1, 2, 3, 3⟩ : PaymentMessage Int Int), ⟨2, 1, 2, 4, 4⟩, ⟨3, 2, 1, 15, 15⟩].foldl
    (fun o m => thenDo o (fun s => AddMessage idealScheme s m))
    (MintAccount idealScheme emptyLedger [⟨1, 10, 10⟩, ⟨2, 10, 10⟩])

/-- The omission session after both proposals were accepted. -/
def omissionProposed : Outcome (Ledger Int Int Unit) :=
  proposeAll
    (thenDo omissionQueued (fun s => startGLResolution s ⟨7, [1, 2], GLRStatusType.START⟩))
    [⟨7, 1, [1], [], 10, 22, 0⟩, ⟨7, 2, [3], [], 10, 2, 0⟩]

/-- The omission session after its tally. -/
def omissionTallied : Outcome (Ledger Int Int Unit) :=
  thenDo omissionProposed (fun s => tallyGridlockProposal s 7)

/-- The omission session after `NetGLSettlement`. -/
def omissionSettled : Outcome (Ledger Int Int Unit) :=
  thenDo omissionTallied (fun s => NetGLSettlement s 7)

/-- Scenario A after its gross settlement. -/
def scenarioASettled : Outcome (Ledger Int Int Unit) :=
  thenDo scenarioA (fun s => GrossSettlement idealScheme s scenarioASet)

/-- Scenario B after the first round, with bank 5 then proposing again and
declaring no infeasible payment, followed by the second tally. -/
def shrinkRound2 : Outcome (Ledger Int Int Unit) :=
  thenDo (proposeAll scenarioBRound1 [⟨1001, 5, [8], [], 3, 2, 0⟩])
    (fun s => tallyGridlockProposal s 1001)

/-- A proposal of bank 3 in Scenario B that names payment 1, which bank 1
sent and which is not in the out-queue of bank 3. -/
def foreignProposal : GridlockProposal Int Int :=
  ⟨1001, 3, [4, 1], [], 5, 34, 0⟩

/-- Banks 1 and 2 minted with 100 each; bank 1 queues payment 5 (of 10) and
then payment 3 (of 20) to bank 2, so its out-queue is [5, 3]. -/
def unorderedQueued : Outcome (Ledger Int Int Unit) :=
  [(⟨5, 1, 2, 10, 10⟩ : PaymentMessage Int Int), ⟨3, 1, 2, 20, 20⟩].foldl
    (fun o m => thenDo o (fun s => AddMessage idealScheme s m))
    (MintAccount idealScheme emptyLedger [⟨1, 100, 100⟩, ⟨2, 100, 100⟩])

/-- Scenario E: as Scenario A, with payments 1, 2 and 3 from bank 1 to bank 2
queued in this order. -/
def scenarioE : Outcome (Ledger Int Int Unit) :=
  [(⟨1, 1, 2, 10, 10⟩ : PaymentMessage Int Int), ⟨2, 1, 2, 10, 10⟩, ⟨3, 1, 2, 10, 10⟩].foldl
    (fun o m => thenDo o (fun s => AddMessage idealScheme s m))
    (MintAccount idealScheme emptyLedger [⟨1, 100, 100⟩, ⟨2, 100, 100⟩])

/-- Scenario A after minting, before the payment message. -/
def scenarioAMinted : Outcome (Ledger Int Int Unit) :=
  MintAccount idealScheme emptyLedger [⟨1, 100, 100⟩, ⟨2, 100, 100⟩]

/-- Scenario B with the first round of proposals stored, before its tally. -/
def scenarioBProposed1 : Outcome (Ledger Int Int Unit) :=
  proposeAll scenarioBStarted
    [⟨1001, 1, [1, 7], [], 3, 5, 0⟩,
     ⟨1001, 2, [2, 3], [], 4, 73, 0⟩,
     ⟨1001, 3, [4], [5], 5, 39, 41⟩,
     ⟨1001, 4, [6, 10], [], 4, 0, 0⟩,
     ⟨1001, 5, [8], [9], 3, 82, 18⟩]

/-- Scenario B with the second round of proposals stored, before its tally. -/
def scenarioBProposed2 : Outcome (Ledger Int Int Unit) :=
  proposeAll scenarioBRound1
    [⟨1001, 2, [2], [3], 4, 3, 27⟩,
     ⟨1001, 5, [8], [9], 3, 2, 98⟩]

/-- Scenario D: Scenario E after bank 1 settled payment 1 with its balance of
100. -/
def scenarioD : Outcome (Ledger Int Int Unit) :=
  thenDo scenarioE (fun s => GrossSettlement idealScheme s ⟨1, 1, 100, 90⟩)

/-- The second request of Scenario D, built from the same view as the first:
payment 2 with the balance of 100 that the first settlement has replaced. -/
def scenarioDStale : GrossSettlementSet Int Int :=
  ⟨1, 2, 100, 90⟩

/-- A mint batch whose first entry is valid and whose second names bank 9. -/
def partialMint : Outcome (Ledger Int Int Unit) :=
  MintAccount idealScheme emptyLedger [⟨1, 100, 100⟩, ⟨9, 1, 1⟩]

/-- Bank 1 minted with 100, bank 2 not minted, payment 1 of 10 from bank 1 to
bank 2 admitted. -/
def unmintedReceiver : Outcome (Ledger Int Int Unit) :=
  thenDo (MintAccount idealScheme emptyLedger [⟨1, 100, 100⟩])
    (fun s => AddMessage idealScheme s ⟨1, 1, 2, 10, 10⟩)

/-- Parameters installed, then payment id 1 admitted twice: first from bank 1
to bank 2, then from bank 2 to bank 1. -/
def reusedId : Outcome (Ledger Int Int Unit) :=
  thenDo
    (thenDo (Invoke idealScheme emptyStore (.initParams ()))
      (fun s => Invoke idealScheme s (.addMessage ⟨1, 1, 2, 10, 10⟩)))
    (fun s => Invoke idealScheme s (.addMessage ⟨1, 2, 1, 10, 10⟩))

/-- Scenario A run through the dispatcher from the empty store: parameters
installed, banks 1 and 2 minted with 100 each, payment 1 admitted. -/
def scenarioADispatched : Outcome (Ledger Int Int Unit) :=
  thenDo
    (thenDo (Invoke idealScheme emptyStore (.initParams ()))
      (fun s => Invoke idealScheme s (.mintAccount [⟨1, 100, 100⟩, ⟨2, 100, 100⟩])))
    (fun s => Invoke idealScheme s (.addMessage ⟨1, 1, 2, 10, 10⟩))

/-- Scenario E with a fourth payment queued: the out-queue of bank 1 is
`[1, 2, 3, 4]`. -/
def fourQueued : Outcome (Ledger Int Int Unit) :=
  thenDo scenarioE (fun s => AddMessage idealScheme s ⟨4, 1, 2, 10, 10⟩)

/-- Bank 1 holds 15 with payment 1 of 5 and payment 2 of 20 queued to bank 2.
Session 11 over banks 1 and 2 is started and bank 1 proposes in it, declaring
payment 2 infeasible; then session 1 is started with the single bank id 11. -/
def crossSession : Outcome (Ledger Int Int Unit) :=
  thenDo
    (thenDo
      (thenDo
        ([(⟨1, 1, 2, 5, 5⟩ : PaymentMessage Int Int), ⟨2, 1, 2, 20, 20⟩].foldl
          (fun o m => thenDo o (fun s => AddMessage idealScheme s m))
          (MintAccount idealScheme emptyLedger [⟨1, 15, 15⟩, ⟨2, 0, 0⟩]))
        (fun s => startGLResolution s ⟨11, [1, 2], GLRStatusType.START⟩))
      (fun s => proposeNettableSet idealScheme s ⟨11, 1, [1], [2], 15, 10, 10⟩))
    (fun s => startGLResolution s ⟨1, [11], GLRStatusType.START⟩)

/-- Five banks minted with 100 each and a single payment 1 of 10 from bank 1 to
bank 2.  Session 7 over all five banks: bank 1 proposes payment 1, the others
propose nothing, and the tally converges.  Only OutQueue(1) and InQueue(2) are
stored. -/
def sparseSession : Outcome (Ledger Int Int Unit) :=
  thenDo
    (proposeAll
      (thenDo
        (thenDo
          (MintAccount idealScheme emptyLedger
            [⟨1, 100, 100⟩, ⟨2, 100, 100⟩, ⟨3, 100, 100⟩, ⟨4, 100, 100⟩, ⟨5, 100, 100⟩])
          (fun s => AddMessage idealScheme s ⟨1, 1, 2, 10, 10⟩))
        (fun s => startGLResolution s ⟨7, [1, 2, 3, 4, 5], GLRStatusType.START⟩))
      [⟨7, 1, [1], [], 100, 90, 0⟩, ⟨7, 2, [], [], 100, 110, 0⟩, ⟨7, 3, [], [], 100, 100, 0⟩,
       ⟨7, 4, [], [], 100, 100, 0⟩, ⟨7, 5, [], [], 100, 100, 0⟩])
    (fun s => tallyGridlockProposal s 7)

/-- Scenario A run through the dispatcher, followed by `startGLResolution` of
session 7 over banks 1 and 2. -/
def scenarioADispatchedStarted : Outcome (Ledger Int Int Unit) :=
  thenDo scenarioADispatched
    (fun s => Invoke idealScheme s (.startGLResolution ⟨7, [1, 2], GLRStatusType.START⟩))

/-- Scenario B after `NetGLSettlement` of the converged session. -/
def scenarioBSettled : Outcome (Ledger Int Int Unit) :=
  thenDo scenarioBConverged (fun s => NetGLSettlement s 1001)

/-- Scenario B after a second `NetGLSettlement` of the same session. -/
def scenarioBSettledTwice : Outcome (Ledger Int Int Unit) :=
  thenDo scenarioBSettled (fun s => NetGLSettlement s 1001)

/-- Banks 1, 2 and 3 minted with 100 each and payment 1 of 10 from bank 1 to
bank 3.  Session 7 over banks 1 and 2 only: bank 1 proposes payment 1, bank 2
proposes nothing, and the tally converges.  Bank 1 has no in-queue and bank 2
has no queue at all; the receiver of payment 1 is outside the session. -/
def outsideReceiverSession : Outcome (Ledger Int Int Unit) :=
  thenDo
    (proposeAll
      (thenDo
        (thenDo
          (MintAccount idealScheme emptyLedger [⟨1, 100, 100⟩, ⟨2, 100, 100⟩, ⟨3, 100, 100⟩])
          (fun s => AddMessage idealScheme s ⟨1, 1, 3, 10, 10⟩))
        (fun s => startGLResolution s ⟨7, [1, 2], GLRStatusType.START⟩))
      [⟨7, 1, [1], [], 100, 90, 0⟩, ⟨7, 2, [], [], 100, 100, 0⟩])
    (fun s => tallyGridlockProposal s 7)

/-! ## Properties -/

set_option maxRecDepth 100000


theorem any_beq_iff_mem (x : Int) (ids : List Int) :
    ids.any (fun id => x == id) = true ↔ x ∈ ids := by
  rw [List.any_eq_true]
  constructor
  · rintro ⟨y, hy, hxy⟩
    have e : x = y := eq_of_beq hxy
    subst e
    exact hy
  · intro h
    exact ⟨x, h, beq_self_eq_true x⟩

/-- An accumulate-unless loop is a stable filter. -/
theorem foldl_skip_eq_filter (p : Int → Bool) (l init : List Int) :
    l.foldl (fun acc x => if p x then acc else acc ++ [x]) init
      = init ++ l.filter (fun x => !p x) := by
  induction l generalizing init with
  | nil => simp
  | cons a t ih =>
    simp only [List.foldl_cons, List.filter_cons]
    by_cases h : p a = true
    · simp [h, ih]
    · simp [h, ih]

theorem removeIds_eq_filter (stored ids : List Int) :
    removeIds stored ids = stored.filter (fun x => decide (x ∉ ids)) := by
  unfold removeIds
  rw [foldl_skip_eq_filter (fun x => ids.any (fun id => x == id))]
  simp only [List.nil_append]
  apply List.filter_congr
  intro x _
  by_cases h : x ∈ ids
  · have := (any_beq_iff_mem x ids).mpr h
    simp [this, h]
  · have : ids.any (fun id => x == id) = false := by
      cases c : ids.any (fun id => x == id)
      · rfl
      · exact absurd ((any_beq_iff_mem x ids).mp c) h
    rw [this]
    simp [h]

theorem infeasibleOf_eq_filter (q ids : List Int) :
    infeasibleOf q ids = q.filter (fun x => decide (x ∉ ids)) :=
  removeIds_eq_filter q ids

/-- The running-minimum loop returns a least element of the start value and the list. -/
theorem foldl_min_spec (l : List Int) (m0 : Int) :
    (l.foldl (fun m q => if q < m then q else m) m0 = m0 ∨
      l.foldl (fun m q => if q < m then q else m) m0 ∈ l) ∧
    l.foldl (fun m q => if q < m then q else m) m0 ≤ m0 ∧
    ∀ x ∈ l, l.foldl (fun m q => if q < m then q else m) m0 ≤ x := by
  induction l generalizing m0 with
  | nil => simp
  | cons a t ih =>
    simp only [List.foldl_cons]
    by_cases c : a < m0
    · simp only [c, if_true]
      obtain ⟨h1, h2, h3⟩ := ih a
      refine ⟨?_, by omega, ?_⟩
      · right
        rcases h1 with h1 | h1
        · rw [h1]; exact List.mem_cons_self _ _
        · exact List.mem_cons_of_mem _ h1
      · intro x hx
        rcases List.mem_cons.mp hx with rfl | hx
        · exact h2
        · exact h3 x hx
    · simp only [c, if_false]
      obtain ⟨h1, h2, h3⟩ := ih m0
      refine ⟨?_, h2, ?_⟩
      · rcases h1 with h1 | h1
        · left; exact h1
        · right; exact List.mem_cons_of_mem _ h1
      · intro x hx
        rcases List.mem_cons.mp hx with rfl | hx
        · omega
        · exact h3 x hx

/-- The running-maximum loop returns a greatest element of the start value and the list. -/
theorem foldl_max_spec (l : List Int) (m0 : Int) :
    (l.foldl (fun m p => if p > m then p else m) m0 = m0 ∨
      l.foldl (fun m p => if p > m then p else m) m0 ∈ l) ∧
    m0 ≤ l.foldl (fun m p => if p > m then p else m) m0 ∧
    ∀ x ∈ l, x ≤ l.foldl (fun m p => if p > m then p else m) m0 := by
  induction l generalizing m0 with
  | nil => simp
  | cons a t ih =>
    simp only [List.foldl_cons]
    by_cases c : a > m0
    · simp only [c, if_true]
      obtain ⟨h1, h2, h3⟩ := ih a
      refine ⟨?_, by omega, ?_⟩
      · right
        rcases h1 with h1 | h1
        · rw [h1]; exact List.mem_cons_self _ _
        · exact List.mem_cons_of_mem _ h1
      · intro x hx
        rcases List.mem_cons.mp hx with rfl | hx
        · exact h2
        · exact h3 x hx
    · simp only [c, if_false]
      obtain ⟨h1, h2, h3⟩ := ih m0
      refine ⟨?_, h2, ?_⟩
      · rcases h1 with h1 | h1
        · left; exact h1
        · right; exact List.mem_cons_of_mem _ h1
      · intro x hx
        rcases List.mem_cons.mp hx with rfl | hx
        · omega
        · exact h3 x hx

variable {G P PP : Type}

/-- C3. FIFO strict-priority rule: for a non-empty candidate list the check
returns a verdict, and the verdict is `true` exactly when the list `I` of queue
ids outside the candidate list is empty or its least element is greater than
the greatest candidate. -/
theorem verifyStrictPriority_iff (s : Ledger G P PP) (bankId : Int) (paymentIds : List Int)
    (hP : paymentIds ≠ []) :
    (∃ b, VerifyStrictPriority s bankId paymentIds = Res.ok b) ∧
    (VerifyStrictPriority s bankId paymentIds = Res.ok true ↔
      (GetQueueFromLedger s QueueTable.OutQueueTable bankId).filter
          (fun q => decide (q ∉ paymentIds)) = [] ∨
      ∃ m M, IsLeast {q | q ∈ (GetQueueFromLedger s QueueTable.OutQueueTable bankId).filter
                (fun q => decide (q ∉ paymentIds))} m ∧
        IsGreatest {p | p ∈ paymentIds} M ∧ M < m) := by
  unfold VerifyStrictPriority
  simp only [infeasibleOf_eq_filter]
  generalize (GetQueueFromLedger s QueueTable.OutQueueTable bankId).filter
      (fun q => decide (q ∉ paymentIds)) = I
  cases I with
  | nil => simp
  | cons q0 I' =>
    cases paymentIds with
    | nil => exact absurd rfl hP
    | cons p0 P' =>
      simp only [List.length_cons, Nat.succ_ne_zero, if_false, List.head?_cons]
      have hmin := foldl_min_spec (q0 :: I') q0
      have hmax := foldl_max_spec (p0 :: P') p0
      generalize (q0 :: I').foldl (fun m qid => if qid < m then qid else m) q0 = sm at hmin ⊢
      generalize (p0 :: P').foldl (fun m pid => if pid > m then pid else m) p0 = bg at hmax ⊢
      obtain ⟨a1, a2, a3⟩ := hmin
      obtain ⟨b1, b2, b3⟩ := hmax
      have hsm : IsLeast {q | q ∈ q0 :: I'} sm := by
        refine ⟨?_, fun x hx => a3 x hx⟩
        rcases a1 with a1 | a1
        · simp [a1]
        · exact a1
      have hbg : IsGreatest {p | p ∈ p0 :: P'} bg := by
        refine ⟨?_, fun x hx => b3 x hx⟩
        rcases b1 with b1 | b1
        · simp [b1]
        · exact b1
      constructor
      · by_cases c : sm ≤ bg
        · exact ⟨false, by simp [c]⟩
        · exact ⟨true, by simp [c]⟩
      · constructor
        · intro h
          right
          refine ⟨sm, bg, hsm, hbg, ?_⟩
          by_cases c : sm ≤ bg
          · simp [c] at h
          · omega
        · intro h
          rcases h with h | ⟨m, M, hm, hM, hlt⟩
          · simp at h
          · have e1 : m = sm := hm.unique hsm
            have e2 : M = bg := hM.unique hbg
            subst e1 e2
            have c : ¬ (m ≤ M) := by omega
            simp [c]

theorem andThen_ok {σ : Type} (s1 s : σ) (k : σ → Outcome σ) :
    (Res.ok s1).andThen s k = k s1 := rfl

theorem andThen_error {σ : Type} (m : String) (s : σ) (k : σ → Outcome σ) :
    (Res.error m : Res σ).andThen s k = ⟨Res.error m, s⟩ := rfl

theorem andThen_panic {σ : Type} (s : σ) (k : σ → Outcome σ) :
    (Res.panic : Res σ).andThen s k = ⟨Res.panic, s⟩ := rfl

theorem getPayment_some {s : Ledger G P PP} {pid : Int} {p : StoredPaymentMessage G P}
    (h : s.payment pid = some p) : GetPaymentFromLedger s pid = Res.ok p := by
  simp [GetPaymentFromLedger, h]

theorem getPayment_none {s : Ledger G P PP} {pid : Int} (h : s.payment pid = none) :
    GetPaymentFromLedger s pid = Res.error "No stored payment with this key" := by
  simp [GetPaymentFromLedger, h]

theorem markPayment_some {s : Ledger G P PP} {pid : Int} {p : StoredPaymentMessage G P}
    (h : s.payment pid = some p) :
    MarkPaymentFromLedger s pid = Res.ok { s with payment := (Function.update s.payment pid
      (some { p with Status := StatusType.SETTLED })) } := by
  simp [MarkPaymentFromLedger, getPayment_some h]

theorem markPayment_none {s : Ledger G P PP} {pid : Int} (h : s.payment pid = none) :
    MarkPaymentFromLedger s pid = Res.error "No stored payment with this key" := by
  simp [MarkPaymentFromLedger, getPayment_none h]

theorem getAccount_some {s : Ledger G P PP} {b : Int} {bal : G} (h : s.account b = some bal) :
    GetAccountFromLedger s b = Res.ok bal := by
  simp [GetAccountFromLedger, h]

theorem getAccount_none {s : Ledger G P PP} {b : Int} (h : s.account b = none) :
    GetAccountFromLedger s b = Res.error "No stored account with this key" := by
  simp [GetAccountFromLedger, h]

theorem updateAccount_decrease [AddCommGroup G] {s : Ledger G P PP} {b : Int} {bal : G}
    (amt : G) (h : s.account b = some bal) :
    UpdateAccountFromLedger s b false amt
      = Res.ok { s with account := Function.update s.account b (some (bal + -amt)) } := by
  simp [UpdateAccountFromLedger, getAccount_some h]

theorem updateAccount_increase [AddCommGroup G] {s : Ledger G P PP} {b : Int} {bal : G}
    (amt : G) (h : s.account b = some bal) :
    UpdateAccountFromLedger s b true amt
      = Res.ok { s with account := Function.update s.account b (some (bal + amt)) } := by
  simp [UpdateAccountFromLedger, getAccount_some h]

theorem updateAccount_none [AddCommGroup G] {s : Ledger G P PP} {b : Int}
    (inc : Bool) (amt : G) (h : s.account b = none) :
    UpdateAccountFromLedger s b inc amt = Res.error "No stored account with this key" := by
  simp [UpdateAccountFromLedger, getAccount_none h]

theorem removeQueue_some {s : Ledger G P PP} {t : QueueTable} {k : Int} {q : List Int}
    (ids : List Int) (h : s.queue t k = some q) :
    RemoveQueueElementFromLedger s t k ids = Res.ok (AddQueueToLedger s t k (removeIds q ids)) := by
  simp [RemoveQueueElementFromLedger, h]

theorem removeQueue_none {s : Ledger G P PP} {t : QueueTable} {k : Int}
    (ids : List Int) (h : s.queue t k = none) :
    RemoveQueueElementFromLedger s t k ids = Res.error "No stored queue with this key" := by
  simp [RemoveQueueElementFromLedger, h]

theorem grossSettlement_ok [AddCommGroup G] [DecidableEq G] (S : Scheme G P PP)
    (s : Ledger G P PP) (x : GrossSettlementSet G P)
    (h : (GrossSettlement S s x).res = Res.ok ()) :
    VerifyStrictPriority s x.BankId [x.PaymentId] = Res.ok true ∧
    verifySettlementSet S s x.BankId x.CmBalance x.Zkrp [x.PaymentId] = Res.ok true ∧
    ∃ p balS balR qIn qOut,
      s.payment x.PaymentId = some p ∧
      s.account p.Sender = some balS ∧
      Function.update s.account p.Sender (some (balS + -p.CmAmount)) p.Receiver = some balR ∧
      s.queue QueueTable.InQueueTable p.Receiver = some qIn ∧
      s.queue QueueTable.OutQueueTable p.Sender = some qOut ∧
      (GrossSettlement S s x).state = grossPost s x.PaymentId p balS balR qIn qOut := by
  unfold GrossSettlement at h ⊢
  cases hv : VerifyStrictPriority s x.BankId [x.PaymentId] with
  | error m => simp [hv] at h
  | panic => simp [hv] at h
  | ok b =>
    cases b with
    | false => simp [hv] at h
    | true =>
      cases hw : verifySettlementSet S s x.BankId x.CmBalance x.Zkrp [x.PaymentId] with
      | error m => simp [hv, hw] at h
      | panic => simp [hv, hw] at h
      | ok b =>
        cases b with
        | false => simp [hv, hw] at h
        | true =>
          simp only [hv, hw] at h ⊢
          refine ⟨trivial, trivial, ?_⟩
          cases hp : s.payment x.PaymentId with
          | none => simp [MarkPaymentFromLedger, GetPaymentFromLedger, hp, Res.andThen] at h
          | some p =>
            simp only [MarkPaymentFromLedger, GetPaymentFromLedger, hp, Res.andThen,
              Function.update_same] at h ⊢
            cases hs : s.account p.Sender with
            | none => simp [UpdateAccountFromLedger, GetAccountFromLedger, hs] at h
            | some balS =>
              simp only [UpdateAccountFromLedger, GetAccountFromLedger, hs, Bool.false_eq_true,
                if_false, if_true] at h ⊢
              cases hr : Function.update s.account p.Sender (some (balS + -p.CmAmount)) p.Receiver with
              | none => simp [hr] at h
              | some balR =>
                simp only [hr] at h ⊢
                cases hi : s.queue QueueTable.InQueueTable p.Receiver with
                | none => simp [RemoveQueueElementFromLedger, hi] at h
                | some qIn =>
                  simp only [RemoveQueueElementFromLedger, hi, AddQueueToLedger] at h ⊢
                  cases ho : s.queue QueueTable.OutQueueTable p.Sender with
                  | none => simp [ho] at h
                  | some qOut =>
                    refine ⟨p, balS, balR, qIn, qOut, rfl, hs, hr, hi, ho, ?_⟩
                    simp [ho, grossPost]

theorem removeIds_singleton (q : List Int) (pid : Int) :
    removeIds q [pid] = q.filter (fun x => decide (x ≠ pid)) := by
  rw [removeIds_eq_filter]
  apply List.filter_congr
  intro x _
  simp

theorem verifySettlementSet_single_ok [AddCommGroup G] [DecidableEq G] (S : Scheme G P PP)
    (s : Ledger G P PP) (bankId : Int) (cmBalance : G) (zkrp : P) (pid : Int)
    (h : verifySettlementSet S s bankId cmBalance zkrp [pid] = Res.ok true) :
    1 ≤ bankId ∧ bankId ≤ NumOfBanks ∧ s.account bankId = some cmBalance ∧
    ∃ p, s.payment pid = some p ∧ p.Sender = bankId ∧ p.Status = StatusType.ACTIVE ∧
      S.C zkrp = cmBalance + -p.CmAmount ∧ S.VerifyUL zkrp s.params = true := by
  unfold verifySettlementSet at h
  by_cases hb : bankId > NumOfBanks ∨ bankId ≤ 0
  · simp [hb] at h
  · simp only [hb, if_false] at h
    cases ha : s.account bankId with
    | none => simp [GetAccountFromLedger, ha, Res.unchecked] at h
    | some account =>
      simp only [GetAccountFromLedger, ha, Res.unchecked] at h
      by_cases hc : account ≠ cmBalance
      · simp [hc] at h
      · simp only [hc, if_false] at h
        have hc' : account = cmBalance := not_not.mp hc
        subst hc'
        cases hp : s.payment pid with
        | none => simp [subtractOwnOutgoing, GetPaymentFromLedger, hp] at h
        | some p =>
          simp only [subtractOwnOutgoing, GetPaymentFromLedger, hp] at h
          by_cases h1 : p.Sender ≠ bankId
          · simp [h1] at h
          · simp only [h1, if_false] at h
            by_cases h2 : p.Status = StatusType.SETTLED
            · simp [h2] at h
            · simp only [h2, if_false] at h
              by_cases h3 : S.C zkrp ≠ account + -p.CmAmount
              · simp [h3] at h
              · simp only [h3, if_false] at h
                by_cases h4 : S.VerifyUL zkrp s.params ≠ true
                · simp [h4] at h
                · refine ⟨by omega, by omega, rfl, p, rfl, not_not.mp h1, ?_, not_not.mp h3,
                    not_not.mp h4⟩
                  cases hst : p.Status with
                  | ACTIVE => rfl
                  | SETTLED => exact absurd hst h2

/-- C5. A successful grossSettlement met its preconditions: the bank id is in
[1, N], the stored balance equals the submitted one, the payment exists, was
sent by the bank and is ACTIVE (so not SETTLED), the proof's commitment is
cmBalance + neg(cmAmount), and VerifyUL accepted the proof. -/
theorem grossSettlement_preconditions [AddCommGroup G] [DecidableEq G] (S : Scheme G P PP)
    (s : Ledger G P PP) (x : GrossSettlementSet G P)
    (h : (GrossSettlement S s x).res = Res.ok ()) :
    1 ≤ x.BankId ∧ x.BankId ≤ NumOfBanks ∧ s.account x.BankId = some x.CmBalance ∧
    ∃ p, s.payment x.PaymentId = some p ∧ p.Sender = x.BankId ∧
      p.Status = StatusType.ACTIVE ∧ p.Status ≠ StatusType.SETTLED ∧
      S.C x.Zkrp = x.CmBalance + -p.CmAmount ∧ S.VerifyUL x.Zkrp s.params = true := by
  obtain ⟨_, hw, _⟩ := grossSettlement_ok S s x h
  obtain ⟨h1, h2, h3, p, h4, h5, h6, h7, h8⟩ :=
    verifySettlementSet_single_ok S s x.BankId x.CmBalance x.Zkrp x.PaymentId hw
  exact ⟨h1, h2, h3, p, h4, h5, h6, by rw [h6]; decide, h7, h8⟩

/-- C4. Postcondition of a successful grossSettlement: the payment is
rewritten with status SETTLED and all other fields kept, the sender's balance
is old + neg(cmAmount) and the receiver's old + cmAmount (for a payment whose
sender differs from its receiver, as the data model requires), the payment id
is filtered out of the sender's out-queue and the receiver's in-queue, and
every other key of every table is unchanged. -/
theorem grossSettlement_postcondition [AddCommGroup G] [DecidableEq G] (S : Scheme G P PP)
    (s : Ledger G P PP) (x : GrossSettlementSet G P)
    (h : (GrossSettlement S s x).res = Res.ok ()) :
    ∃ p balS balR qOut qIn,
      s.payment x.PaymentId = some p ∧ p.Sender = x.BankId ∧
      s.account p.Sender = some balS ∧ s.account p.Receiver = some balR ∧
      s.queue QueueTable.OutQueueTable p.Sender = some qOut ∧
      s.queue QueueTable.InQueueTable p.Receiver = some qIn ∧
      (GrossSettlement S s x).state.payment =
        Function.update s.payment x.PaymentId (some { p with Status := StatusType.SETTLED }) ∧
      (p.Sender ≠ p.Receiver →
        (GrossSettlement S s x).state.account =
          Function.update (Function.update s.account p.Sender (some (balS + -p.CmAmount)))
            p.Receiver (some (balR + p.CmAmount))) ∧
      (GrossSettlement S s x).state.queue QueueTable.OutQueueTable =
        Function.update (s.queue QueueTable.OutQueueTable) p.Sender
          (some (qOut.filter (fun q => decide (q ≠ x.PaymentId)))) ∧
      (GrossSettlement S s x).state.queue QueueTable.InQueueTable =
        Function.update (s.queue QueueTable.InQueueTable) p.Receiver
          (some (qIn.filter (fun q => decide (q ≠ x.PaymentId)))) ∧
      (GrossSettlement S s x).state.queue QueueTable.InfeasibleTable =
        s.queue QueueTable.InfeasibleTable ∧
      (GrossSettlement S s x).state.config = s.config ∧
      (GrossSettlement S s x).state.proposal = s.proposal ∧
      (GrossSettlement S s x).state.params = s.params := by
  obtain ⟨_, hw, p, balS, balR', qIn, qOut, hp, hs, hr, hi, ho, hst⟩ :=
    grossSettlement_ok S s x h
  obtain ⟨_, _, _, p', hp', hsender, _⟩ :=
    verifySettlementSet_single_ok S s x.BankId x.CmBalance x.Zkrp x.PaymentId hw
  have e : p' = p := by rw [hp] at hp'; exact (Option.some.inj hp').symm
  subst e
  by_cases hne : p'.Sender = p'.Receiver
  · -- receiver's balance read after the sender's update
    refine ⟨p', balS, balS, qOut, qIn, hp, hsender, hs, by rw [← hne]; exact hs, ho, hi, ?_,
      fun c => absurd hne c, ?_, ?_, ?_, ?_, ?_, ?_⟩ <;> rw [hst] <;>
      simp [grossPost, removeIds_singleton]
  · have hr' : s.account p'.Receiver = some balR' := by
      rw [Function.update_noteq (Ne.symm hne)] at hr
      exact hr
    refine ⟨p', balS, balR', qOut, qIn, hp, hsender, hs, hr', ho, hi, ?_, fun _ => ?_, ?_, ?_,
      ?_, ?_, ?_, ?_⟩ <;> rw [hst] <;> simp [grossPost, removeIds_singleton]

theorem settled_settled (p : StoredPaymentMessage G P) : settled (settled p) = settled p := rfl

theorem markAll_lookup {pay : Int → Option (StoredPaymentMessage G P)} {done : List Int}
    {pid : Int} {q : StoredPaymentMessage G P} (h : markAll pay done pid = some q) :
    ∃ p, pay pid = some p ∧ q.Sender = p.Sender ∧ q.Receiver = p.Receiver ∧
      q.CmAmount = p.CmAmount ∧ settled q = settled p := by
  unfold markAll at h
  by_cases c : pid ∈ done
  · simp only [c, if_true] at h
    cases hp : pay pid with
    | none => simp [hp] at h
    | some p =>
      simp only [hp, Option.map_some', Option.some.injEq] at h
      subst h
      exact ⟨p, rfl, rfl, rfl, rfl, rfl⟩
  · simp only [c, if_false] at h
    exact ⟨q, h, rfl, rfl, rfl, rfl⟩

theorem markAll_snoc {pay : Int → Option (StoredPaymentMessage G P)} {done : List Int}
    {pid : Int} {p q : StoredPaymentMessage G P} (hp : pay pid = some p)
    (hq : settled q = settled p) :
    Function.update (markAll pay done) pid (some (settled q)) = markAll pay (done ++ [pid]) := by
  funext x
  by_cases hx : x = pid
  · subst hx
    simp [markAll, hp, hq]
  · rw [Function.update_noteq hx]
    simp [markAll, hx]

theorem markAll_nil (pay : Int → Option (StoredPaymentMessage G P)) : markAll pay [] = pay := by
  funext x
  simp [markAll]

theorem sumAmounts_nil [AddCommGroup G] (s : Ledger G P PP) : sumAmounts s [] = 0 := rfl

theorem sumAmounts_cons [AddCommGroup G] (s : Ledger G P PP) (a : Int) (l : List Int) :
    sumAmounts s (a :: l) = amountOf s a + sumAmounts s l := by
  simp [sumAmounts]

theorem sumAmounts_append [AddCommGroup G] (s : Ledger G P PP) (l1 l2 : List Int) :
    sumAmounts s (l1 ++ l2) = sumAmounts s l1 + sumAmounts s l2 := by
  simp [sumAmounts]

theorem netDelta_nil [AddCommGroup G] (s : Ledger G P PP) (b : Int) : netDelta s b [] = 0 := by
  simp [netDelta, sumAmounts]

theorem netDelta_append [AddCommGroup G] (s : Ledger G P PP) (b : Int) (l1 l2 : List Int) :
    netDelta s b (l1 ++ l2) = netDelta s b l1 + netDelta s b l2 := by
  simp only [netDelta, List.filter_append, sumAmounts_append]
  abel

theorem netDelta_cons [AddCommGroup G] (s : Ledger G P PP) (b pid : Int) (rest : List Int)
    (p : StoredPaymentMessage G P) (hp : s.payment pid = some p) :
    netDelta s b (pid :: rest)
      = ((if p.Receiver = b then p.CmAmount else 0) - (if p.Sender = b then p.CmAmount else 0))
        + netDelta s b rest := by
  have e : pid :: rest = [pid] ++ rest := rfl
  rw [e, netDelta_append]
  congr 1
  simp only [netDelta, List.filter_cons, List.filter_nil, receiverIs, senderIs, hp]
  by_cases c1 : p.Receiver = b <;> by_cases c2 : p.Sender = b <;>
    simp [c1, c2, sumAmounts, amountOf, hp]

theorem settleOutgoing_ok [AddCommGroup G] (s0 : Ledger G P PP) (pids : List Int) :
    ∀ (done : List Int) (st : NetState G P PP),
      st.ledger = { s0 with payment := markAll s0.payment done } →
      (settleOutgoing pids st).res = Res.ok () →
      (settleOutgoing pids st).state.ledger
          = { s0 with payment := markAll s0.payment (done ++ pids) } ∧
      (∀ b, (settleOutgoing pids st).state.bankBalance b
          = (st.bankBalance b).map (fun v => v + netDelta s0 b pids)) ∧
      (∀ b, (settleOutgoing pids st).state.outgoingIds b
          = st.outgoingIds b ++ pids.filter (senderIs s0 b)) ∧
      (∀ b, (settleOutgoing pids st).state.incomingIds b
          = st.incomingIds b ++ pids.filter (receiverIs s0 b)) ∧
      (∀ pid ∈ pids, ∃ p, s0.payment pid = some p ∧
          (st.bankBalance p.Sender).isSome = true ∧
          (st.bankBalance p.Receiver).isSome = true) := by
  induction pids with
  | nil =>
    intro done st hst _
    simp [settleOutgoing, hst, netDelta_nil]
  | cons pid rest ih =>
    intro done st hst h
    unfold settleOutgoing at h ⊢
    have hlook : st.ledger.payment pid = markAll s0.payment done pid := by rw [hst]
    cases hq : st.ledger.payment pid with
    | none => simp [GetPaymentFromLedger, hq] at h
    | some q =>
      obtain ⟨p, hp, e1, e2, e3, e4⟩ := markAll_lookup (hlook ▸ hq)
      simp only [GetPaymentFromLedger, hq, MarkPaymentFromLedger] at h ⊢
      cases hS : st.bankBalance q.Sender with
      | none => simp [hS] at h
      | some balS =>
        simp only [hS] at h ⊢
        cases hR : Function.update st.bankBalance q.Sender (some (balS + -q.CmAmount))
            q.Receiver with
        | none => simp [hR] at h
        | some balR =>
          simp only [hR] at h ⊢
          have hst1 : ({ st.ledger with payment := (Function.update st.ledger.payment pid
              (some { q with Status := StatusType.SETTLED })) } : Ledger G P PP)
              = { s0 with payment := markAll s0.payment (done ++ [pid]) } := by
            rw [hst]
            simp only [Ledger.mk.injEq, true_and, and_true]
            exact markAll_snoc hp e4
          obtain ⟨r1, r2, r3, r4, r5⟩ := ih (done ++ [pid]) _ hst1 h
          have hRsome : (st.bankBalance q.Receiver).isSome = true := by
            by_cases c : q.Receiver = q.Sender
            · rw [c, hS]; rfl
            · rw [Function.update_noteq c] at hR
              rw [hR]; rfl
          refine ⟨?_, ?_, ?_, ?_, ?_⟩
          · rw [r1]; simp
          · intro b
            rw [r2 b, netDelta_cons s0 b pid rest p hp, ← e1, ← e2, ← e3]
            dsimp only
            by_cases cR : q.Receiver = b
            · subst cR
              simp only [Function.update_same, Option.map_some', if_true]
              by_cases cS : q.Sender = q.Receiver
              · rw [← cS] at hR ⊢
                simp only [Function.update_same, Option.some.injEq] at hR
                subst hR
                simp only [hS, Option.map_some', if_true, Option.some.injEq]
                abel
              · have hR' : st.bankBalance q.Receiver = some balR := by
                  rw [Function.update_noteq (Ne.symm cS)] at hR
                  exact hR
                simp only [hR', Option.map_some', cS, if_false, Option.some.injEq]
                abel
            · rw [Function.update_noteq (Ne.symm cR)]
              by_cases cS : q.Sender = b
              · subst cS
                simp only [Function.update_same, Option.map_some', hS, cR, if_false, if_true,
                  Option.some.injEq]
                abel
              · rw [Function.update_noteq (Ne.symm cS)]
                simp only [cR, cS, if_false, sub_zero, zero_add]
          · intro b
            rw [r3 b]
            simp only [List.filter_cons, senderIs, hp, ← e1]
            by_cases cS : q.Sender = b
            · subst cS
              simp
            · simp [cS, Function.update_noteq (Ne.symm cS)]
          · intro b
            rw [r4 b]
            simp only [List.filter_cons, receiverIs, hp, ← e2]
            by_cases cR : q.Receiver = b
            · subst cR
              simp
            · simp [cR, Function.update_noteq (Ne.symm cR)]
          · intro x hx
            rcases List.mem_cons.mp hx with rfl | hx
            · exact ⟨p, hp, by rw [← e1, hS]; rfl, by rw [← e2]; exact hRsome⟩
            · obtain ⟨p2, hp2, a1, a2⟩ := r5 x hx
              dsimp only at a1 a2
              refine ⟨p2, hp2, ?_, ?_⟩
              · by_cases c1 : p2.Sender = q.Receiver
                · rw [c1]; exact hRsome
                · rw [Function.update_noteq c1] at a1
                  by_cases c2 : p2.Sender = q.Sender
                  · rw [c2, hS]; rfl
                  · rw [Function.update_noteq c2] at a1
                    exact a1
              · by_cases c1 : p2.Receiver = q.Receiver
                · rw [c1]; exact hRsome
                · rw [Function.update_noteq c1] at a2
                  by_cases c2 : p2.Receiver = q.Sender
                  · rw [c2, hS]; rfl
                  · rw [Function.update_noteq c2] at a2
                    exact a2

theorem proposedOutgoing_nil (s : Ledger G P PP) (gid : Int) : proposedOutgoing s gid [] = [] := rfl

theorem proposedOutgoing_cons (s : Ledger G P PP) (gid b : Int) (rest : List Int) :
    proposedOutgoing s gid (b :: rest) = outgoingOf s gid b ++ proposedOutgoing s gid rest := by
  simp [proposedOutgoing]

theorem settleProposals_ok [AddCommGroup G] (s0 : Ledger G P PP) (gid : Int) (banks : List Int) :
    ∀ (done : List Int) (st : NetState G P PP),
      st.ledger = { s0 with payment := markAll s0.payment done } →
      (settleProposals gid banks st).res = Res.ok () →
      (settleProposals gid banks st).state.ledger
          = { s0 with payment := markAll s0.payment (done ++ proposedOutgoing s0 gid banks) } ∧
      (∀ b, (settleProposals gid banks st).state.bankBalance b
          = (st.bankBalance b).map (fun v => v + netDelta s0 b (proposedOutgoing s0 gid banks))) ∧
      (∀ b, (settleProposals gid banks st).state.outgoingIds b
          = st.outgoingIds b ++ (proposedOutgoing s0 gid banks).filter (senderIs s0 b)) ∧
      (∀ b, (settleProposals gid banks st).state.incomingIds b
          = st.incomingIds b ++ (proposedOutgoing s0 gid banks).filter (receiverIs s0 b)) ∧
      (∀ pid ∈ proposedOutgoing s0 gid banks, ∃ p, s0.payment pid = some p ∧
          (st.bankBalance p.Sender).isSome = true ∧
          (st.bankBalance p.Receiver).isSome = true) ∧
      (∀ b ∈ banks, (s0.proposal (proposalKey gid b)).isSome = true) := by
  induction banks with
  | nil =>
    intro done st hst _
    simp [settleProposals, hst, netDelta_nil, proposedOutgoing_nil]
  | cons bank rest ih =>
    intro done st hst h
    unfold settleProposals at h ⊢
    have hprop : st.ledger.proposal = s0.proposal := by rw [hst]
    cases hq : s0.proposal (proposalKey gid bank) with
    | none => simp [GetGridlockProposalFromLedger, hprop, hq] at h
    | some prop =>
      simp only [GetGridlockProposalFromLedger, hprop, hq] at h ⊢
      have hout : outgoingOf s0 gid bank = prop.OutgoingIds := by simp [outgoingOf, hq]
      cases hso : settleOutgoing prop.OutgoingIds st with
      | mk res st1 =>
        cases res with
        | error m => simp [hso] at h
        | panic => simp [hso] at h
        | ok u =>
          simp only [hso] at h ⊢
          have hres : (settleOutgoing prop.OutgoingIds st).res = Res.ok () := by rw [hso]
          obtain ⟨o1, o2, o3, o4, o5⟩ := settleOutgoing_ok s0 prop.OutgoingIds done st hst hres
          rw [hso] at o1 o2 o3 o4
          dsimp only at o1 o2 o3 o4
          obtain ⟨r1, r2, r3, r4, r5, r6⟩ := ih (done ++ prop.OutgoingIds) st1 o1 h
          rw [proposedOutgoing_cons, hout]
          refine ⟨?_, ?_, ?_, ?_, ?_, ?_⟩
          · rw [r1, List.append_assoc]
          · intro b
            rw [r2 b, o2 b, netDelta_append]
            cases st.bankBalance b with
            | none => rfl
            | some v => simp [add_assoc]
          · intro b
            rw [r3 b, o3 b, List.filter_append, List.append_assoc]
          · intro b
            rw [r4 b, o4 b, List.filter_append, List.append_assoc]
          · intro pid hpid
            rcases List.mem_append.mp hpid with hpid | hpid
            · exact o5 pid hpid
            · obtain ⟨p, hp, a1, a2⟩ := r5 pid hpid
              rw [o2] at a1 a2
              rw [Option.isSome_map'] at a1 a2
              exact ⟨p, hp, a1, a2⟩
          · intro b hb
            rcases List.mem_cons.mp hb with rfl | hb
            · rw [hq]; rfl
            · exact r6 b hb

theorem snapshotBalances_ok (s : Ledger G P PP) (banks : List Int) :
    ∀ (init bb : Int → Option G),
      snapshotBalances s banks init = Res.ok bb →
      (∀ b, bb b = if b ∈ banks then s.account b else init b) ∧
      (∀ b ∈ banks, (s.account b).isSome = true) := by
  induction banks with
  | nil =>
    intro init bb h
    simp only [snapshotBalances, Res.ok.injEq] at h
    subst h
    simp
  | cons bank rest ih =>
    intro init bb h
    unfold snapshotBalances at h
    cases ha : s.account bank with
    | none => simp [GetAccountFromLedger, ha, Res.unchecked] at h
    | some v =>
      simp only [GetAccountFromLedger, ha, Res.unchecked] at h
      obtain ⟨r1, r2⟩ := ih _ bb h
      refine ⟨?_, ?_⟩
      · intro b
        rw [r1 b]
        by_cases c1 : b ∈ rest
        · simp [c1]
        · by_cases c2 : b = bank
          · subst c2
            simp [c1, ha]
          · simp [c1, c2, Function.update_noteq c2]
      · intro b hb
        rcases List.mem_cons.mp hb with rfl | hb
        · rw [ha]; rfl
        · exact r2 b hb

theorem removeIds_idem (q ids : List Int) : removeIds (removeIds q ids) ids = removeIds q ids := by
  simp only [removeIds_eq_filter, List.filter_filter, Bool.and_self]

theorem writeBack_ok (bb : Int → Option G) (out inc : Int → List Int) (banks : List Int) :
    ∀ (s : Ledger G P PP),
      (writeBack bb out inc banks s).res = Res.ok () →
      (writeBack bb out inc banks s).state.params = s.params ∧
      (writeBack bb out inc banks s).state.payment = s.payment ∧
      (writeBack bb out inc banks s).state.config = s.config ∧
      (writeBack bb out inc banks s).state.proposal = s.proposal ∧
      (writeBack bb out inc banks s).state.queue QueueTable.InfeasibleTable
        = s.queue QueueTable.InfeasibleTable ∧
      (∀ b, (writeBack bb out inc banks s).state.account b
        = if b ∈ banks then bb b else s.account b) ∧
      (∀ b, (writeBack bb out inc banks s).state.queue QueueTable.InQueueTable b
        = if b ∈ banks then (s.queue QueueTable.InQueueTable b).map (fun q => removeIds q (inc b))
          else s.queue QueueTable.InQueueTable b) ∧
      (∀ b, (writeBack bb out inc banks s).state.queue QueueTable.OutQueueTable b
        = if b ∈ banks then (s.queue QueueTable.OutQueueTable b).map (fun q => removeIds q (out b))
          else s.queue QueueTable.OutQueueTable b) ∧
      (∀ b ∈ banks, (s.queue QueueTable.InQueueTable b).isSome = true ∧
        (s.queue QueueTable.OutQueueTable b).isSome = true) := by
  induction banks with
  | nil =>
    intro s _
    simp [writeBack]
  | cons bank rest ih =>
    intro s h
    unfold writeBack at h ⊢
    cases hb : bb bank with
    | none => simp [hb] at h
    | some v =>
      simp only [hb] at h ⊢
      cases hi : s.queue QueueTable.InQueueTable bank with
      | none => simp [RemoveQueueElementFromLedger, AddAccountToLedger, hi, Res.andThen] at h
      | some qIn =>
        simp only [RemoveQueueElementFromLedger, AddAccountToLedger, hi, andThen_ok,
          AddQueueToLedger] at h ⊢
        cases ho : s.queue QueueTable.OutQueueTable bank with
        | none => simp [ho, Res.andThen] at h
        | some qOut =>
          have ho' : Function.update s.queue QueueTable.InQueueTable
              (Function.update (s.queue QueueTable.InQueueTable) bank
                (some (removeIds qIn (inc bank)))) QueueTable.OutQueueTable bank = some qOut := by
            rw [Function.update_noteq (by decide)]
            exact ho
          simp only [ho', andThen_ok] at h ⊢
          obtain ⟨r1, r2, r3, r4, r5, r6, r7, r8, r9⟩ := ih _ h
          refine ⟨r1, r2, r3, r4, ?_, ?_, ?_, ?_, ?_⟩
          · rw [r5]; simp
          · intro b
            rw [r6 b]
            by_cases c1 : b ∈ rest
            · simp [c1]
            · by_cases c2 : b = bank
              · subst c2; simp [c1, hb]
              · simp [c1, c2, Function.update_noteq c2]
          · intro b
            rw [r7 b]
            by_cases c2 : b = bank
            · subst c2
              by_cases c1 : b ∈ rest
              · simp [c1, hi, removeIds_idem]
              · simp [c1, hi]
            · by_cases c1 : b ∈ rest
              · simp [c1, c2, Function.update_noteq c2]
              · simp [c1, c2, Function.update_noteq c2]
          · intro b
            rw [r8 b]
            by_cases c2 : b = bank
            · subst c2
              by_cases c1 : b ∈ rest
              · simp [c1, ho, removeIds_idem]
              · simp [c1, ho]
            · by_cases c1 : b ∈ rest
              · simp [c1, c2, Function.update_noteq c2]
              · simp [c1, c2, Function.update_noteq c2]
          · intro b hb'
            rcases List.mem_cons.mp hb' with rfl | hb'
            · rw [hi, ho]; exact ⟨rfl, rfl⟩
            · obtain ⟨a1, a2⟩ := r9 b hb'
              by_cases c2 : b = bank
              · subst c2; rw [hi, ho]; exact ⟨rfl, rfl⟩
              · simpa [Function.update_noteq c2] using And.intro a1 a2

/-- What a successful `NetGLSettlement` on a SUCCESS session leaves behind. -/
theorem netGLSettlement_ok [AddCommGroup G] (s : Ledger G P PP) (gid : Int)
    (cfg : GLRConfiguration) (hcfg : s.config gid = some cfg)
    (hS : cfg.Status = GLRStatusType.SUCCESS)
    (h : (NetGLSettlement s gid).res = Res.ok ()) :
    (∀ b ∈ cfg.BankIds, ∃ bal, s.account b = some bal ∧
      (NetGLSettlement s gid).state.account b
        = some (bal + netDelta s b (proposedOutgoing s cfg.GridlockId cfg.BankIds))) ∧
    (∀ b, b ∉ cfg.BankIds → (NetGLSettlement s gid).state.account b = s.account b) ∧
    (NetGLSettlement s gid).state.payment
      = markAll s.payment (proposedOutgoing s cfg.GridlockId cfg.BankIds) ∧
    (∀ pid ∈ proposedOutgoing s cfg.GridlockId cfg.BankIds, ∃ p, s.payment pid = some p ∧
      p.Sender ∈ cfg.BankIds ∧ p.Receiver ∈ cfg.BankIds) ∧
    (∀ b ∈ cfg.BankIds, ∃ q, s.queue QueueTable.OutQueueTable b = some q ∧
      (NetGLSettlement s gid).state.queue QueueTable.OutQueueTable b
        = some (removeIds q
            ((proposedOutgoing s cfg.GridlockId cfg.BankIds).filter (senderIs s b)))) ∧
    (∀ b ∈ cfg.BankIds, ∃ q, s.queue QueueTable.InQueueTable b = some q ∧
      (NetGLSettlement s gid).state.queue QueueTable.InQueueTable b
        = some (removeIds q
            ((proposedOutgoing s cfg.GridlockId cfg.BankIds).filter (receiverIs s b)))) ∧
    (∀ b, b ∉ cfg.BankIds →
      (NetGLSettlement s gid).state.queue QueueTable.OutQueueTable b
        = s.queue QueueTable.OutQueueTable b ∧
      (NetGLSettlement s gid).state.queue QueueTable.InQueueTable b
        = s.queue QueueTable.InQueueTable b) ∧
    (NetGLSettlement s gid).state.queue QueueTable.InfeasibleTable
      = s.queue QueueTable.InfeasibleTable ∧
    (NetGLSettlement s gid).state.config = s.config ∧
    (NetGLSettlement s gid).state.proposal = s.proposal ∧
    (NetGLSettlement s gid).state.params = s.params ∧
    (∀ b ∈ cfg.BankIds, (s.proposal (proposalKey cfg.GridlockId b)).isSome = true) := by
  unfold NetGLSettlement at h ⊢
  have hS' : ¬ (cfg.Status ≠ GLRStatusType.SUCCESS) := not_not.mpr hS
  simp only [GetGLRConfigFromLedger, hcfg, hS', if_false] at h ⊢
  cases hsnap : snapshotBalances s cfg.BankIds (fun _ => none) with
  | error m => simp [hsnap] at h
  | panic => simp [hsnap] at h
  | ok bb =>
    simp only [hsnap] at h ⊢
    obtain ⟨n1, n2⟩ := snapshotBalances_ok s cfg.BankIds _ bb hsnap
    have hst0 : s = { s with payment := markAll s.payment [] } := by
      rw [markAll_nil]
    cases hsp : settleProposals cfg.GridlockId cfg.BankIds
        { ledger := s, bankBalance := bb, outgoingIds := fun _ => [], incomingIds := fun _ => [] } with
    | mk res st =>
      cases res with
      | error m => simp [hsp] at h
      | panic => simp [hsp] at h
      | ok u =>
        simp only [hsp] at h ⊢
        have hres : (settleProposals cfg.GridlockId cfg.BankIds
            { ledger := s, bankBalance := bb, outgoingIds := fun _ => [],
              incomingIds := fun _ => [] }).res = Res.ok () := by rw [hsp]
        obtain ⟨p1, p2, p3, p4, p5, p6⟩ :=
          settleProposals_ok s cfg.GridlockId cfg.BankIds [] _ hst0 hres
        rw [hsp] at p1 p2 p3 p4
        simp only [List.nil_append] at p1 p2 p3 p4
        dsimp only at p5
        obtain ⟨w1, w2, w3, w4, w5, w6, w7, w8, w9⟩ :=
          writeBack_ok st.bankBalance st.outgoingIds st.incomingIds cfg.BankIds st.ledger h
        have hmem : ∀ x, (bb x).isSome = true → x ∈ cfg.BankIds := by
          intro x hx
          rw [n1 x] at hx
          by_cases c : x ∈ cfg.BankIds
          · exact c
          · simp [c] at hx
        refine ⟨?_, ?_, ?_, ?_, ?_, ?_, ?_, ?_, ?_, ?_, ?_, p6⟩
        · intro b hb
          have hsome := n2 b hb
          cases ha : s.account b with
          | none => rw [ha] at hsome; exact absurd hsome (by simp)
          | some bal =>
            refine ⟨bal, rfl, ?_⟩
            rw [w6 b, p2 b, n1 b]
            simp [hb, ha]
        · intro b hb
          rw [w6 b, p1]
          simp [hb]
        · rw [w2, p1]
        · intro pid hpid
          obtain ⟨p, hp, a1, a2⟩ := p5 pid hpid
          exact ⟨p, hp, hmem _ a1, hmem _ a2⟩
        · intro b hb
          obtain ⟨_, a2⟩ := w9 b hb
          rw [p1] at a2
          dsimp only at a2
          cases hq : s.queue QueueTable.OutQueueTable b with
          | none => rw [hq] at a2; exact absurd a2 (by simp)
          | some q =>
            refine ⟨q, rfl, ?_⟩
            rw [w8 b, p1, p3 b]
            simp [hb, hq]
        · intro b hb
          obtain ⟨a1, _⟩ := w9 b hb
          rw [p1] at a1
          dsimp only at a1
          cases hq : s.queue QueueTable.InQueueTable b with
          | none => rw [hq] at a1; exact absurd a1 (by simp)
          | some q =>
            refine ⟨q, rfl, ?_⟩
            rw [w7 b, p1, p4 b]
            simp [hb, hq]
        · intro b hb
          rw [w8 b, w7 b, p1]
          simp [hb]
        · rw [w5, p1]
        · rw [w3, p1]
        · rw [w4, p1]
        · rw [w1, p1]

theorem sum_map_update [AddCommGroup G] (f : Int → G) (k : Int) (v : G) :
    ∀ (l : List Int), l.Nodup → k ∈ l →
      (l.map (Function.update f k v)).sum = (l.map f).sum + (v - f k) := by
  intro l
  induction l with
  | nil => intro _ hk; simp at hk
  | cons a t ih =>
    intro hnd hk
    have hnd' := List.nodup_cons.mp hnd
    simp only [List.map_cons, List.sum_cons]
    by_cases c : a = k
    · subst c
      have e : t.map (Function.update f a v) = t.map f := by
        apply List.map_congr_left
        intro x hx
        have : x ≠ a := fun e => hnd'.1 (e ▸ hx)
        rw [Function.update_noteq this]
      rw [e, Function.update_same]
      abel
    · have hk' : k ∈ t := by
        rcases List.mem_cons.mp hk with e | e
        · exact absurd e.symm c
        · exact e
      rw [ih hnd'.2 hk', Function.update_noteq c]
      abel

theorem getD_update [AddCommGroup G] (acc : Int → Option G) (k : Int) (v : G) :
    (fun b => ((Function.update acc k (some v)) b).getD 0)
      = Function.update (fun b => (acc b).getD 0) k v := by
  funext b
  by_cases c : b = k
  · subst c; simp
  · simp [Function.update_noteq c]

theorem sum_indicator [AddCommGroup G] (r : Int) (a : G) :
    ∀ (l : List Int), l.Nodup → r ∈ l → (l.map (fun b => if r = b then a else 0)).sum = a := by
  intro l
  induction l with
  | nil => intro _ hr; simp at hr
  | cons x t ih =>
    intro hnd hr
    have hnd' := List.nodup_cons.mp hnd
    simp only [List.map_cons, List.sum_cons]
    by_cases c : r = x
    · subst c
      have e : t.map (fun b => if r = b then a else 0) = t.map (fun _ => (0 : G)) := by
        apply List.map_congr_left
        intro y hy
        have : r ≠ y := fun e => hnd'.1 (e ▸ hy)
        simp [this]
      rw [e]
      simp
    · have hr' : r ∈ t := by
        rcases List.mem_cons.mp hr with e | e
        · exact absurd e c
        · exact e
      rw [ih hnd'.2 hr']
      simp [c]

theorem sum_map_sub_add [AddCommGroup G] (f g h : Int → G) (l : List Int) :
    (l.map (fun b => f b - g b + h b)).sum = (l.map f).sum - (l.map g).sum + (l.map h).sum := by
  induction l with
  | nil => simp
  | cons a t ih =>
    simp only [List.map_cons, List.sum_cons, ih]
    abel

theorem sum_map_add' [AddCommGroup G] (f g : Int → G) (l : List Int) :
    (l.map (fun b => f b + g b)).sum = (l.map f).sum + (l.map g).sum := by
  induction l with
  | nil => simp
  | cons a t ih =>
    simp only [List.map_cons, List.sum_cons, ih]
    abel

/-- Over a duplicate-free list of banks that contains every sender and
receiver, the net changes of a list of settled payments cancel. -/
theorem sum_netDelta_zero [AddCommGroup G] (s : Ledger G P PP) (banks : List Int)
    (hnd : banks.Nodup) :
    ∀ (ids : List Int),
      (∀ pid ∈ ids, ∃ p, s.payment pid = some p ∧ p.Sender ∈ banks ∧ p.Receiver ∈ banks) →
      (banks.map (fun b => netDelta s b ids)).sum = 0 := by
  intro ids
  induction ids with
  | nil =>
    intro _
    simp [netDelta_nil]
  | cons pid rest ih =>
    intro hall
    obtain ⟨p, hp, hs, hr⟩ := hall pid (List.mem_cons_self _ _)
    have e : (fun b => netDelta s b (pid :: rest))
        = (fun b => (if p.Receiver = b then p.CmAmount else 0)
            - (if p.Sender = b then p.CmAmount else 0) + netDelta s b rest) := by
      funext b
      exact netDelta_cons s b pid rest p hp
    rw [e, sum_map_sub_add, sum_indicator _ _ banks hnd hr, sum_indicator _ _ banks hnd hs,
      ih (fun x hx => hall x (List.mem_cons_of_mem _ hx))]
    abel

theorem netDelta_eq_zero [AddCommGroup G] (s : Ledger G P PP) (b : Int) (ids : List Int)
    (h : ∀ pid ∈ ids, ∃ p, s.payment pid = some p ∧ p.Sender ≠ b ∧ p.Receiver ≠ b) :
    netDelta s b ids = 0 := by
  induction ids with
  | nil => exact netDelta_nil s b
  | cons pid rest ih =>
    obtain ⟨p, hp, hs, hr⟩ := h pid (List.mem_cons_self _ _)
    rw [netDelta_cons s b pid rest p hp, ih (fun x hx => h x (List.mem_cons_of_mem _ hx))]
    simp [hs, hr]

/-- C1. Conservation: over any duplicate-free list of banks that contains
every bank with a stored account, the sum of the stored balances after a
successful grossSettlement, and after a successful NetGLSettlement, equals the
sum before the call. -/
theorem conservation [AddCommGroup G] [DecidableEq G] (S : Scheme G P PP)
    (s : Ledger G P PP) (banks : List Int) (hnd : banks.Nodup)
    (hall : ∀ b, s.account b ≠ none → b ∈ banks) :
    (∀ x : GrossSettlementSet G P, (GrossSettlement S s x).res = Res.ok () →
      totalBalance banks (GrossSettlement S s x).state = totalBalance banks s) ∧
    (∀ gid : Int, (NetGLSettlement s gid).res = Res.ok () →
      totalBalance banks (NetGLSettlement s gid).state = totalBalance banks s) := by
  constructor
  · intro x h
    obtain ⟨_, _, p, balS, balR, qIn, qOut, hp, hs, hr, hi, ho, hst⟩ :=
      grossSettlement_ok S s x h
    have hSmem : p.Sender ∈ banks := hall _ (by rw [hs]; simp)
    have hRmem : p.Receiver ∈ banks := by
      by_cases c : p.Receiver = p.Sender
      · rw [c]; exact hSmem
      · rw [Function.update_noteq c] at hr
        exact hall _ (by rw [hr]; simp)
    rw [hst]
    unfold totalBalance grossPost
    dsimp only
    rw [getD_update, sum_map_update _ _ _ banks hnd hRmem]
    rw [hr, getD_update, sum_map_update _ _ _ banks hnd hSmem]
    rw [hs]
    simp only [Option.getD_some]
    abel
  · intro gid h
    cases hcfg : s.config gid with
    | none => simp [NetGLSettlement, GetGLRConfigFromLedger, hcfg] at h
    | some cfg =>
      by_cases hS : cfg.Status = GLRStatusType.SUCCESS
      · obtain ⟨a1, a2, _, a4, _⟩ := netGLSettlement_ok s gid cfg hcfg hS h
        have hsub : ∀ b ∈ cfg.BankIds, b ∈ banks := by
          intro b hb
          obtain ⟨bal, hbal, _⟩ := a1 b hb
          exact hall b (by rw [hbal]; simp)
        have key : ∀ b, ((NetGLSettlement s gid).state.account b).getD 0
            = (s.account b).getD 0
              + netDelta s b (proposedOutgoing s cfg.GridlockId cfg.BankIds) := by
          intro b
          by_cases hb : b ∈ cfg.BankIds
          · obtain ⟨bal, hbal, hpost⟩ := a1 b hb
            rw [hpost, hbal]
            rfl
          · rw [a2 b hb, netDelta_eq_zero s b _ (fun pid hpid => by
              obtain ⟨p, hp, hs1, hr1⟩ := a4 pid hpid
              exact ⟨p, hp, fun e => hb (e ▸ hs1), fun e => hb (e ▸ hr1)⟩)]
            simp
        unfold totalBalance
        rw [show (fun b => ((NetGLSettlement s gid).state.account b).getD 0)
            = (fun b => (s.account b).getD 0
              + netDelta s b (proposedOutgoing s cfg.GridlockId cfg.BankIds)) from funext key]
        rw [sum_map_add', sum_netDelta_zero s banks hnd _ (fun pid hpid => by
          obtain ⟨p, hp, hs1, hr1⟩ := a4 pid hpid
          exact ⟨p, hp, hsub _ hs1, hsub _ hr1⟩)]
        simp
      · have : (NetGLSettlement s gid).state = s := by
          simp [NetGLSettlement, GetGLRConfigFromLedger, hcfg, hS]
        rw [this]

theorem addFeasibleIncoming_ok [AddCommGroup G] (s : Ledger G P PP) (inf : List Int) :
    ∀ (l : List Int) (acc r : G), addFeasibleIncoming s inf l acc = Res.ok r →
      r = acc + sumAmounts s (l.filter (fun id => decide (id ∉ inf))) ∧
      ∀ pid ∈ l.filter (fun id => decide (id ∉ inf)), (s.payment pid).isSome = true := by
  intro l
  induction l with
  | nil =>
    intro acc r h
    simp only [addFeasibleIncoming, Res.ok.injEq] at h
    simp [h, sumAmounts]
  | cons a t ih =>
    intro acc r h
    unfold addFeasibleIncoming at h
    by_cases c : a ∈ inf
    · have hany := (any_beq_iff_mem a inf).mpr c
      simp only [hany, if_true] at h
      obtain ⟨r1, r2⟩ := ih acc r h
      simp only [List.filter_cons, c, not_true_eq_false, decide_False, Bool.false_eq_true,
        if_false]
      exact ⟨r1, r2⟩
    · have hany : inf.any (fun infeasibleId => a == infeasibleId) = false := by
        cases e : inf.any (fun infeasibleId => a == infeasibleId)
        · rfl
        · exact absurd ((any_beq_iff_mem a inf).mp e) c
      simp only [hany, Bool.false_eq_true, if_false] at h
      cases hp : s.payment a with
      | none => simp [GetPaymentFromLedger, hp] at h
      | some p =>
        simp only [GetPaymentFromLedger, hp] at h
        obtain ⟨r1, r2⟩ := ih _ r h
        simp only [List.filter_cons, c, not_false_eq_true, decide_True, if_true]
        refine ⟨?_, ?_⟩
        · rw [r1, sumAmounts_cons]
          simp only [amountOf, hp]
          abel
        · intro pid hpid
          rcases List.mem_cons.mp hpid with rfl | hpid
          · rw [hp]; rfl
          · exact r2 pid hpid

theorem subtractOutgoing_ok [AddCommGroup G] (s : Ledger G P PP) :
    ∀ (l : List Int) (acc r : G), subtractOutgoing s l acc = Res.ok r →
      r = acc - sumAmounts s l ∧ ∀ pid ∈ l, (s.payment pid).isSome = true := by
  intro l
  induction l with
  | nil =>
    intro acc r h
    simp only [subtractOutgoing, Res.ok.injEq] at h
    simp [h, sumAmounts]
  | cons a t ih =>
    intro acc r h
    unfold subtractOutgoing at h
    cases hp : s.payment a with
    | none => simp [GetPaymentFromLedger, hp] at h
    | some p =>
      simp only [GetPaymentFromLedger, hp] at h
      obtain ⟨r1, r2⟩ := ih _ r h
      refine ⟨?_, ?_⟩
      · rw [r1, sumAmounts_cons]
        simp only [amountOf, hp]
        abel
      · intro pid hpid
        rcases List.mem_cons.mp hpid with rfl | hpid
        · rw [hp]; rfl
        · exact r2 pid hpid

theorem smallestOf_isLeast (id0 : Int) (ids : List Int) :
    IsLeast {i | i ∈ id0 :: ids} (smallestOf id0 (id0 :: ids)) := by
  obtain ⟨h1, _, h3⟩ := foldl_min_spec (id0 :: ids) id0
  refine ⟨?_, fun x hx => h3 x hx⟩
  rcases h1 with h1 | h1
  · show smallestOf id0 (id0 :: ids) ∈ id0 :: ids
    have : smallestOf id0 (id0 :: ids) = id0 := h1
    rw [this]
    exact List.mem_cons_self _ _
  · exact h1

/-- Everything an accepted proposal verification has checked. -/
theorem verifyGridlockProposal_ok [AddCommGroup G] [DecidableEq G] (S : Scheme G P PP)
    (s : Ledger G P PP) (prop : GridlockProposal G P)
    (h : verifyGridlockProposal S s prop = Res.ok true) :
    (∃ cfg, s.config prop.GridlockId = some cfg ∧ cfg.Status = GLRStatusType.START ∧
      prop.BankId ∈ cfg.BankIds) ∧
    VerifyStrictPriority s prop.BankId prop.OutgoingIds = Res.ok true ∧
    s.account prop.BankId = some prop.CmBalance ∧
    (∀ pid ∈ (GetQueueFromLedger s QueueTable.InQueueTable prop.BankId).filter
        (fun id => decide (id ∉ GetQueueFromLedger s QueueTable.InfeasibleTable prop.GridlockId)),
      (s.payment pid).isSome = true) ∧
    (∀ pid ∈ prop.OutgoingIds, (s.payment pid).isSome = true) ∧
    S.C prop.Zkrp1 = prop.CmBalance
      + sumAmounts s ((GetQueueFromLedger s QueueTable.InQueueTable prop.BankId).filter
          (fun id => decide (id ∉ GetQueueFromLedger s QueueTable.InfeasibleTable prop.GridlockId)))
      - sumAmounts s prop.OutgoingIds ∧
    S.VerifyUL prop.Zkrp1 s.params = true ∧
    (prop.InfeasibleIds ≠ [] → ∃ sm p, IsLeast {i | i ∈ prop.InfeasibleIds} sm ∧
      s.payment sm = some p ∧
      S.C prop.Zkrp2 = -(S.C prop.Zkrp1 - p.CmAmount) ∧
      S.VerifyUL prop.Zkrp2 s.params = true) := by
  unfold verifyGridlockProposal at h
  cases hcfg : s.config prop.GridlockId with
  | none => simp [GetGLRConfigFromLedger, hcfg, Res.unchecked] at h
  | some cfg =>
    simp only [GetGLRConfigFromLedger, hcfg, Res.unchecked] at h
    by_cases c1 : cfg.Status ≠ GLRStatusType.START
    · simp [c1] at h
    · simp only [c1, if_false] at h
      by_cases c2 : cfg.BankIds.any (fun id => id == prop.BankId) = false
      · simp [c2] at h
      · simp only [c2, Bool.false_eq_true, if_false] at h
        have hmem : prop.BankId ∈ cfg.BankIds := by
          have e : cfg.BankIds.any (fun id => id == prop.BankId) = true := by
            simpa using c2
          rw [List.any_eq_true] at e
          obtain ⟨y, hy, hxy⟩ := e
          have : y = prop.BankId := eq_of_beq hxy
          exact this ▸ hy
        cases hv : VerifyStrictPriority s prop.BankId prop.OutgoingIds with
        | error m => simp [hv] at h
        | panic => simp [hv] at h
        | ok b =>
          cases b with
          | false => simp [hv] at h
          | true =>
            simp only [hv] at h
            cases ha : s.account prop.BankId with
            | none => simp [GetAccountFromLedger, ha] at h
            | some account =>
              simp only [GetAccountFromLedger, ha] at h
              by_cases c3 : account ≠ prop.CmBalance
              · simp [c3] at h
              · simp only [c3, if_false] at h
                have e3 : account = prop.CmBalance := not_not.mp c3
                cases hin : addFeasibleIncoming s
                    (GetQueueFromLedger s QueueTable.InfeasibleTable prop.GridlockId)
                    (GetQueueFromLedger s QueueTable.InQueueTable prop.BankId) account with
                | error m => simp [hin] at h
                | panic => simp [hin] at h
                | ok cmSum1 =>
                  simp only [hin] at h
                  obtain ⟨i1, i2⟩ := addFeasibleIncoming_ok s _ _ _ _ hin
                  cases hout : subtractOutgoing s prop.OutgoingIds cmSum1 with
                  | error m => simp [hout] at h
                  | panic => simp [hout] at h
                  | ok cmSum =>
                    simp only [hout] at h
                    obtain ⟨o1, o2⟩ := subtractOutgoing_ok s _ _ _ hout
                    by_cases c4 : S.C prop.Zkrp1 ≠ cmSum
                    · simp [c4] at h
                    · simp only [c4, if_false] at h
                      have e4 : S.C prop.Zkrp1 = cmSum := not_not.mp c4
                      by_cases c5 : S.VerifyUL prop.Zkrp1 s.params ≠ true
                      · simp [c5] at h
                      · simp only [c5, if_false] at h
                        refine ⟨⟨cfg, rfl, not_not.mp c1, hmem⟩, rfl, by rw [e3], i2, o2, ?_,
                          not_not.mp c5, ?_⟩
                        · rw [e4, o1, i1, e3]
                        · intro hne
                          cases hinf : prop.InfeasibleIds with
                          | nil => exact absurd hinf hne
                          | cons id0 ids =>
                            simp only [hinf] at h
                            cases hp : s.payment (smallestOf id0 (id0 :: ids)) with
                            | none => simp [GetPaymentFromLedger, hp] at h
                            | some p =>
                              simp only [GetPaymentFromLedger, hp] at h
                              by_cases c6 : S.C prop.Zkrp2 ≠ -(cmSum + -p.CmAmount)
                              · rw [if_pos c6] at h
                                simp at h
                              · rw [if_neg c6] at h
                                by_cases c7 : S.VerifyUL prop.Zkrp2 s.params ≠ true
                                · rw [if_pos c7] at h
                                  simp at h
                                · refine ⟨_, p, smallestOf_isLeast id0 ids, hp, ?_,
                                    not_not.mp c7⟩
                                  rw [not_not.mp c6, e4, sub_eq_add_neg]

theorem proposeNettableSet_res_ok [AddCommGroup G] [DecidableEq G] (S : Scheme G P PP)
    (s : Ledger G P PP) (prop : GridlockProposal G P) :
    (proposeNettableSet S s prop).res = Res.ok () ↔
      verifyGridlockProposal S s prop = Res.ok true := by
  unfold proposeNettableSet
  cases hv : verifyGridlockProposal S s prop with
  | error m => simp
  | panic => simp
  | ok b => cases b <;> simp

theorem verifyGridlockProposal_zkrp2_irrelevant [AddCommGroup G] [DecidableEq G]
    (S : Scheme G P PP) (s : Ledger G P PP) (prop : GridlockProposal G P)
    (hinf : prop.InfeasibleIds = []) (z : P) :
    verifyGridlockProposal S s { prop with Zkrp2 := z } = verifyGridlockProposal S s prop := by
  unfold verifyGridlockProposal
  simp only [hinf]

/-- C6. An accepted proposeNettableSet bound both proofs to recomputed
commitments: the stored balance equals the submitted cmBalance, every payment
summed exists, VerifyUL accepted zkrp1 and its commitment is
cmPost = cmBalance + (sum of amounts over the ids of InQueue(bankId) outside
Infeasible(gid)) - (sum of amounts over outgoingIds); when infeasibleIds is
non-empty, with s its least element, VerifyUL accepted zkrp2 and its commitment
is neg(cmPost - payment(s).cmAmount), cmPost being the commitment of zkrp1; and
when infeasibleIds is empty, replacing zkrp2 by any other value does not change
what proposeNettableSet returns. -/
theorem proposeNettableSet_binds_proofs [AddCommGroup G] [DecidableEq G] (S : Scheme G P PP)
    (s : Ledger G P PP) (prop : GridlockProposal G P) :
    ((proposeNettableSet S s prop).res = Res.ok () →
      s.account prop.BankId = some prop.CmBalance ∧
      (∀ pid ∈ (GetQueueFromLedger s QueueTable.InQueueTable prop.BankId).filter
          (fun id => decide (id ∉ GetQueueFromLedger s QueueTable.InfeasibleTable prop.GridlockId))
          ++ prop.OutgoingIds,
        (s.payment pid).isSome = true) ∧
      S.VerifyUL prop.Zkrp1 s.params = true ∧
      S.C prop.Zkrp1 = prop.CmBalance
        + sumAmounts s ((GetQueueFromLedger s QueueTable.InQueueTable prop.BankId).filter
            (fun id =>
              decide (id ∉ GetQueueFromLedger s QueueTable.InfeasibleTable prop.GridlockId)))
        - sumAmounts s prop.OutgoingIds ∧
      (prop.InfeasibleIds ≠ [] → ∃ sm p, IsLeast {i | i ∈ prop.InfeasibleIds} sm ∧
        s.payment sm = some p ∧
        S.VerifyUL prop.Zkrp2 s.params = true ∧
        S.C prop.Zkrp2 = -(S.C prop.Zkrp1 - p.CmAmount))) ∧
    (prop.InfeasibleIds = [] → ∀ z : P,
      (proposeNettableSet S s { prop with Zkrp2 := z }).res
        = (proposeNettableSet S s prop).res) := by
  constructor
  · intro h
    obtain ⟨_, _, a3, a4, a5, a6, a7, a8⟩ :=
      verifyGridlockProposal_ok S s prop ((proposeNettableSet_res_ok S s prop).mp h)
    refine ⟨a3, ?_, a7, a6, ?_⟩
    · intro pid hpid
      rcases List.mem_append.mp hpid with hpid | hpid
      · exact a4 pid hpid
      · exact a5 pid hpid
    · intro hne
      obtain ⟨sm, p, b1, b2, b3, b4⟩ := a8 hne
      exact ⟨sm, p, b1, b2, b4, b3⟩
  · intro hinf z
    have e := verifyGridlockProposal_zkrp2_irrelevant S s prop hinf z
    unfold proposeNettableSet
    rw [e]
    cases verifyGridlockProposal S s prop with
    | error m => rfl
    | panic => rfl
    | ok b => cases b <;> rfl

theorem collectInfeasible_ok (s : Ledger G P PP) (gid : Int) :
    ∀ (banks : List Int) (acc : List Int),
      (∀ b ∈ banks, (s.proposal (proposalKey gid b)).isSome = true) →
      collectInfeasible s gid banks acc
        = Res.ok (acc ++ (banks.map (infeasibleOfProposal s gid)).flatten) := by
  intro banks
  induction banks with
  | nil =>
    intro acc _
    simp [collectInfeasible]
  | cons b rest ih =>
    intro acc h
    unfold collectInfeasible
    cases hp : s.proposal (proposalKey gid b) with
    | none =>
      have := h b (List.mem_cons_self _ _)
      rw [hp] at this
      exact absurd this (by simp)
    | some prop =>
      simp only [GetGridlockProposalFromLedger, hp]
      rw [ih _ (fun x hx => h x (List.mem_cons_of_mem _ hx))]
      simp [infeasibleOfProposal, hp]

/-- C7. Tally: when GLRConfig(gid), stored under its own id, has status START
and every bank of config.bankIds has a stored Proposal(gid, bankId),
tallyGridlockProposal succeeds, stores as Infeasible(gid) the concatenation, in
config.bankIds order, of the proposals' infeasibleIds, and leaves the
configuration with status SUCCESS if the length of that list equals the length
of the previously stored Infeasible(gid) (absent counting as empty) and with
status START otherwise. -/
theorem tallyGridlockProposal_spec (s : Ledger G P PP) (gid : Int) (cfg : GLRConfiguration)
    (hcfg : s.config gid = some cfg) (hkey : cfg.GridlockId = gid)
    (hstart : cfg.Status = GLRStatusType.START)
    (hprops : ∀ b ∈ cfg.BankIds, (s.proposal (proposalKey gid b)).isSome = true) :
    (tallyGridlockProposal s gid).res = Res.ok () ∧
    (tallyGridlockProposal s gid).state.queue QueueTable.InfeasibleTable gid
      = some ((cfg.BankIds.map (infeasibleOfProposal s gid)).flatten) ∧
    (tallyGridlockProposal s gid).state.config gid
      = some { cfg with Status :=
          if ((cfg.BankIds.map (infeasibleOfProposal s gid)).flatten).length
              = (GetQueueFromLedger s QueueTable.InfeasibleTable gid).length
          then GLRStatusType.SUCCESS else GLRStatusType.START } := by
  unfold tallyGridlockProposal
  have hs : ¬ (cfg.Status ≠ GLRStatusType.START) := not_not.mpr hstart
  simp only [GetGLRConfigFromLedger, hcfg, Res.unchecked, hs, if_false,
    collectInfeasible_ok s gid cfg.BankIds [] hprops, List.nil_append]
  by_cases c : ((cfg.BankIds.map (infeasibleOfProposal s gid)).flatten).length
      = (GetQueueFromLedger s QueueTable.InfeasibleTable gid).length
  · simp only [c, if_true]
    refine ⟨trivial, ?_, ?_⟩
    · simp [AddGLRConfigurationToLedger, AddQueueToLedger]
    · simp [AddGLRConfigurationToLedger, hkey]
  · simp only [c, if_false]
    refine ⟨trivial, ?_, ?_⟩
    · simp [AddQueueToLedger]
    · simp only [AddQueueToLedger, hcfg]
      rw [← hstart]

/-- C8. NetGLSettlement balances: after a successful NetGLSettlement on a
SUCCESS session, every participating bank b had a stored balance and its
balance is now that pre-call balance plus the sum of payment(pid).cmAmount over
the settled ids whose stored receiver is b minus the sum over the settled ids
whose stored sender is b, the settled ids being the concatenation, in
config.bankIds order, of the outgoingIds of the proposals stored for the
configuration's gridlock id. -/
theorem netGLSettlement_balances [AddCommGroup G] (s : Ledger G P PP) (gid : Int)
    (cfg : GLRConfiguration) (hcfg : s.config gid = some cfg)
    (hS : cfg.Status = GLRStatusType.SUCCESS)
    (h : (NetGLSettlement s gid).res = Res.ok ()) (b : Int) (hb : b ∈ cfg.BankIds) :
    ∃ bal, s.account b = some bal ∧
      (NetGLSettlement s gid).state.account b
        = some (bal
            + sumAmounts s
                ((proposedOutgoing s cfg.GridlockId cfg.BankIds).filter (receiverIs s b))
            - sumAmounts s
                ((proposedOutgoing s cfg.GridlockId cfg.BankIds).filter (senderIs s b))) := by
  obtain ⟨a1, _⟩ := netGLSettlement_ok s gid cfg hcfg hS h
  obtain ⟨bal, hbal, hpost⟩ := a1 b hb
  refine ⟨bal, hbal, ?_⟩
  rw [hpost, netDelta, add_sub_assoc]

theorem filter_notMem_of_subset (q X ids : List Int) (hX : ∀ x ∈ X, x ∈ ids) :
    (q.filter (fun x => decide (x ∉ X))).filter (fun x => decide (x ∉ ids))
      = q.filter (fun x => decide (x ∉ ids)) := by
  rw [List.filter_filter]
  apply List.filter_congr
  intro x _
  by_cases c : x ∈ ids
  · simp [c]
  · have : x ∉ X := fun hx => c (hX x hx)
    simp [c, this]

/-- What NetGLSettlement settles on a session in status SUCCESS: after a
successful NetGLSettlement on a SUCCESS session, every proposed id is a stored
payment between participating banks, now has status SETTLED (other fields
kept) and occurs neither in the out-queue of its sender nor in the in-queue of
its receiver; every other payment record is unchanged; and every queue is a
sublist of what it was whose entries outside the proposed ids are the same, in
the same order. -/
theorem netGLSettlement_settles_exactly [AddCommGroup G] (s : Ledger G P PP) (gid : Int)
    (cfg : GLRConfiguration) (hcfg : s.config gid = some cfg)
    (hS : cfg.Status = GLRStatusType.SUCCESS)
    (h : (NetGLSettlement s gid).res = Res.ok ()) :
    (∀ pid ∈ proposedOutgoing s cfg.GridlockId cfg.BankIds, ∃ p,
      s.payment pid = some p ∧
      (NetGLSettlement s gid).state.payment pid = some { p with Status := StatusType.SETTLED } ∧
      p.Sender ∈ cfg.BankIds ∧ p.Receiver ∈ cfg.BankIds ∧
      pid ∉ GetQueueFromLedger (NetGLSettlement s gid).state QueueTable.OutQueueTable p.Sender ∧
      pid ∉ GetQueueFromLedger (NetGLSettlement s gid).state QueueTable.InQueueTable p.Receiver) ∧
    (∀ pid, pid ∉ proposedOutgoing s cfg.GridlockId cfg.BankIds →
      (NetGLSettlement s gid).state.payment pid = s.payment pid) ∧
    (∀ (t : QueueTable) (b : Int),
      (GetQueueFromLedger (NetGLSettlement s gid).state t b).Sublist (GetQueueFromLedger s t b) ∧
      (GetQueueFromLedger (NetGLSettlement s gid).state t b).filter
          (fun x => decide (x ∉ proposedOutgoing s cfg.GridlockId cfg.BankIds))
        = (GetQueueFromLedger s t b).filter
          (fun x => decide (x ∉ proposedOutgoing s cfg.GridlockId cfg.BankIds))) := by
  obtain ⟨_, _, a3, a4, a5, a6, a7, a8, _⟩ := netGLSettlement_ok s gid cfg hcfg hS h
  refine ⟨?_, ?_, ?_⟩
  · intro pid hpid
    obtain ⟨p, hp, hs, hr⟩ := a4 pid hpid
    obtain ⟨qo, _, ho'⟩ := a5 p.Sender hs
    obtain ⟨qi, _, hi'⟩ := a6 p.Receiver hr
    refine ⟨p, hp, ?_, hs, hr, ?_, ?_⟩
    · rw [a3]
      simp [markAll, hpid, hp, settled]
    · unfold GetQueueFromLedger
      rw [ho', removeIds_eq_filter]
      intro hmem
      have := (List.mem_filter.mp hmem).2
      simp [List.mem_filter, hpid, senderIs, hp] at this
    · unfold GetQueueFromLedger
      rw [hi', removeIds_eq_filter]
      intro hmem
      have := (List.mem_filter.mp hmem).2
      simp [List.mem_filter, hpid, receiverIs, hp] at this
  · intro pid hpid
    rw [a3]
    simp [markAll, hpid]
  · intro t b
    by_cases hb : b ∈ cfg.BankIds
    · cases t with
      | InfeasibleTable =>
        unfold GetQueueFromLedger
        rw [a8]
        exact ⟨List.Sublist.refl _, rfl⟩
      | OutQueueTable =>
        obtain ⟨q, hq, hq'⟩ := a5 b hb
        unfold GetQueueFromLedger
        rw [hq, hq', removeIds_eq_filter]
        exact ⟨List.filter_sublist _, filter_notMem_of_subset _ _ _
          (fun x hx => (List.mem_filter.mp hx).1)⟩
      | InQueueTable =>
        obtain ⟨q, hq, hq'⟩ := a6 b hb
        unfold GetQueueFromLedger
        rw [hq, hq', removeIds_eq_filter]
        exact ⟨List.filter_sublist _, filter_notMem_of_subset _ _ _
          (fun x hx => (List.mem_filter.mp hx).1)⟩
    · obtain ⟨e1, e2⟩ := a7 b hb
      cases t with
      | InfeasibleTable =>
        unfold GetQueueFromLedger
        rw [a8]
        exact ⟨List.Sublist.refl _, rfl⟩
      | OutQueueTable =>
        unfold GetQueueFromLedger
        rw [e1]
        exact ⟨List.Sublist.refl _, rfl⟩
      | InQueueTable =>
        unfold GetQueueFromLedger
        rw [e2]
        exact ⟨List.Sublist.refl _, rfl⟩

/-- C2, amended. For a participating bank whose proposal was accepted on the
store `sp` and is settled on the store `s`: if its balance and the payment
amounts are the same in both stores, the settled payments it receives are, up to
order, the in-queue ids credited at verification, and the settled payments it
sends are, up to order, its own outgoingIds, then a successful NetGLSettlement
writes for it exactly the commitment of zkrp1, which VerifyUL accepted. -/
theorem netGLSettlement_writes_cmPost [AddCommGroup G] [DecidableEq G] (S : Scheme G P PP)
    (sp s : Ledger G P PP) (prop : GridlockProposal G P) (gid : Int) (cfg : GLRConfiguration)
    (hacc : (proposeNettableSet S sp prop).res = Res.ok ())
    (hcfg : s.config gid = some cfg) (hS : cfg.Status = GLRStatusType.SUCCESS)
    (hb : prop.BankId ∈ cfg.BankIds)
    (hbal : s.account prop.BankId = sp.account prop.BankId)
    (hamt : ∀ pid, amountOf s pid = amountOf sp pid)
    (hin : List.Perm
      ((proposedOutgoing s cfg.GridlockId cfg.BankIds).filter (receiverIs s prop.BankId))
      ((GetQueueFromLedger sp QueueTable.InQueueTable prop.BankId).filter
        (fun id => decide (id ∉ GetQueueFromLedger sp QueueTable.InfeasibleTable prop.GridlockId))))
    (hout : List.Perm
      ((proposedOutgoing s cfg.GridlockId cfg.BankIds).filter (senderIs s prop.BankId))
      prop.OutgoingIds)
    (h : (NetGLSettlement s gid).res = Res.ok ()) :
    (NetGLSettlement s gid).state.account prop.BankId = some (S.C prop.Zkrp1) ∧
    S.VerifyUL prop.Zkrp1 sp.params = true := by
  obtain ⟨_, _, a3, _, _, a6, a7, _⟩ :=
    verifyGridlockProposal_ok S sp prop ((proposeNettableSet_res_ok S sp prop).mp hacc)
  obtain ⟨b1, _⟩ := netGLSettlement_ok s gid cfg hcfg hS h
  obtain ⟨bal, hbal', hpost⟩ := b1 prop.BankId hb
  have e : bal = prop.CmBalance := by
    rw [hbal, a3] at hbal'
    exact (Option.some.inj hbal').symm
  have hsum : ∀ l, sumAmounts s l = sumAmounts sp l := by
    intro l
    unfold sumAmounts
    rw [show amountOf s = amountOf sp from funext hamt]
  refine ⟨?_, a7⟩
  rw [hpost, a6, e, netDelta, hsum, hsum, add_sub_assoc]
  unfold sumAmounts
  rw [(hin.map _).sum_eq, (hout.map _).sum_eq]

/-- On a stored session whose status is not SUCCESS, `NetGLSettlement` returns
no error and leaves the store as it was. -/
theorem netGLSettlement_wrong_status [AddCommGroup G] (s : Ledger G P PP) (gid : Int)
    (cfg : GLRConfiguration) (hcfg : s.config gid = some cfg)
    (hS : cfg.Status ≠ GLRStatusType.SUCCESS) :
    (NetGLSettlement s gid).res = Res.ok () ∧ (NetGLSettlement s gid).state = s := by
  simp [NetGLSettlement, GetGLRConfigFromLedger, hcfg, hS]

/-! ### Frame lemmas for sequences of invocations -/

theorem thenDo_preserves {σ : Type} (I : σ → Prop) (o : Outcome σ) (f : σ → Outcome σ)
    (ho : I o.state) (hf : ∀ s, I s → I (f s).state) : I (thenDo o f).state := by
  unfold thenDo
  cases o.res with
  | ok u => exact hf _ ho
  | error m => exact ho
  | panic => exact ho

theorem foldl_thenDo_preserves {σ α : Type} (I : σ → Prop) (g : α → σ → Outcome σ)
    (hg : ∀ a s, I s → I (g a s).state) :
    ∀ (l : List α) (o : Outcome σ), I o.state →
      I (l.foldl (fun o a => thenDo o (g a)) o).state := by
  intro l
  induction l with
  | nil => intro o ho; exact ho
  | cons a t ih =>
    intro o ho
    exact ih _ (thenDo_preserves I o (g a) ho (hg a))

theorem addMessage_account [DecidableEq G] (S : Scheme G P PP) (s : Ledger G P PP)
    (m : PaymentMessage G P) : (AddMessage S s m).state.account = s.account := by
  unfold AddMessage
  cases verifyPaymentMessage S s m with
  | error e => rfl
  | panic => rfl
  | ok b => cases b <;> rfl

theorem startGLResolution_account (s : Ledger G P PP) (c : GLRConfiguration) :
    (startGLResolution s c).state.account = s.account := rfl

theorem startGLResolution_payment (s : Ledger G P PP) (c : GLRConfiguration) :
    (startGLResolution s c).state.payment = s.payment := rfl

theorem proposeNettableSet_account [AddCommGroup G] [DecidableEq G] (S : Scheme G P PP)
    (s : Ledger G P PP) (p : GridlockProposal G P) :
    (proposeNettableSet S s p).state.account = s.account := by
  unfold proposeNettableSet
  cases verifyGridlockProposal S s p with
  | error e => rfl
  | panic => rfl
  | ok b => cases b <;> rfl

theorem proposeNettableSet_payment [AddCommGroup G] [DecidableEq G] (S : Scheme G P PP)
    (s : Ledger G P PP) (p : GridlockProposal G P) :
    (proposeNettableSet S s p).state.payment = s.payment := by
  unfold proposeNettableSet
  cases verifyGridlockProposal S s p with
  | error e => rfl
  | panic => rfl
  | ok b => cases b <;> rfl

theorem tallyGridlockProposal_frame (s : Ledger G P PP) (gid : Int) :
    (tallyGridlockProposal s gid).state.account = s.account ∧
    (tallyGridlockProposal s gid).state.payment = s.payment := by
  unfold tallyGridlockProposal
  cases (GetGLRConfigFromLedger s gid).unchecked with
  | error e => exact ⟨rfl, rfl⟩
  | panic => exact ⟨rfl, rfl⟩
  | ok config =>
    dsimp only
    split
    · exact ⟨rfl, rfl⟩
    · cases collectInfeasible s gid config.BankIds [] with
      | error e => exact ⟨rfl, rfl⟩
      | panic => exact ⟨rfl, rfl⟩
      | ok infeasible =>
        dsimp only
        split <;> exact ⟨rfl, rfl⟩

theorem mintAccount_accountsInRange [DecidableEq G] (S : Scheme G P PP) :
    ∀ (l : List (BankAccount G P)) (s : Ledger G P PP),
      AccountsInRange s → AccountsInRange (MintAccount S s l).state := by
  intro l
  induction l with
  | nil => intro s hs; exact hs
  | cons a t ih =>
    intro s hs
    unfold MintAccount
    cases hv : verifyAccount S s a with
    | error e => exact hs
    | panic => exact hs
    | ok b =>
      cases b with
      | false => exact hs
      | true =>
        apply ih
        have hr : 1 ≤ a.BankId ∧ a.BankId ≤ NumOfBanks := by
          unfold verifyAccount at hv
          by_cases c : a.BankId > NumOfBanks ∨ a.BankId ≤ 0
          · simp [c] at hv
          · constructor <;> omega
        intro b hb
        by_cases c : b = a.BankId
        · rw [c]; exact hr
        · apply hs
          simpa [AddAccountToLedger, Function.update_noteq c] using hb

theorem accountsInRange_mem (s : Ledger G P PP) (hs : AccountsInRange s) :
    ∀ b, s.account b ≠ none → b ∈ ([1, 2, 3, 4, 5] : List Int) := by
  intro b hb
  obtain ⟨h1, h2⟩ := hs b hb
  simp only [NumOfBanks] at h2
  simp only [List.mem_cons, List.mem_singleton, List.not_mem_nil, or_false]
  omega

theorem scenarioA_accountsInRange : AccountsInRange scenarioA.state := by
  unfold scenarioA
  apply thenDo_preserves AccountsInRange
  · exact mintAccount_accountsInRange idealScheme _ _ (fun b hb => absurd rfl hb)
  · intro s hs
    unfold AccountsInRange
    rw [addMessage_account]
    exact hs

theorem proposeAll_preserves (I : Ledger Int Int Unit → Prop)
    (hI : ∀ s p, I s → I (proposeNettableSet idealScheme s p).state)
    (o : Outcome (Ledger Int Int Unit)) (ps : List (GridlockProposal Int Int))
    (ho : I o.state) : I (proposeAll o ps).state :=
  foldl_thenDo_preserves I (fun p s => proposeNettableSet idealScheme s p)
    (fun p s hs => hI s p hs) ps o ho

theorem round_accountsInRange (o : Outcome (Ledger Int Int Unit))
    (ps : List (GridlockProposal Int Int)) (gid : Int) (ho : AccountsInRange o.state) :
    AccountsInRange (thenDo (proposeAll o ps) (fun s => tallyGridlockProposal s gid)).state := by
  apply thenDo_preserves AccountsInRange
  · apply proposeAll_preserves AccountsInRange _ _ _ ho
    intro s p hs
    unfold AccountsInRange
    rw [proposeNettableSet_account]
    exact hs
  · intro s hs
    unfold AccountsInRange
    rw [(tallyGridlockProposal_frame s gid).1]
    exact hs

theorem scenarioBConverged_accountsInRange : AccountsInRange scenarioBConverged.state := by
  apply round_accountsInRange
  apply round_accountsInRange
  apply round_accountsInRange
  apply thenDo_preserves AccountsInRange
  · apply foldl_thenDo_preserves AccountsInRange (fun m s => AddMessage idealScheme s m)
    · intro m s hs
      unfold AccountsInRange
      rw [addMessage_account]
      exact hs
    · exact mintAccount_accountsInRange idealScheme _ _ (fun b hb => absurd rfl hb)
  · intro s hs
    exact hs

theorem scenarioBConverged_payment :
    scenarioBConverged.state.payment = scenarioBRound2.state.payment := by
  unfold scenarioBConverged
  refine thenDo_preserves
    (fun s : Ledger Int Int Unit => s.payment = scenarioBRound2.state.payment) _ _ ?_ ?_
  · refine proposeAll_preserves
      (fun s : Ledger Int Int Unit => s.payment = scenarioBRound2.state.payment) ?_ _ _ rfl
    intro s p hs
    show (proposeNettableSet idealScheme s p).state.payment = scenarioBRound2.state.payment
    rw [proposeNettableSet_payment]
    exact hs
  · intro s hs
    show (tallyGridlockProposal s 1001).state.payment = scenarioBRound2.state.payment
    rw [(tallyGridlockProposal_frame s 1001).2]
    exact hs

/-! ### Concrete instances -/

/-- C1, witness: the gross settlement of Scenario A and the net settlement of
the converged Scenario B both succeed and keep the total over banks 1 to 5. -/
theorem conservation_witness :
    totalBalance [1, 2, 3, 4, 5] (GrossSettlement idealScheme scenarioA.state scenarioASet).state
      = totalBalance [1, 2, 3, 4, 5] scenarioA.state ∧
    (NetGLSettlement scenarioBConverged.state 1001).res = Res.ok () ∧
    totalBalance [1, 2, 3, 4, 5] (NetGLSettlement scenarioBConverged.state 1001).state
      = totalBalance [1, 2, 3, 4, 5] scenarioBConverged.state :=
  ⟨(conservation idealScheme scenarioA.state [1, 2, 3, 4, 5] (by decide)
      (accountsInRange_mem _ scenarioA_accountsInRange)).1 scenarioASet (by decide),
   by decide,
   (conservation idealScheme scenarioBConverged.state [1, 2, 3, 4, 5] (by decide)
      (accountsInRange_mem _ scenarioBConverged_accountsInRange)).2 1001 (by decide)⟩

/-- C2, counterexample: in the omission session both proposals are accepted,
the tally reaches SUCCESS and NetGLSettlement succeeds, yet the balance written
for bank 2 is -2 while the commitment of its zkrp1 is 2; -2 is outside the
proven range. -/
theorem solvency_counterexample :
    omissionProposed.res = Res.ok () ∧
    omissionTallied.res = Res.ok () ∧
    omissionTallied.state.config 7 = some ⟨7, [1, 2], GLRStatusType.SUCCESS⟩ ∧
    omissionSettled.res = Res.ok () ∧
    (omissionTallied.state.proposal (proposalKey 7 2)).map (fun p => idealScheme.C p.Zkrp1)
      = some 2 ∧
    omissionSettled.state.account 2 = some (-2) ∧
    omissionSettled.state.account 2
      ≠ (omissionTallied.state.proposal (proposalKey 7 2)).map (fun p => idealScheme.C p.Zkrp1) ∧
    idealScheme.VerifyUL (-2) omissionSettled.state.params = false := by
  decide

/-- C3, witness: on the out-queue [2, 3] of bank 2 in Scenario B the candidate
list [2, 3] is accepted (nothing is left out) and [3] is rejected. -/
theorem verifyStrictPriority_iff_witness :
    ([2, 3] : List Int) ≠ [] ∧
    VerifyStrictPriority scenarioBQueued.state 2 [2, 3] = Res.ok true ∧
    VerifyStrictPriority scenarioBQueued.state 2 [3] = Res.ok false :=
  ⟨by decide,
   ((verifyStrictPriority_iff scenarioBQueued.state 2 [2, 3] (by decide)).2).mpr
     (Or.inl (by decide)),
   by decide⟩

/-- C4, witness: Scenario A. The settlement succeeds; afterwards bank 1 holds
90, bank 2 holds 110, payment 1 is SETTLED and both queues are empty. -/
theorem grossSettlement_postcondition_witness :
    (GrossSettlement idealScheme scenarioA.state scenarioASet).res = Res.ok () ∧
    (GrossSettlement idealScheme scenarioA.state scenarioASet).state.account 1 = some 90 ∧
    (GrossSettlement idealScheme scenarioA.state scenarioASet).state.account 2 = some 110 ∧
    ((GrossSettlement idealScheme scenarioA.state scenarioASet).state.payment 1).map
      (fun p => p.Status) = some StatusType.SETTLED ∧
    (GrossSettlement idealScheme scenarioA.state scenarioASet).state.queue
      QueueTable.OutQueueTable 1 = some [] ∧
    (GrossSettlement idealScheme scenarioA.state scenarioASet).state.queue
      QueueTable.InQueueTable 2 = some [] ∧
    (GrossSettlement idealScheme scenarioA.state scenarioASet).state.config
      = scenarioA.state.config := by
  refine ⟨by decide, by decide, by decide, by decide, by decide, by decide, ?_⟩
  obtain ⟨_, _, _, _, _, _, _, _, _, _, _, _, _, _, _, _, h, _⟩ :=
    grossSettlement_postcondition idealScheme scenarioA.state scenarioASet (by decide)
  exact h

/-- C5, witness: the successful settlement of Scenario A carried the stored
balance of bank 1. -/
theorem grossSettlement_preconditions_witness :
    (GrossSettlement idealScheme scenarioA.state scenarioASet).res = Res.ok () ∧
    scenarioA.state.account scenarioASet.BankId = some scenarioASet.CmBalance :=
  ⟨by decide,
   (grossSettlement_preconditions idealScheme scenarioA.state scenarioASet (by decide)).2.2.1⟩

/-- C6, witness: the third-round proposal of bank 3 in Scenario B, with a
non-empty infeasible list, is accepted. -/
theorem proposeNettableSet_binds_proofs_witness :
    (proposeNettableSet idealScheme scenarioBRound2.state scenarioBProposal3).res = Res.ok () ∧
    idealScheme.VerifyUL scenarioBProposal3.Zkrp1 scenarioBRound2.state.params = true ∧
    scenarioBProposal3.InfeasibleIds ≠ [] :=
  ⟨by decide,
   ((proposeNettableSet_binds_proofs idealScheme scenarioBRound2.state scenarioBProposal3).1
      (by decide)).2.2.1,
   by decide⟩

/-- C7, witness: the third tally of Scenario B succeeds and stores the
infeasible list [3, 5, 9]. -/
theorem tallyGridlockProposal_spec_witness :
    (tallyGridlockProposal (proposeAll scenarioBRound2 [scenarioBProposal3]).state 1001).res
      = Res.ok () ∧
    (tallyGridlockProposal (proposeAll scenarioBRound2 [scenarioBProposal3]).state 1001).state.queue
      QueueTable.InfeasibleTable 1001 = some [3, 5, 9] :=
  ⟨(tallyGridlockProposal_spec (proposeAll scenarioBRound2 [scenarioBProposal3]).state 1001
      ⟨1001, [1, 2, 3, 4, 5], GLRStatusType.START⟩ (by decide) rfl rfl (by decide)).1,
   by decide⟩

/-- C8, witness: bank 3 in the converged Scenario B. -/
theorem netGLSettlement_balances_witness :
    (NetGLSettlement scenarioBConverged.state 1001).res = Res.ok () ∧
    ∃ bal, scenarioBConverged.state.account 3 = some bal ∧
      (NetGLSettlement scenarioBConverged.state 1001).state.account 3
        = some (bal
            + sumAmounts scenarioBConverged.state
                ((proposedOutgoing scenarioBConverged.state 1001 [1, 2, 3, 4, 5]).filter
                  (receiverIs scenarioBConverged.state 3))
            - sumAmounts scenarioBConverged.state
                ((proposedOutgoing scenarioBConverged.state 1001 [1, 2, 3, 4, 5]).filter
                  (senderIs scenarioBConverged.state 3))) :=
  ⟨by decide,
   netGLSettlement_balances scenarioBConverged.state 1001
     ⟨1001, [1, 2, 3, 4, 5], GLRStatusType.SUCCESS⟩ (by decide) rfl (by decide) 3 (by decide)⟩

/-- Scenario B, a converged session. The settled ids are 1, 7, 2, 4, 6, 10, 8; after
the settlement payments 1, 2, 4, 6, 7, 8, 10 are SETTLED, payments 3, 5, 9 are
ACTIVE and still queued, and the record of payment 3 is unchanged. -/
theorem netGLSettlement_settles_exactly_witness :
    (NetGLSettlement scenarioBConverged.state 1001).res = Res.ok () ∧
    proposedOutgoing scenarioBConverged.state 1001 [1, 2, 3, 4, 5] = [1, 7, 2, 4, 6, 10, 8] ∧
    ([1, 2, 4, 6, 7, 8, 10].map fun pid =>
        ((NetGLSettlement scenarioBConverged.state 1001).state.payment pid).map
          (fun p => p.Status)) = List.replicate 7 (some StatusType.SETTLED) ∧
    ([3, 5, 9].map fun pid =>
        ((NetGLSettlement scenarioBConverged.state 1001).state.payment pid).map
          (fun p => p.Status)) = List.replicate 3 (some StatusType.ACTIVE) ∧
    ([1, 2, 3, 4, 5].map
        ((NetGLSettlement scenarioBConverged.state 1001).state.queue QueueTable.OutQueueTable))
      = [some [], some [3], some [5], some [], some [9]] ∧
    ([1, 2, 3, 4, 5].map
        ((NetGLSettlement scenarioBConverged.state 1001).state.queue QueueTable.InQueueTable))
      = [some [], some [9], some [3], some [], some [5]] ∧
    (NetGLSettlement scenarioBConverged.state 1001).state.payment 3
      = scenarioBConverged.state.payment 3 :=
  ⟨by decide, by decide, by decide, by decide, by decide, by decide,
   (netGLSettlement_settles_exactly scenarioBConverged.state 1001
     ⟨1001, [1, 2, 3, 4, 5], GLRStatusType.SUCCESS⟩ (by decide) rfl (by decide)).2.1 3
     (by decide)⟩

/-- C2 amended, witness: bank 3 in Scenario B, whose third-round proposal
carries the commitment 9, holds 9 after the settlement. -/
theorem netGLSettlement_writes_cmPost_witness :
    (proposeNettableSet idealScheme scenarioBRound2.state scenarioBProposal3).res = Res.ok () ∧
    (NetGLSettlement scenarioBConverged.state 1001).res = Res.ok () ∧
    (NetGLSettlement scenarioBConverged.state 1001).state.account 3 = some 9 :=
  ⟨by decide, by decide,
   (netGLSettlement_writes_cmPost idealScheme scenarioBRound2.state scenarioBConverged.state
     scenarioBProposal3 1001 ⟨1001, [1, 2, 3, 4, 5], GLRStatusType.SUCCESS⟩
     (by decide) (by decide) rfl (by decide) (by decide)
     (fun pid => by unfold amountOf; rw [scenarioBConverged_payment])
     (by decide) (by decide) (by decide)).1⟩

/-- C10. Evaluation of the code on a session whose status is START: in
Scenario B right after startGLResolution, NetGLSettlement returns no error. -/
theorem netGLSettlement_start_returns_nil :
    (scenarioBStarted.state.config 1001).map (fun c => c.Status) = some GLRStatusType.START ∧
    (NetGLSettlement scenarioBStarted.state 1001).res = Res.ok () := by
  decide

/-! ### What every invocation leaves unchanged -/

theorem settlementFrame_refl (s : Ledger G P PP) : SettlementFrame s s :=
  ⟨rfl, rfl, rfl, rfl, fun _ => Or.inl rfl⟩

theorem settlementFrame_trans {a b c : Ledger G P PP} (h1 : SettlementFrame a b)
    (h2 : SettlementFrame b c) : SettlementFrame a c := by
  obtain ⟨a1, a2, a3, a4, a5⟩ := h1
  obtain ⟨b1, b2, b3, b4, b5⟩ := h2
  refine ⟨b1.trans a1, b2.trans a2, b3.trans a3, b4.trans a4, ?_⟩
  intro pid
  rcases b5 pid with e | e <;> rcases a5 pid with f | f
  · left; rw [e, f]
  · right; rw [e, f]
  · right; rw [e, f]
  · right
    rw [e, f]
    cases a.payment pid with
    | none => rfl
    | some p => rfl

theorem markPayment_frame {s s1 : Ledger G P PP} {pid : Int}
    (h : MarkPaymentFromLedger s pid = Res.ok s1) : SettlementFrame s s1 := by
  unfold MarkPaymentFromLedger GetPaymentFromLedger at h
  cases hp : s.payment pid with
  | none => simp [hp] at h
  | some p =>
    simp only [hp, Res.ok.injEq] at h
    subst h
    refine ⟨rfl, rfl, rfl, rfl, ?_⟩
    intro x
    by_cases c : x = pid
    · subst c
      right
      simp [hp, settled]
    · left
      simp [Function.update_noteq c]

theorem updateAccount_frame [AddCommGroup G] {s s1 : Ledger G P PP} {b : Int} {inc : Bool}
    {amt : G} (h : UpdateAccountFromLedger s b inc amt = Res.ok s1) : SettlementFrame s s1 := by
  unfold UpdateAccountFromLedger GetAccountFromLedger at h
  cases ha : s.account b with
  | none => simp [ha] at h
  | some bal =>
    simp only [ha, Res.ok.injEq] at h
    subst h
    exact ⟨rfl, rfl, rfl, rfl, fun _ => Or.inl rfl⟩

theorem addAccount_frame (s : Ledger G P PP) (b : Int) (v : G) :
    SettlementFrame s (AddAccountToLedger s b v) :=
  ⟨rfl, rfl, rfl, rfl, fun _ => Or.inl rfl⟩

theorem removeQueue_frame {s s1 : Ledger G P PP} {t : QueueTable} {k : Int} {ids : List Int}
    (ht : t ≠ QueueTable.InfeasibleTable)
    (h : RemoveQueueElementFromLedger s t k ids = Res.ok s1) : SettlementFrame s s1 := by
  unfold RemoveQueueElementFromLedger at h
  cases hq : s.queue t k with
  | none => simp [hq] at h
  | some q =>
    simp only [hq, Res.ok.injEq] at h
    subst h
    refine ⟨rfl, rfl, rfl, ?_, fun _ => Or.inl rfl⟩
    simp [AddQueueToLedger, Function.update_noteq (Ne.symm ht)]

theorem andThen_frame (r : Res (Ledger G P PP)) (s0 s : Ledger G P PP)
    (k : Ledger G P PP → Outcome (Ledger G P PP)) (h0 : SettlementFrame s0 s)
    (hr : ∀ s1, r = Res.ok s1 → SettlementFrame s s1)
    (hk : ∀ s1, SettlementFrame s0 s1 → SettlementFrame s0 (k s1).state) :
    SettlementFrame s0 (r.andThen s k).state := by
  cases r with
  | ok s1 => exact hk s1 (settlementFrame_trans h0 (hr s1 rfl))
  | error m => exact h0
  | panic => exact h0

/-- Whatever it returns, `GrossSettlement` changes only balances, the in- and
out-queues and payment statuses. -/
theorem grossSettlement_frame [AddCommGroup G] [DecidableEq G] (S : Scheme G P PP)
    (s : Ledger G P PP) (x : GrossSettlementSet G P) :
    SettlementFrame s (GrossSettlement S s x).state := by
  unfold GrossSettlement
  cases VerifyStrictPriority s x.BankId [x.PaymentId] with
  | error m => exact settlementFrame_refl s
  | panic => exact settlementFrame_refl s
  | ok b =>
    cases b with
    | false => exact settlementFrame_refl s
    | true =>
      dsimp only
      cases verifySettlementSet S s x.BankId x.CmBalance x.Zkrp [x.PaymentId] with
      | error m => exact settlementFrame_refl s
      | panic => exact settlementFrame_refl s
      | ok b =>
        cases b with
        | false => exact settlementFrame_refl s
        | true =>
          dsimp only
          apply andThen_frame _ s s _ (settlementFrame_refl s) (fun s1 h => markPayment_frame h)
          intro s1 h1
          cases GetPaymentFromLedger s1 x.PaymentId with
          | error m => exact h1
          | panic => exact h1
          | ok pm =>
            dsimp only
            apply andThen_frame _ s s1 _ h1 (fun s2 h => updateAccount_frame h)
            intro s2 h2
            apply andThen_frame _ s s2 _ h2 (fun s3 h => updateAccount_frame h)
            intro s3 h3
            apply andThen_frame _ s s3 _ h3 (fun s4 h => removeQueue_frame (by decide) h)
            intro s4 h4
            apply andThen_frame _ s s4 _ h4 (fun s5 h => removeQueue_frame (by decide) h)
            intro s5 h5
            exact h5

theorem settleOutgoing_frame [AddCommGroup G] (pids : List Int) :
    ∀ (st : NetState G P PP),
      SettlementFrame st.ledger (settleOutgoing pids st).state.ledger := by
  induction pids with
  | nil => intro st; exact settlementFrame_refl _
  | cons pid rest ih =>
    intro st
    unfold settleOutgoing
    cases GetPaymentFromLedger st.ledger pid with
    | error m => exact settlementFrame_refl _
    | panic => exact settlementFrame_refl _
    | ok pm =>
      dsimp only
      cases st.bankBalance pm.Sender with
      | none => exact settlementFrame_refl _
      | some balS =>
        dsimp only
        cases Function.update st.bankBalance pm.Sender (some (balS + -pm.CmAmount)) pm.Receiver with
        | none => exact settlementFrame_refl _
        | some balR =>
          dsimp only
          cases hm : MarkPaymentFromLedger st.ledger pid with
          | error m => exact settlementFrame_refl _
          | panic => exact settlementFrame_refl _
          | ok s1 =>
            dsimp only
            exact settlementFrame_trans (markPayment_frame hm) (ih _)

theorem settleProposals_frame [AddCommGroup G] (gid : Int) (banks : List Int) :
    ∀ (st : NetState G P PP),
      SettlementFrame st.ledger (settleProposals gid banks st).state.ledger := by
  induction banks with
  | nil => intro st; exact settlementFrame_refl _
  | cons b rest ih =>
    intro st
    unfold settleProposals
    cases GetGridlockProposalFromLedger st.ledger (proposalKey gid b) with
    | error m => exact settlementFrame_refl _
    | panic => exact settlementFrame_refl _
    | ok prop =>
      dsimp only
      have h1 := settleOutgoing_frame prop.OutgoingIds st
      cases hso : settleOutgoing prop.OutgoingIds st with
      | mk res st1 =>
        rw [hso] at h1
        cases res with
        | error m => exact h1
        | panic => exact h1
        | ok u => exact settlementFrame_trans h1 (ih st1)

theorem writeBack_frame (bb : Int → Option G) (out inc : Int → List Int) (banks : List Int) :
    ∀ (s : Ledger G P PP), SettlementFrame s (writeBack bb out inc banks s).state := by
  induction banks with
  | nil => intro s; exact settlementFrame_refl _
  | cons b rest ih =>
    intro s
    unfold writeBack
    cases bb b with
    | none => exact settlementFrame_refl _
    | some v =>
      dsimp only
      apply andThen_frame _ s _ _ (addAccount_frame s b v)
        (fun s2 h => removeQueue_frame (by decide) h)
      intro s2 h2
      apply andThen_frame _ s s2 _ h2 (fun s3 h => removeQueue_frame (by decide) h)
      intro s3 h3
      exact settlementFrame_trans h3 (ih s3)

/-- Whatever it returns, `NetGLSettlement` changes only balances, the in- and
out-queues and payment statuses. -/
theorem netGLSettlement_frame [AddCommGroup G] (s : Ledger G P PP) (gid : Int) :
    SettlementFrame s (NetGLSettlement s gid).state := by
  unfold NetGLSettlement
  cases GetGLRConfigFromLedger s gid with
  | error m => exact settlementFrame_refl _
  | panic => exact settlementFrame_refl _
  | ok config =>
    dsimp only
    split
    · exact settlementFrame_refl _
    · cases snapshotBalances s config.BankIds (fun _ => none) with
      | error m => exact settlementFrame_refl _
      | panic => exact settlementFrame_refl _
      | ok bb =>
        dsimp only
        have h1 := settleProposals_frame config.GridlockId config.BankIds
          ({ ledger := s, bankBalance := bb, outgoingIds := fun _ => [],
             incomingIds := fun _ => [] } : NetState G P PP)
        cases hsp : settleProposals config.GridlockId config.BankIds
          ({ ledger := s, bankBalance := bb, outgoingIds := fun _ => [],
             incomingIds := fun _ => [] } : NetState G P PP) with
        | mk res st =>
          rw [hsp] at h1
          cases res with
          | error m => exact h1
          | panic => exact h1
          | ok u => exact settlementFrame_trans h1 (writeBack_frame _ _ _ _ _)

theorem mintAccount_frame [DecidableEq G] (S : Scheme G P PP) :
    ∀ (l : List (BankAccount G P)) (s : Ledger G P PP),
      (MintAccount S s l).state.payment = s.payment ∧
      (MintAccount S s l).state.config = s.config ∧
      (MintAccount S s l).state.queue = s.queue ∧
      (MintAccount S s l).state.proposal = s.proposal ∧
      (MintAccount S s l).state.params = s.params := by
  intro l
  induction l with
  | nil => intro s; exact ⟨rfl, rfl, rfl, rfl, rfl⟩
  | cons a t ih =>
    intro s
    unfold MintAccount
    cases verifyAccount S s a with
    | error e => exact ⟨rfl, rfl, rfl, rfl, rfl⟩
    | panic => exact ⟨rfl, rfl, rfl, rfl, rfl⟩
    | ok b =>
      cases b with
      | false => exact ⟨rfl, rfl, rfl, rfl, rfl⟩
      | true => exact ih (AddAccountToLedger s a.BankId a.CmBalance)

theorem addMessage_frame [DecidableEq G] (S : Scheme G P PP) (s : Ledger G P PP)
    (m : PaymentMessage G P) :
    (AddMessage S s m).state.config = s.config ∧
    (AddMessage S s m).state.proposal = s.proposal ∧
    (AddMessage S s m).state.params = s.params ∧
    ∀ pid, pid ≠ m.PaymentId → (AddMessage S s m).state.payment pid = s.payment pid := by
  unfold AddMessage
  cases verifyPaymentMessage S s m with
  | error e => exact ⟨rfl, rfl, rfl, fun _ _ => rfl⟩
  | panic => exact ⟨rfl, rfl, rfl, fun _ _ => rfl⟩
  | ok b =>
    cases b with
    | false => exact ⟨rfl, rfl, rfl, fun _ _ => rfl⟩
    | true =>
      refine ⟨rfl, rfl, rfl, ?_⟩
      intro pid hpid
      simp [AddQueueElementToLedger, AddQueueToLedger, AddPaymentToLedger,
        Function.update_noteq hpid]

theorem proposeNettableSet_frame [AddCommGroup G] [DecidableEq G] (S : Scheme G P PP)
    (s : Ledger G P PP) (p : GridlockProposal G P) :
    (proposeNettableSet S s p).state.config = s.config ∧
    (proposeNettableSet S s p).state.queue = s.queue ∧
    (proposeNettableSet S s p).state.params = s.params := by
  unfold proposeNettableSet
  cases verifyGridlockProposal S s p with
  | error e => exact ⟨rfl, rfl, rfl⟩
  | panic => exact ⟨rfl, rfl, rfl⟩
  | ok b => cases b <;> exact ⟨rfl, rfl, rfl⟩

/-- Whatever it returns, `tallyGridlockProposal` leaves every stored
configuration with its status, or moves it from START to SUCCESS. -/
theorem tallyGridlockProposal_config (s : Ledger G P PP) (gid k : Int) (c : GLRConfiguration)
    (hc : s.config k = some c) :
    ∃ c1, (tallyGridlockProposal s gid).state.config k = some c1 ∧
      (c1.Status = c.Status ∨
        (c.Status = GLRStatusType.START ∧ c1.Status = GLRStatusType.SUCCESS)) := by
  unfold tallyGridlockProposal
  cases (GetGLRConfigFromLedger s gid).unchecked with
  | error e => exact ⟨c, hc, Or.inl rfl⟩
  | panic => exact ⟨c, hc, Or.inl rfl⟩
  | ok config =>
    dsimp only
    split
    · exact ⟨c, hc, Or.inl rfl⟩
    · cases collectInfeasible s gid config.BankIds [] with
      | error e => exact ⟨c, hc, Or.inl rfl⟩
      | panic => exact ⟨c, hc, Or.inl rfl⟩
      | ok infeasible =>
        dsimp only
        split
        · by_cases hk : k = config.GridlockId
          · subst hk
            refine ⟨{ config with Status := GLRStatusType.SUCCESS }, ?_, ?_⟩
            · simp [AddGLRConfigurationToLedger]
            · cases hst : c.Status with
              | START => exact Or.inr ⟨rfl, rfl⟩
              | SUCCESS => exact Or.inl rfl
          · refine ⟨c, ?_, Or.inl rfl⟩
            simp [AddGLRConfigurationToLedger, AddQueueToLedger, Function.update_noteq hk, hc]
        · exact ⟨c, hc, Or.inl rfl⟩

theorem settled_of_settled (p : StoredPaymentMessage G P) (h : p.Status = StatusType.SETTLED) :
    settled p = p := by
  cases p
  simp only at h
  simp only [settled, h]

/-- C11, amended. Monotone settlement: for every store and every invocation
other than an addMessage that carries the id of the payment itself, a stored
payment whose status is SETTLED before the invocation is stored unchanged after
it, whatever the invocation returns; in particular its status is not ACTIVE. -/
theorem settled_payment_stays [AddCommGroup G] [DecidableEq G] (S : Scheme G P PP)
    (s : Ledger G P PP) (inv : Invocation G P PP) (pid : Int) (p : StoredPaymentMessage G P)
    (hp : s.payment pid = some p) (hs : p.Status = StatusType.SETTLED)
    (hinv : ∀ m, inv = Invocation.addMessage m → m.PaymentId ≠ pid) :
    (Invoke S s inv).state.payment pid = some p ∧
    ∀ q, (Invoke S s inv).state.payment pid = some q → q.Status ≠ StatusType.ACTIVE := by
  have key : (Invoke S s inv).state.payment pid = some p := by
    have hframe : ∀ s1 : Ledger G P PP, SettlementFrame s s1 → s1.payment pid = some p := by
      intro s1 h
      rcases h.2.2.2.2 pid with e | e
      · rw [e, hp]
      · rw [e, hp]
        simp [settled_of_settled p hs]
    cases inv with
    | initParams params => exact hp
    | mintAccount accounts =>
      show (MintAccount S s accounts).state.payment pid = some p
      rw [(mintAccount_frame S accounts s).1, hp]
    | addMessage m =>
      show (AddMessage S s m).state.payment pid = some p
      rw [(addMessage_frame S s m).2.2.2 pid (Ne.symm (hinv m rfl)), hp]
    | grossSettlement x => exact hframe _ (grossSettlement_frame S s x)
    | startGLResolution config => exact hp
    | proposeNettableSet prop =>
      show (proposeNettableSet S s prop).state.payment pid = some p
      rw [proposeNettableSet_payment, hp]
    | tallyGridlockProposal gid =>
      show (tallyGridlockProposal s gid).state.payment pid = some p
      rw [(tallyGridlockProposal_frame s gid).2, hp]
    | NetGLSettlement gid => exact hframe _ (netGLSettlement_frame s gid)
  refine ⟨key, ?_⟩
  intro q hq
  rw [key] at hq
  have e : p = q := Option.some.inj hq
  rw [← e, hs]
  decide

/-- C12, amended. Session monotonicity: for every store and every invocation
other than a startGLResolution for the same gridlock id, a stored
GLRConfig(gid) is still stored afterwards and its status is either what it was
or has moved from START to SUCCESS; a SUCCESS status is not START afterwards. -/
theorem session_status_monotone [AddCommGroup G] [DecidableEq G] (S : Scheme G P PP)
    (s : Ledger G P PP) (inv : Invocation G P PP) (gid : Int) (c : GLRConfiguration)
    (hc : s.config gid = some c)
    (hinv : ∀ cfg, inv = Invocation.startGLResolution cfg → cfg.GridlockId ≠ gid) :
    ∃ c1, (Invoke S s inv).state.config gid = some c1 ∧
      (c1.Status = c.Status ∨
        (c.Status = GLRStatusType.START ∧ c1.Status = GLRStatusType.SUCCESS)) ∧
      (c.Status = GLRStatusType.SUCCESS → c1.Status ≠ GLRStatusType.START) := by
  have key : ∃ c1, (Invoke S s inv).state.config gid = some c1 ∧
      (c1.Status = c.Status ∨
        (c.Status = GLRStatusType.START ∧ c1.Status = GLRStatusType.SUCCESS)) := by
    cases inv with
    | initParams params => exact ⟨c, hc, Or.inl rfl⟩
    | mintAccount accounts =>
      refine ⟨c, ?_, Or.inl rfl⟩
      show (MintAccount S s accounts).state.config gid = some c
      rw [(mintAccount_frame S accounts s).2.1, hc]
    | addMessage m =>
      refine ⟨c, ?_, Or.inl rfl⟩
      show (AddMessage S s m).state.config gid = some c
      rw [(addMessage_frame S s m).1, hc]
    | grossSettlement x =>
      refine ⟨c, ?_, Or.inl rfl⟩
      show (GrossSettlement S s x).state.config gid = some c
      rw [(grossSettlement_frame S s x).2.1, hc]
    | startGLResolution config =>
      refine ⟨c, ?_, Or.inl rfl⟩
      show (startGLResolution s config).state.config gid = some c
      simp [startGLResolution, AddGLRConfigurationToLedger,
        Function.update_noteq (Ne.symm (hinv config rfl)), hc]
    | proposeNettableSet prop =>
      refine ⟨c, ?_, Or.inl rfl⟩
      show (proposeNettableSet S s prop).state.config gid = some c
      rw [(proposeNettableSet_frame S s prop).1, hc]
    | tallyGridlockProposal g => exact tallyGridlockProposal_config s g gid c hc
    | NetGLSettlement g =>
      refine ⟨c, ?_, Or.inl rfl⟩
      show (NetGLSettlement s g).state.config gid = some c
      rw [(netGLSettlement_frame s g).2.1, hc]
  obtain ⟨c1, h1, h2⟩ := key
  refine ⟨c1, h1, h2, ?_⟩
  intro hsucc
  rcases h2 with e | ⟨e, _⟩
  · rw [e, hsucc]; decide
  · rw [hsucc] at e; exact absurd e (by decide)

theorem collectInfeasible_inv (s : Ledger G P PP) (gid : Int) :
    ∀ (banks : List Int) (acc r : List Int), collectInfeasible s gid banks acc = Res.ok r →
      ∀ b ∈ banks, (s.proposal (proposalKey gid b)).isSome = true := by
  intro banks
  induction banks with
  | nil => intro _ _ _ b hb; simp at hb
  | cons a t ih =>
    intro acc r h b hb
    unfold collectInfeasible at h
    cases hp : s.proposal (proposalKey gid a) with
    | none => simp [GetGridlockProposalFromLedger, hp] at h
    | some prop =>
      simp only [GetGridlockProposalFromLedger, hp] at h
      rcases List.mem_cons.mp hb with rfl | hb
      · rw [hp]; rfl
      · exact ih _ r h b hb

/-- What a successful tally has read and stored. -/
theorem tallyGridlockProposal_ok (s : Ledger G P PP) (gid : Int)
    (h : (tallyGridlockProposal s gid).res = Res.ok ()) :
    ∃ cfg, s.config gid = some cfg ∧ cfg.Status = GLRStatusType.START ∧
      (∀ b ∈ cfg.BankIds, (s.proposal (proposalKey gid b)).isSome = true) ∧
      (tallyGridlockProposal s gid).state.queue QueueTable.InfeasibleTable gid
        = some ((cfg.BankIds.map (infeasibleOfProposal s gid)).flatten) := by
  unfold tallyGridlockProposal at h ⊢
  cases hcfg : s.config gid with
  | none => simp [GetGLRConfigFromLedger, hcfg, Res.unchecked] at h
  | some cfg =>
    simp only [GetGLRConfigFromLedger, hcfg, Res.unchecked] at h ⊢
    by_cases c1 : cfg.Status ≠ GLRStatusType.START
    · simp [c1] at h
    · simp only [c1, if_false] at h ⊢
      cases hcol : collectInfeasible s gid cfg.BankIds [] with
      | error e => simp [hcol] at h
      | panic => simp [hcol] at h
      | ok inf =>
        have hall := collectInfeasible_inv s gid cfg.BankIds [] inf hcol
        have e := collectInfeasible_ok s gid cfg.BankIds [] hall
        rw [hcol] at e
        simp only [Res.ok.injEq, List.nil_append] at e
        subst e
        refine ⟨cfg, rfl, not_not.mp c1, hall, ?_⟩
        simp only []
        split <;> simp [AddGLRConfigurationToLedger, AddQueueToLedger]

theorem length_flatten_map_le (f g : Int → List Int) :
    ∀ (l : List Int), (∀ b ∈ l, (f b).length ≤ (g b).length) →
      ((l.map f).flatten).length ≤ ((l.map g).flatten).length := by
  intro l
  induction l with
  | nil => intro _; simp
  | cons a t ih =>
    intro h
    simp only [List.map_cons, List.flatten_cons, List.length_append]
    have h1 := h a (List.mem_cons_self _ _)
    have h2 := ih (fun b hb => h b (List.mem_cons_of_mem _ hb))
    omega

/-- C13, amended. Convergence monotonicity: for two successful tallies of a
session, on stores whose configuration lists the same banks, if every bank's
stored proposal at the later tally declares at least as many infeasible ids as
its stored proposal at the earlier tally, then the Infeasible(gid) stored by
the later tally is at least as long as the one stored by the earlier tally. -/
theorem infeasible_length_monotone (s1 s2 : Ledger G P PP) (gid : Int)
    (cfg1 cfg2 : GLRConfiguration)
    (hc1 : s1.config gid = some cfg1) (hc2 : s2.config gid = some cfg2)
    (hb : cfg2.BankIds = cfg1.BankIds)
    (h1 : (tallyGridlockProposal s1 gid).res = Res.ok ())
    (h2 : (tallyGridlockProposal s2 gid).res = Res.ok ())
    (hprop : ∀ b ∈ cfg1.BankIds,
      (infeasibleOfProposal s1 gid b).length ≤ (infeasibleOfProposal s2 gid b).length) :
    (GetQueueFromLedger (tallyGridlockProposal s1 gid).state QueueTable.InfeasibleTable gid).length
      ≤ (GetQueueFromLedger (tallyGridlockProposal s2 gid).state
          QueueTable.InfeasibleTable gid).length := by
  obtain ⟨c1, a1, _, _, a4⟩ := tallyGridlockProposal_ok s1 gid h1
  obtain ⟨c2, b1, _, _, b4⟩ := tallyGridlockProposal_ok s2 gid h2
  have e1 : c1 = cfg1 := by rw [hc1] at a1; exact (Option.some.inj a1).symm
  have e2 : c2 = cfg2 := by rw [hc2] at b1; exact (Option.some.inj b1).symm
  subst e1 e2
  unfold GetQueueFromLedger
  rw [a4, b4, hb]
  exact length_flatten_map_le _ _ _ hprop

/-- C14, amended. The invocation startGLResolution succeeds and stores the
input configuration as received under its gridlock id, so the stored status is
the status the input carries; no other key of any table changes. -/
theorem startGLResolution_stores_input (s : Ledger G P PP) (config : GLRConfiguration) :
    (startGLResolution s config).res = Res.ok () ∧
    (startGLResolution s config).state.config
      = Function.update s.config config.GridlockId (some config) ∧
    ((startGLResolution s config).state.config config.GridlockId).map (fun c => c.Status)
      = some config.Status ∧
    (startGLResolution s config).state.params = s.params ∧
    (startGLResolution s config).state.account = s.account ∧
    (startGLResolution s config).state.payment = s.payment ∧
    (startGLResolution s config).state.queue = s.queue ∧
    (startGLResolution s config).state.proposal = s.proposal := by
  refine ⟨rfl, rfl, ?_, rfl, rfl, rfl, rfl, rfl⟩
  simp [startGLResolution, AddGLRConfigurationToLedger]

/-- An accepted strict-priority check bounds the candidates by the queue entries
left out; it says nothing about where the candidates come from. -/
theorem verifyStrictPriority_true (s : Ledger G P PP) (bankId : Int) (paymentIds : List Int)
    (h : VerifyStrictPriority s bankId paymentIds = Res.ok true) :
    ∀ q ∈ GetQueueFromLedger s QueueTable.OutQueueTable bankId, q ∉ paymentIds →
      ∀ p ∈ paymentIds, p < q := by
  intro q hq hqn p hp
  unfold VerifyStrictPriority at h
  simp only [infeasibleOf_eq_filter] at h
  have hqI : q ∈ (GetQueueFromLedger s QueueTable.OutQueueTable bankId).filter
      (fun q => decide (q ∉ paymentIds)) := by
    simp [List.mem_filter, hq, hqn]
  generalize (GetQueueFromLedger s QueueTable.OutQueueTable bankId).filter
      (fun q => decide (q ∉ paymentIds)) = I at h hqI
  cases I with
  | nil => simp at hqI
  | cons q0 I1 =>
    cases paymentIds with
    | nil => simp at hp
    | cons p0 P1 =>
      simp only [List.length_cons, Nat.succ_ne_zero, if_false, List.head?_cons] at h
      obtain ⟨_, _, a3⟩ := foldl_min_spec (q0 :: I1) q0
      obtain ⟨_, _, b3⟩ := foldl_max_spec (p0 :: P1) p0
      have hq1 := a3 q hqI
      have hp1 := b3 p hp
      generalize (q0 :: I1).foldl (fun m qid => if qid < m then qid else m) q0 = sm at h hq1
      generalize (p0 :: P1).foldl (fun m pid => if pid > m then pid else m) p0 = bg at h hp1
      by_cases c : sm ≤ bg
      · simp [c] at h
      · omega

/-- C15, amended. What the FIFO check guarantees: if VerifyStrictPriority
accepts outgoingIds for bankId, every entry of OutQueue(bankId) that is not in
outgoingIds is greater than every id of outgoingIds. -/
theorem verifyStrictPriority_guarantee (s : Ledger G P PP) (bankId : Int)
    (outgoingIds : List Int)
    (h : VerifyStrictPriority s bankId outgoingIds = Res.ok true) :
    ∀ q ∈ GetQueueFromLedger s QueueTable.OutQueueTable bankId, q ∉ outgoingIds →
      ∀ p ∈ outgoingIds, p < q :=
  verifyStrictPriority_true s bankId outgoingIds h

/-- The strict-priority check rejects a single id as soon as the queue holds
another id that is not greater. -/
theorem verifyStrictPriority_single_false (s : Ledger G P PP) (bankId pid q : Int)
    (hq : q ∈ GetQueueFromLedger s QueueTable.OutQueueTable bankId) (hne : q ≠ pid)
    (hle : q ≤ pid) : VerifyStrictPriority s bankId [pid] = Res.ok false := by
  unfold VerifyStrictPriority
  simp only [infeasibleOf_eq_filter]
  have hqI : q ∈ (GetQueueFromLedger s QueueTable.OutQueueTable bankId).filter
      (fun q => decide (q ∉ [pid])) := by
    simp [List.mem_filter, hq, hne]
  generalize (GetQueueFromLedger s QueueTable.OutQueueTable bankId).filter
      (fun q => decide (q ∉ [pid])) = I at hqI
  cases I with
  | nil => simp at hqI
  | cons q0 I1 =>
    simp only [List.length_cons, Nat.succ_ne_zero, if_false, List.head?_cons]
    obtain ⟨_, _, a3⟩ := foldl_min_spec (q0 :: I1) q0
    have hq1 := a3 q hqI
    have hmax : [pid].foldl (fun m p => if p > m then p else m) pid = pid := by simp
    rw [hmax]
    generalize (q0 :: I1).foldl (fun m qid => if qid < m then qid else m) q0 = sm at hq1
    have c : sm ≤ pid := by omega
    simp [c]

/-- C16, amended. Head-of-queue rule: when the out-queue of bankId is in
strictly increasing id order, a grossSettlement for a pid that occurs in the
queue but is not its first entry is rejected by the strict-priority check, with
the store unchanged. -/
theorem grossSettlement_rejects_skipping [AddCommGroup G] [DecidableEq G] (S : Scheme G P PP)
    (s : Ledger G P PP) (x : GrossSettlementSet G P)
    (hsorted : List.Pairwise (fun a b => a < b)
      (GetQueueFromLedger s QueueTable.OutQueueTable x.BankId))
    (hmem : x.PaymentId ∈ GetQueueFromLedger s QueueTable.OutQueueTable x.BankId)
    (hhead : (GetQueueFromLedger s QueueTable.OutQueueTable x.BankId).head? ≠ some x.PaymentId) :
    VerifyStrictPriority s x.BankId [x.PaymentId] = Res.ok false ∧
    (GrossSettlement S s x).res = Res.error "Verification of strict priority failed" ∧
    (GrossSettlement S s x).state = s := by
  have hv : VerifyStrictPriority s x.BankId [x.PaymentId] = Res.ok false := by
    cases hQ : GetQueueFromLedger s QueueTable.OutQueueTable x.BankId with
    | nil => rw [hQ] at hmem; simp at hmem
    | cons q0 t =>
      rw [hQ] at hsorted hmem hhead
      have hne : q0 ≠ x.PaymentId := by
        intro e
        apply hhead
        simp [e]
      have hin : x.PaymentId ∈ t := by
        rcases List.mem_cons.mp hmem with e | e
        · exact absurd e.symm hne
        · exact e
      have hlt : q0 < x.PaymentId := (List.pairwise_cons.mp hsorted).1 _ hin
      exact verifyStrictPriority_single_false s x.BankId x.PaymentId q0
        (by rw [hQ]; exact List.mem_cons_self _ _) hne (le_of_lt hlt)
  refine ⟨hv, ?_, ?_⟩ <;> simp [GrossSettlement, hv]

theorem getQueue_update_sublist (f : Int → Option (List Int)) (k b : Int) (q : List Int)
    (ids : List Int) (hq : f k = some q) :
    ((match Function.update f k (some (removeIds q ids)) b with
      | some x => x
      | none => []) : List Int).Sublist (match f b with | some x => x | none => []) := by
  by_cases c : b = k
  · subst c
    rw [Function.update_same, hq, removeIds_eq_filter]
    exact List.filter_sublist _
  · rw [Function.update_noteq c]

/-- After a successful gross settlement every queue is a sublist of what it
was. -/
theorem grossSettlement_queue_sublist [AddCommGroup G] [DecidableEq G] (S : Scheme G P PP)
    (s : Ledger G P PP) (x : GrossSettlementSet G P)
    (h : (GrossSettlement S s x).res = Res.ok ()) (t : QueueTable) (b : Int) :
    (GetQueueFromLedger (GrossSettlement S s x).state t b).Sublist
      (GetQueueFromLedger s t b) := by
  obtain ⟨_, _, p, balS, balR, qIn, qOut, _, _, _, hi, ho, hst⟩ := grossSettlement_ok S s x h
  rw [hst]
  unfold GetQueueFromLedger grossPost
  cases t with
  | InfeasibleTable => simp
  | OutQueueTable =>
    simp only [Function.update_same]
    exact getQueue_update_sublist _ _ _ _ _ ho
  | InQueueTable =>
    have hne : QueueTable.InQueueTable ≠ QueueTable.OutQueueTable := by decide
    simp only [Function.update_noteq hne, Function.update_same]
    exact getQueue_update_sublist _ _ _ _ _ hi

/-- After a successful net settlement every queue is a sublist of what it
was. -/
theorem netGLSettlement_queue_sublist [AddCommGroup G] (s : Ledger G P PP) (gid : Int)
    (h : (NetGLSettlement s gid).res = Res.ok ()) (t : QueueTable) (b : Int) :
    (GetQueueFromLedger (NetGLSettlement s gid).state t b).Sublist
      (GetQueueFromLedger s t b) := by
  cases hcfg : s.config gid with
  | none => simp [NetGLSettlement, GetGLRConfigFromLedger, hcfg] at h
  | some cfg =>
    by_cases hS : cfg.Status = GLRStatusType.SUCCESS
    · obtain ⟨_, _, _, _, a5, a6, a7, a8, _⟩ := netGLSettlement_ok s gid cfg hcfg hS h
      unfold GetQueueFromLedger
      cases t with
      | InfeasibleTable => rw [a8]
      | OutQueueTable =>
        by_cases hb : b ∈ cfg.BankIds
        · obtain ⟨q, hq, hq1⟩ := a5 b hb
          rw [hq, hq1, removeIds_eq_filter]
          exact List.filter_sublist _
        · rw [(a7 b hb).1]
      | InQueueTable =>
        by_cases hb : b ∈ cfg.BankIds
        · obtain ⟨q, hq, hq1⟩ := a6 b hb
          rw [hq, hq1, removeIds_eq_filter]
          exact List.filter_sublist _
        · rw [(a7 b hb).2]
    · rw [(netGLSettlement_wrong_status s gid cfg hcfg hS).2]

/-- C17. FIFO integrity: after a successful grossSettlement and after a
successful NetGLSettlement, every queue of every bank (out-queue, in-queue, and
the infeasible lists as well) is a sublist of the same queue before the call,
so surviving ids keep their relative order. -/
theorem fifo_integrity [AddCommGroup G] [DecidableEq G] (S : Scheme G P PP)
    (s : Ledger G P PP) :
    (∀ x : GrossSettlementSet G P, (GrossSettlement S s x).res = Res.ok () →
      ∀ (t : QueueTable) (b : Int),
        (GetQueueFromLedger (GrossSettlement S s x).state t b).Sublist
          (GetQueueFromLedger s t b)) ∧
    (∀ gid : Int, (NetGLSettlement s gid).res = Res.ok () →
      ∀ (t : QueueTable) (b : Int),
        (GetQueueFromLedger (NetGLSettlement s gid).state t b).Sublist
          (GetQueueFromLedger s t b)) :=
  ⟨fun x h t b => grossSettlement_queue_sublist S s x h t b,
   fun gid h t b => netGLSettlement_queue_sublist s gid h t b⟩

theorem verifyPaymentMessage_true [DecidableEq G] (S : Scheme G P PP) (s : Ledger G P PP)
    (m : PaymentMessage G P)
    (hs : 1 ≤ m.Sender ∧ m.Sender ≤ NumOfBanks) (hr : 1 ≤ m.Receiver ∧ m.Receiver ≤ NumOfBanks)
    (hne : m.Sender ≠ m.Receiver) (hc : S.C m.Zkrp = m.CmAmount)
    (hv : S.VerifyUL m.Zkrp s.params = true) :
    verifyPaymentMessage S s m = Res.ok true := by
  unfold verifyPaymentMessage
  have c1 : ¬ (m.Sender > NumOfBanks ∨ m.Sender ≤ 0) := by omega
  have c2 : ¬ (m.Receiver > NumOfBanks ∨ m.Receiver ≤ 0) := by omega
  simp [c1, c2, hne, hc, hv]

theorem verifyPaymentMessage_not_true [DecidableEq G] (S : Scheme G P PP) (s : Ledger G P PP)
    (m : PaymentMessage G P)
    (h : m.Sender < 1 ∨ m.Sender > NumOfBanks ∨ m.Receiver < 1 ∨ m.Receiver > NumOfBanks ∨
      m.Sender = m.Receiver ∨ S.C m.Zkrp ≠ m.CmAmount ∨ S.VerifyUL m.Zkrp s.params = false) :
    verifyPaymentMessage S s m = Res.ok false ∨
    verifyPaymentMessage S s m = Res.error "ZKP verification failed" := by
  unfold verifyPaymentMessage
  by_cases c1 : m.Sender > NumOfBanks ∨ m.Sender ≤ 0
  · left; simp [c1]
  · by_cases c2 : m.Receiver > NumOfBanks ∨ m.Receiver ≤ 0
    · left; simp [c1, c2]
    · by_cases c3 : m.Sender = m.Receiver
      · left; simp [c1, c2, c3]
      · by_cases c4 : S.C m.Zkrp ≠ m.CmAmount
        · left
          rw [if_neg c1, if_neg c2, if_neg c3]
          simp [c4]
        · by_cases c5 : S.VerifyUL m.Zkrp s.params = true
          · exfalso
            rcases h with h | h | h | h | h | h | h
            · omega
            · omega
            · omega
            · omega
            · exact c3 h
            · exact c4 h
            · rw [c5] at h; exact absurd h (by decide)
          · right
            rw [if_neg c1, if_neg c2, if_neg c3]
            simp [c4, c5]

/-- C18. Postcondition of addMessage: when sender and receiver are in [1, N]
and differ, the proof's commitment equals cmAmount and VerifyUL accepts,
addMessage succeeds; the payment table is the old one with Payment(pid) set to
the submitted fields and status ACTIVE, OutQueue(sender) and InQueue(receiver)
are their old contents (empty when absent) followed by pid, and every other key
of every table is unchanged. -/
theorem addMessage_postcondition [DecidableEq G] (S : Scheme G P PP) (s : Ledger G P PP)
    (m : PaymentMessage G P)
    (hs : 1 ≤ m.Sender ∧ m.Sender ≤ NumOfBanks) (hr : 1 ≤ m.Receiver ∧ m.Receiver ≤ NumOfBanks)
    (hne : m.Sender ≠ m.Receiver) (hc : S.C m.Zkrp = m.CmAmount)
    (hv : S.VerifyUL m.Zkrp s.params = true) :
    (AddMessage S s m).res = Res.ok () ∧
    (AddMessage S s m).state.payment
      = Function.update s.payment m.PaymentId
          (some ⟨m.Sender, m.Receiver, m.CmAmount, m.Zkrp, StatusType.ACTIVE⟩) ∧
    (AddMessage S s m).state.queue QueueTable.OutQueueTable
      = Function.update (s.queue QueueTable.OutQueueTable) m.Sender
          (some (GetQueueFromLedger s QueueTable.OutQueueTable m.Sender ++ [m.PaymentId])) ∧
    (AddMessage S s m).state.queue QueueTable.InQueueTable
      = Function.update (s.queue QueueTable.InQueueTable) m.Receiver
          (some (GetQueueFromLedger s QueueTable.InQueueTable m.Receiver ++ [m.PaymentId])) ∧
    (AddMessage S s m).state.queue QueueTable.InfeasibleTable
      = s.queue QueueTable.InfeasibleTable ∧
    (AddMessage S s m).state.account = s.account ∧
    (AddMessage S s m).state.config = s.config ∧
    (AddMessage S s m).state.proposal = s.proposal ∧
    (AddMessage S s m).state.params = s.params := by
  have hv1 := verifyPaymentMessage_true S s m hs hr hne hc hv
  unfold AddMessage
  rw [hv1]
  refine ⟨rfl, rfl, ?_, ?_, ?_, rfl, rfl, rfl, rfl⟩
  · simp [AddQueueElementToLedger, AddQueueToLedger, AddPaymentToLedger, GetQueueFromLedger]
  · simp [AddQueueElementToLedger, AddQueueToLedger, AddPaymentToLedger, GetQueueFromLedger]
  · simp [AddQueueElementToLedger, AddQueueToLedger, AddPaymentToLedger]

/-- C19. Rejection by addMessage: when sender or receiver is outside [1, N],
or they are equal, or the proof's commitment differs from cmAmount, or VerifyUL
rejects, addMessage returns an error and the store is unchanged. -/
theorem addMessage_rejection [DecidableEq G] (S : Scheme G P PP) (s : Ledger G P PP)
    (m : PaymentMessage G P)
    (h : m.Sender < 1 ∨ m.Sender > NumOfBanks ∨ m.Receiver < 1 ∨ m.Receiver > NumOfBanks ∨
      m.Sender = m.Receiver ∨ S.C m.Zkrp ≠ m.CmAmount ∨ S.VerifyUL m.Zkrp s.params = false) :
    (∃ msg, (AddMessage S s m).res = Res.error msg) ∧ (AddMessage S s m).state = s := by
  unfold AddMessage
  rcases verifyPaymentMessage_not_true S s m h with e | e <;> rw [e] <;>
    exact ⟨⟨_, rfl⟩, rfl⟩

/-- C20. When the stored GLRConfig(gid) has status SUCCESS, or bankId does
not occur in its bankIds, proposeNettableSet returns an error and the store,
the proposal table included, is unchanged. -/
theorem proposeNettableSet_rejects [AddCommGroup G] [DecidableEq G] (S : Scheme G P PP)
    (s : Ledger G P PP) (prop : GridlockProposal G P) (cfg : GLRConfiguration)
    (hcfg : s.config prop.GridlockId = some cfg)
    (h : cfg.Status = GLRStatusType.SUCCESS ∨ prop.BankId ∉ cfg.BankIds) :
    (∃ msg, (proposeNettableSet S s prop).res = Res.error msg) ∧
    (proposeNettableSet S s prop).state = s ∧
    (proposeNettableSet S s prop).state.proposal = s.proposal := by
  have hv : verifyGridlockProposal S s prop = Res.ok false := by
    unfold verifyGridlockProposal
    simp only [GetGLRConfigFromLedger, hcfg, Res.unchecked]
    by_cases c1 : cfg.Status ≠ GLRStatusType.START
    · simp [c1]
    · have hstart : cfg.Status = GLRStatusType.START := not_not.mp c1
      rcases h with h | h
      · rw [hstart] at h; exact absurd h (by decide)
      · have hany : cfg.BankIds.any (fun id => id == prop.BankId) = false := by
          cases e : cfg.BankIds.any (fun id => id == prop.BankId)
          · rfl
          · rw [List.any_eq_true] at e
            obtain ⟨y, hy, hxy⟩ := e
            have : y = prop.BankId := eq_of_beq hxy
            exact absurd (this ▸ hy) h
        rw [if_neg c1]
        simp [hany]
  unfold proposeNettableSet
  rw [hv]
  exact ⟨⟨_, rfl⟩, rfl, rfl⟩

/-! ### Concrete instances, continued -/

/-- C11, counterexample: in Scenario A after its gross settlement payment 1 is
SETTLED; a second addMessage with the same id succeeds and payment 1 is ACTIVE
again. -/
theorem settled_payment_reactivated :
    scenarioASettled.res = Res.ok () ∧
    (scenarioASettled.state.payment 1).map (fun p => p.Status) = some StatusType.SETTLED ∧
    (Invoke idealScheme scenarioASettled.state
      (Invocation.addMessage ⟨1, 1, 2, 10, 10⟩)).res = Res.ok () ∧
    ((Invoke idealScheme scenarioASettled.state
      (Invocation.addMessage ⟨1, 1, 2, 10, 10⟩)).state.payment 1).map (fun p => p.Status)
      = some StatusType.ACTIVE := by
  decide

/-- C11 amended, witness: in Scenario A after its gross settlement, an
addMessage for payment id 2 leaves the settled payment 1 as it is. -/
theorem settled_payment_stays_witness :
    scenarioASettled.state.payment 1 = some ⟨1, 2, 10, 10, StatusType.SETTLED⟩ ∧
    (Invoke idealScheme scenarioASettled.state
      (Invocation.addMessage ⟨2, 1, 2, 5, 5⟩)).res = Res.ok () ∧
    (Invoke idealScheme scenarioASettled.state
      (Invocation.addMessage ⟨2, 1, 2, 5, 5⟩)).state.payment 1
      = some ⟨1, 2, 10, 10, StatusType.SETTLED⟩ :=
  ⟨rfl, by decide,
   (settled_payment_stays idealScheme scenarioASettled.state
     (Invocation.addMessage ⟨2, 1, 2, 5, 5⟩) 1 ⟨1, 2, 10, 10, StatusType.SETTLED⟩ rfl rfl
     (fun m h => by
       injection h with h
       subst h
       decide)).1⟩

/-- C12, counterexample: the converged session 1001 of Scenario B has status
SUCCESS; a startGLResolution for the same id succeeds and the status is START
again. -/
theorem session_restarted :
    (scenarioBConverged.state.config 1001).map (fun c => c.Status)
      = some GLRStatusType.SUCCESS ∧
    (Invoke idealScheme scenarioBConverged.state
      (Invocation.startGLResolution ⟨1001, [1, 2, 3, 4, 5], GLRStatusType.START⟩)).res
      = Res.ok () ∧
    ((Invoke idealScheme scenarioBConverged.state
      (Invocation.startGLResolution ⟨1001, [1, 2, 3, 4, 5], GLRStatusType.START⟩)).state.config
        1001).map (fun c => c.Status) = some GLRStatusType.START := by
  decide

/-- C12 amended, witness: starting session 1002 leaves the converged session
1001 of Scenario B with status SUCCESS. -/
theorem session_status_monotone_witness :
    scenarioBConverged.state.config 1001
      = some ⟨1001, [1, 2, 3, 4, 5], GLRStatusType.SUCCESS⟩ ∧
    ((Invoke idealScheme scenarioBConverged.state
      (Invocation.startGLResolution ⟨1002, [1, 2], GLRStatusType.START⟩)).state.config
        1001).map (fun c => c.Status) = some GLRStatusType.SUCCESS := by
  refine ⟨by decide, ?_⟩
  obtain ⟨c1, h1, _, h3⟩ := session_status_monotone idealScheme scenarioBConverged.state
    (Invocation.startGLResolution ⟨1002, [1, 2], GLRStatusType.START⟩) 1001
    ⟨1001, [1, 2, 3, 4, 5], GLRStatusType.SUCCESS⟩ (by decide)
    (fun cfg h => by
      injection h with h
      subst h
      decide)
  rw [h1]
  cases hst : c1.Status with
  | START => exact absurd hst (h3 rfl)
  | SUCCESS => simp [hst]

/-- C13, counterexample: in Scenario B the first tally stores [5, 9]; bank 5
then has a proposal without infeasible ids accepted, and the second tally
succeeds and stores [5], a shorter list. -/
theorem infeasible_length_shrinks :
    scenarioBRound1.res = Res.ok () ∧
    scenarioBRound1.state.queue QueueTable.InfeasibleTable 1001 = some [5, 9] ∧
    (proposeAll scenarioBRound1 [⟨1001, 5, [8], [], 3, 2, 0⟩]).res = Res.ok () ∧
    shrinkRound2.res = Res.ok () ∧
    shrinkRound2.state.queue QueueTable.InfeasibleTable 1001 = some [5] ∧
    ¬ ((GetQueueFromLedger scenarioBRound1.state QueueTable.InfeasibleTable 1001).length
        ≤ (GetQueueFromLedger shrinkRound2.state QueueTable.InfeasibleTable 1001).length) := by
  decide

/-- C13 amended, witness: the first two tallies of Scenario B, where bank 2
adds an infeasible id and no bank drops one. -/
theorem infeasible_length_monotone_witness :
    (tallyGridlockProposal scenarioBProposed1.state 1001).res = Res.ok () ∧
    (tallyGridlockProposal scenarioBProposed2.state 1001).res = Res.ok () ∧
    (GetQueueFromLedger (tallyGridlockProposal scenarioBProposed1.state 1001).state
        QueueTable.InfeasibleTable 1001).length
      ≤ (GetQueueFromLedger (tallyGridlockProposal scenarioBProposed2.state 1001).state
        QueueTable.InfeasibleTable 1001).length :=
  ⟨by decide, by decide,
   infeasible_length_monotone scenarioBProposed1.state scenarioBProposed2.state 1001
     ⟨1001, [1, 2, 3, 4, 5], GLRStatusType.START⟩ ⟨1001, [1, 2, 3, 4, 5], GLRStatusType.START⟩
     (by decide) (by decide) rfl (by decide) (by decide) (by decide)⟩

/-- C14, counterexample: a configuration submitted with status SUCCESS is
stored with status SUCCESS. -/
theorem startGLResolution_stores_success :
    (startGLResolution emptyLedger ⟨1, [1, 2], GLRStatusType.SUCCESS⟩).res = Res.ok () ∧
    ((startGLResolution emptyLedger ⟨1, [1, 2], GLRStatusType.SUCCESS⟩).state.config 1).map
      (fun c => c.Status) = some GLRStatusType.SUCCESS ∧
    ((startGLResolution emptyLedger ⟨1, [1, 2], GLRStatusType.SUCCESS⟩).state.config 1).map
      (fun c => c.Status) ≠ some GLRStatusType.START := by
  decide

/-- C15, counterexample: in Scenario B the out-queue of bank 3 is [4, 5]; the
check accepts the list [4, 1] for bank 3, and the proposal naming payment 1,
sent by bank 1, is accepted. -/
theorem foreign_payment_accepted :
    GetQueueFromLedger scenarioBStarted.state QueueTable.OutQueueTable 3 = [4, 5] ∧
    VerifyStrictPriority scenarioBStarted.state 3 [4, 1] = Res.ok true ∧
    (1 : Int) ∈ [4, 1] ∧
    (1 : Int) ∉ GetQueueFromLedger scenarioBStarted.state QueueTable.OutQueueTable 3 ∧
    (scenarioBStarted.state.payment 1).map (fun p => p.Sender) = some 1 ∧
    (proposeNettableSet idealScheme scenarioBStarted.state foreignProposal).res = Res.ok () := by
  decide

/-- C15 amended, witness: the accepted list [4, 1] of bank 3 in Scenario B lies
below the queue entry 5 that it leaves out. -/
theorem verifyStrictPriority_guarantee_witness :
    VerifyStrictPriority scenarioBStarted.state 3 [4, 1] = Res.ok true ∧ (1 : Int) < 5 :=
  ⟨by decide,
   verifyStrictPriority_guarantee scenarioBStarted.state 3 [4, 1] (by decide) 5 (by decide)
     (by decide) 1 (by decide)⟩

/-- C16, counterexample: with the out-queue [5, 3] of bank 1, payment 3 occurs
in the queue and is not its first entry, yet the strict-priority check accepts
it and the gross settlement succeeds. -/
theorem skipping_head_accepted :
    GetQueueFromLedger unorderedQueued.state QueueTable.OutQueueTable 1 = [5, 3] ∧
    VerifyStrictPriority unorderedQueued.state 1 [3] = Res.ok true ∧
    (GrossSettlement idealScheme unorderedQueued.state ⟨1, 3, 100, 80⟩).res = Res.ok () := by
  decide

/-- C16 amended, witness: Scenario E. With the out-queue [1, 2, 3] the gross
settlement of payment 2 is rejected by the strict-priority check. -/
theorem grossSettlement_rejects_skipping_witness :
    GetQueueFromLedger scenarioE.state QueueTable.OutQueueTable 1 = [1, 2, 3] ∧
    (GrossSettlement idealScheme scenarioE.state ⟨1, 2, 100, 90⟩).res
      = Res.error "Verification of strict priority failed" :=
  ⟨by decide,
   (grossSettlement_rejects_skipping idealScheme scenarioE.state ⟨1, 2, 100, 90⟩
     (by decide) (by decide) (by decide)).2.1⟩

/-- C17, witness: the out-queue of bank 1 after the gross settlement of
Scenario A, and the out-queue of bank 2 after the net settlement of Scenario B
(which keeps payment 3 of [2, 3]). -/
theorem fifo_integrity_witness :
    (GetQueueFromLedger (GrossSettlement idealScheme scenarioA.state scenarioASet).state
      QueueTable.OutQueueTable 1).Sublist
      (GetQueueFromLedger scenarioA.state QueueTable.OutQueueTable 1) ∧
    GetQueueFromLedger (NetGLSettlement scenarioBConverged.state 1001).state
      QueueTable.OutQueueTable 2 = [3] ∧
    (GetQueueFromLedger (NetGLSettlement scenarioBConverged.state 1001).state
      QueueTable.OutQueueTable 2).Sublist
      (GetQueueFromLedger scenarioBConverged.state QueueTable.OutQueueTable 2) :=
  ⟨(fifo_integrity idealScheme scenarioA.state).1 scenarioASet (by decide)
     QueueTable.OutQueueTable 1,
   by decide,
   (fifo_integrity idealScheme scenarioBConverged.state).2 1001 (by decide)
     QueueTable.OutQueueTable 2⟩

/-- C18, witness: the payment message of Scenario A. Afterwards the out-queue
of bank 1 and the in-queue of bank 2 are both [1]. -/
theorem addMessage_postcondition_witness :
    (AddMessage idealScheme scenarioAMinted.state ⟨1, 1, 2, 10, 10⟩).res = Res.ok () ∧
    (AddMessage idealScheme scenarioAMinted.state ⟨1, 1, 2, 10, 10⟩).state.queue
      QueueTable.OutQueueTable 1 = some [1] ∧
    (AddMessage idealScheme scenarioAMinted.state ⟨1, 1, 2, 10, 10⟩).state.queue
      QueueTable.InQueueTable 2 = some [1] ∧
    (AddMessage idealScheme scenarioAMinted.state ⟨1, 1, 2, 10, 10⟩).state.account
      = scenarioAMinted.state.account :=
  ⟨(addMessage_postcondition idealScheme scenarioAMinted.state ⟨1, 1, 2, 10, 10⟩
     (by decide) (by decide) (by decide) (by decide) (by decide)).1,
   by decide, by decide,
   (addMessage_postcondition idealScheme scenarioAMinted.state ⟨1, 1, 2, 10, 10⟩
     (by decide) (by decide) (by decide) (by decide) (by decide)).2.2.2.2.2.1⟩

/-- C19, witness: Scenario C. The message of Scenario A with a proof whose
commitment is 11 instead of 10 is rejected and nothing is stored. -/
theorem addMessage_rejection_witness :
    idealScheme.C 11 ≠ (10 : Int) ∧
    (AddMessage idealScheme scenarioAMinted.state ⟨1, 1, 2, 10, 11⟩).res
      = Res.error "Payment message is not valid" ∧
    (AddMessage idealScheme scenarioAMinted.state ⟨1, 1, 2, 10, 11⟩).state
      = scenarioAMinted.state :=
  ⟨by decide, by decide,
   (addMessage_rejection idealScheme scenarioAMinted.state ⟨1, 1, 2, 10, 11⟩
     (Or.inr (Or.inr (Or.inr (Or.inr (Or.inr (Or.inl (by decide)))))))).2⟩

/-- C20, witness: the third-round proposal of bank 3 submitted again after
session 1001 of Scenario B has converged. -/
theorem proposeNettableSet_rejects_witness :
    scenarioBConverged.state.config 1001
      = some ⟨1001, [1, 2, 3, 4, 5], GLRStatusType.SUCCESS⟩ ∧
    (proposeNettableSet idealScheme scenarioBConverged.state scenarioBProposal3).res
      = Res.error "Verification of gridlock proposal failed" ∧
    (proposeNettableSet idealScheme scenarioBConverged.state scenarioBProposal3).state
      = scenarioBConverged.state :=
  ⟨by decide, by decide,
   (proposeNettableSet_rejects idealScheme scenarioBConverged.state scenarioBProposal3
     ⟨1001, [1, 2, 3, 4, 5], GLRStatusType.SUCCESS⟩ (by decide) (Or.inl rfl)).2.1⟩

theorem removeIds_nil (q : List Int) : removeIds q [] = q := by
  rw [removeIds_eq_filter]
  simp

/-- C27. RemoveQueueElementFromLedger is a stable filter: when a queue Q is stored
under the key, the call succeeds and stores exactly the entries of Q that do not
occur in ids, in their original order and with their multiplicity, changing no
other key; applying the same removal to the result stores the same store again;
and removing the empty list returns the store unchanged. -/
theorem removeQueueElement_stable_filter (s : Ledger G P PP) (t : QueueTable) (k : Int)
    (Q ids : List Int) (h : s.queue t k = some Q) :
    (∃ s1, RemoveQueueElementFromLedger s t k ids = Res.ok s1 ∧
      s1.queue t k = some (Q.filter (fun id => decide (id ∉ ids))) ∧
      (∀ t1 k1, (t1, k1) ≠ (t, k) → s1.queue t1 k1 = s.queue t1 k1) ∧
      s1.account = s.account ∧ s1.payment = s.payment ∧ s1.config = s.config ∧
      s1.proposal = s.proposal ∧ s1.params = s.params ∧
      ∃ s2, RemoveQueueElementFromLedger s1 t k ids = Res.ok s2 ∧ s2 = s1) ∧
    RemoveQueueElementFromLedger s t k [] = Res.ok s := by
  refine ⟨⟨AddQueueToLedger s t k (removeIds Q ids), removeQueue_some ids h, ?_, ?_, rfl, rfl, rfl,
    rfl, rfl, ?_⟩, ?_⟩
  · simp [AddQueueToLedger, removeIds_eq_filter]
  · intro t1 k1 hne
    simp only [AddQueueToLedger]
    by_cases ht : t1 = t
    · subst ht
      have hk : k1 ≠ k := fun hk => hne (by rw [hk])
      simp [Function.update_noteq hk]
    · simp [Function.update_noteq ht]
  · have h1 : (AddQueueToLedger s t k (removeIds Q ids)).queue t k = some (removeIds Q ids) := by
      simp [AddQueueToLedger]
    refine ⟨_, removeQueue_some ids h1, ?_⟩
    rw [removeIds_idem]
    simp [AddQueueToLedger]
  · rw [removeQueue_some [] h, removeIds_nil]
    congr 1
    cases s with
    | mk pa ac pm qu co pr =>
      simp only [AddQueueToLedger] at h ⊢
      congr 1
      funext t1
      by_cases ht : t1 = t
      · subst ht
        simp only [Function.update_same]
        funext k1
        by_cases hk : k1 = k
        · subst hk
          simp [h]
        · simp [Function.update_noteq hk]
      · simp [Function.update_noteq ht]

theorem removeQueueElement_stable_filter_witness :
    scenarioE.state.queue QueueTable.OutQueueTable 1 = some [1, 2, 3] ∧
    ((∃ s1, RemoveQueueElementFromLedger scenarioE.state QueueTable.OutQueueTable 1 [2, 7]
        = Res.ok s1 ∧
      s1.queue QueueTable.OutQueueTable 1
        = some ([1, 2, 3].filter (fun id => decide (id ∉ [2, 7]))) ∧
      (∀ t1 k1, (t1, k1) ≠ (QueueTable.OutQueueTable, 1) →
        s1.queue t1 k1 = scenarioE.state.queue t1 k1) ∧
      s1.account = scenarioE.state.account ∧ s1.payment = scenarioE.state.payment ∧
      s1.config = scenarioE.state.config ∧
      s1.proposal = scenarioE.state.proposal ∧ s1.params = scenarioE.state.params ∧
      ∃ s2, RemoveQueueElementFromLedger s1 QueueTable.OutQueueTable 1 [2, 7] = Res.ok s2 ∧
        s2 = s1) ∧
    RemoveQueueElementFromLedger scenarioE.state QueueTable.OutQueueTable 1 [] =
      Res.ok scenarioE.state) :=
  ⟨by decide, removeQueueElement_stable_filter scenarioE.state QueueTable.OutQueueTable 1
    [1, 2, 3] [2, 7] (by decide)⟩

theorem collectInfeasible_missing (s : Ledger G P PP) (gid : Int) :
    ∀ (banks : List Int) (acc : List Int),
      (∃ b ∈ banks, s.proposal (proposalKey gid b) = none) →
      ∃ msg, collectInfeasible s gid banks acc = Res.error msg := by
  intro banks
  induction banks with
  | nil => intro acc h; obtain ⟨b, hb, _⟩ := h; simp at hb
  | cons a t ih =>
    intro acc h
    cases hp : s.proposal (proposalKey gid a) with
    | none =>
      exact ⟨"No stored proposal with this key",
        by simp [collectInfeasible, GetGridlockProposalFromLedger, hp]⟩
    | some pr =>
      simp only [collectInfeasible, GetGridlockProposalFromLedger, hp]
      apply ih
      obtain ⟨b, hb, hn⟩ := h
      rcases List.mem_cons.mp hb with rfl | hb
      · rw [hp] at hn; cases hn
      · exact ⟨b, hb, hn⟩

/-- C21. A failed tally consumes nothing: when the configuration stored for gid
has a status other than START, or some bank of its bankIds has no stored proposal
for (gid, bank), tallyGridlockProposal returns an error and the store it leaves is
the store it was given, so neither Infeasible(gid) nor GLRConfig(gid) nor any
other key changed. -/
theorem tallyGridlockProposal_failure (s : Ledger G P PP) (gid : Int) (cfg : GLRConfiguration)
    (hcfg : s.config gid = some cfg)
    (h : cfg.Status ≠ GLRStatusType.START ∨
      ∃ b ∈ cfg.BankIds, s.proposal (proposalKey gid b) = none) :
    (∃ msg, (tallyGridlockProposal s gid).res = Res.error msg) ∧
    (tallyGridlockProposal s gid).state = s := by
  unfold tallyGridlockProposal
  simp only [GetGLRConfigFromLedger, hcfg, Res.unchecked]
  by_cases c1 : cfg.Status ≠ GLRStatusType.START
  · simp [c1]
  · simp only [c1, if_false]
    have hm : ∃ b ∈ cfg.BankIds, s.proposal (proposalKey gid b) = none := by
      rcases h with h | h
      · exact absurd h c1
      · exact h
    obtain ⟨msg, hmsg⟩ := collectInfeasible_missing s gid cfg.BankIds [] hm
    simp [hmsg]

theorem tallyGridlockProposal_failure_witness :
    scenarioBStarted.state.config 1001 = some ⟨1001, [1, 2, 3, 4, 5], GLRStatusType.START⟩ ∧
    scenarioBStarted.state.proposal (proposalKey 1001 1) = none ∧
    (∃ msg, (tallyGridlockProposal scenarioBStarted.state 1001).res = Res.error msg) ∧
    (tallyGridlockProposal scenarioBStarted.state 1001).state = scenarioBStarted.state :=
  ⟨by decide, Option.isNone_iff_eq_none.mp (by decide),
    tallyGridlockProposal_failure scenarioBStarted.state 1001
      ⟨1001, [1, 2, 3, 4, 5], GLRStatusType.START⟩ (by decide)
      (Or.inr ⟨1, by decide, Option.isNone_iff_eq_none.mp (by decide)⟩)⟩


theorem verifyStrictPriority_single_total (s : Ledger G P PP) (b pid : Int) :
    VerifyStrictPriority s b [pid] = Res.ok true ∨ VerifyStrictPriority s b [pid] = Res.ok false := by
  unfold VerifyStrictPriority
  simp only []
  generalize infeasibleOf (GetQueueFromLedger s QueueTable.OutQueueTable b) [pid] = inf
  cases inf with
  | nil => simp
  | cons q0 t =>
    simp only [List.length_cons, List.head?_cons]
    rw [if_neg (by omega)]
    split_ifs
    · exact Or.inr rfl
    · exact Or.inl rfl

theorem verifySettlementSet_stale [AddCommGroup G] [DecidableEq G] (S : Scheme G P PP)
    (s : Ledger G P PP) (bankId : Int) (cmBalance bal : G) (zkrp : P) (ids : List Int)
    (ha : s.account bankId = some bal) (hne : bal ≠ cmBalance) :
    verifySettlementSet S s bankId cmBalance zkrp ids = Res.ok false := by
  unfold verifySettlementSet
  by_cases c : bankId > NumOfBanks ∨ bankId ≤ 0
  · simp [c]
  · simp [c, GetAccountFromLedger, ha, Res.unchecked, hne]

theorem grossSettlement_rejected [AddCommGroup G] [DecidableEq G] (S : Scheme G P PP)
    (s : Ledger G P PP) (x : GrossSettlementSet G P)
    (h : VerifyStrictPriority s x.BankId [x.PaymentId] = Res.ok false ∨
      verifySettlementSet S s x.BankId x.CmBalance x.Zkrp [x.PaymentId] = Res.ok false ∨
      ∃ m, verifySettlementSet S s x.BankId x.CmBalance x.Zkrp [x.PaymentId] = Res.error m) :
    (∃ msg, (GrossSettlement S s x).res = Res.error msg) ∧ (GrossSettlement S s x).state = s := by
  unfold GrossSettlement
  rcases verifyStrictPriority_single_total s x.BankId x.PaymentId with hp | hp
  · rcases h with h | h | ⟨m, h⟩
    · rw [hp] at h; cases h
    · simp [hp, h]
    · simp [hp, h]
  · simp [hp]

/-- C22. Stale view: a grossSettlement whose submitted cmBalance differs from
the stored balance of bankId returns an error and leaves the store unchanged; more
generally, so does every grossSettlement for which the strict-priority check
returns false or the settlement-set verification returns false or an error. -/
theorem grossSettlement_stale_view [AddCommGroup G] [DecidableEq G] (S : Scheme G P PP)
    (s : Ledger G P PP) (x : GrossSettlementSet G P) :
    (∀ bal, s.account x.BankId = some bal → bal ≠ x.CmBalance →
      (∃ msg, (GrossSettlement S s x).res = Res.error msg) ∧
      (GrossSettlement S s x).state = s) ∧
    (VerifyStrictPriority s x.BankId [x.PaymentId] = Res.ok false ∨
      verifySettlementSet S s x.BankId x.CmBalance x.Zkrp [x.PaymentId] = Res.ok false ∨
      (∃ m, verifySettlementSet S s x.BankId x.CmBalance x.Zkrp [x.PaymentId] = Res.error m) →
      (∃ msg, (GrossSettlement S s x).res = Res.error msg) ∧
      (GrossSettlement S s x).state = s) := by
  refine ⟨fun bal ha hne => ?_, grossSettlement_rejected S s x⟩
  exact grossSettlement_rejected S s x
    (Or.inr (Or.inl (verifySettlementSet_stale S s _ _ bal _ _ ha hne)))

theorem grossSettlement_stale_view_witness :
    scenarioD.res = Res.ok () ∧ scenarioD.state.account 1 = some 90 ∧
    ((∃ msg, (GrossSettlement idealScheme scenarioD.state scenarioDStale).res = Res.error msg) ∧
      (GrossSettlement idealScheme scenarioD.state scenarioDStale).state = scenarioD.state) ∧
    VerifyStrictPriority scenarioD.state 1 [3] = Res.ok false ∧
    (∃ msg, (GrossSettlement idealScheme scenarioD.state ⟨1, 3, 90, 80⟩).res = Res.error msg) ∧
    (GrossSettlement idealScheme scenarioD.state ⟨1, 3, 90, 80⟩).state = scenarioD.state :=
  ⟨by decide, by decide,
    (grossSettlement_stale_view idealScheme scenarioD.state scenarioDStale).1 90
      (by decide) (by decide),
    by decide,
    (grossSettlement_stale_view idealScheme scenarioD.state ⟨1, 3, 90, 80⟩).2
      (Or.inl (by decide))⟩

theorem find?_reverse_cons {α : Type} (p : α → Bool) (a : α) (t : List α) :
    (a :: t).reverse.find? p = (t.reverse.find? p).or (if p a then some a else none) := by
  rw [List.reverse_cons, List.find?_append]
  congr 1
  simp [List.find?]
  cases p a <;> rfl

theorem mintAccount_ok [DecidableEq G] (S : Scheme G P PP) :
    ∀ (batch : List (BankAccount G P)) (s : Ledger G P PP),
      (∀ a ∈ batch, verifyAccount S s a = Res.ok true) →
      (MintAccount S s batch).res = Res.ok () ∧
      ∀ b, (MintAccount S s batch).state.account b = (lastMinted batch b).or (s.account b) := by
  intro batch
  induction batch with
  | nil => intro s _; simp [MintAccount, lastMinted]
  | cons a t ih =>
    intro s h
    have ha := h a (List.mem_cons_self _ _)
    have ht : ∀ a1 ∈ t, verifyAccount S (AddAccountToLedger s a.BankId a.CmBalance) a1
        = Res.ok true := fun a1 h1 => h a1 (List.mem_cons_of_mem _ h1)
    simp only [MintAccount, ha]
    obtain ⟨h1, h2⟩ := ih _ ht
    refine ⟨h1, fun b => ?_⟩
    rw [h2 b]
    simp only [lastMinted, find?_reverse_cons, AddAccountToLedger]
    cases hf : List.find? (fun a => decide (a.BankId = b)) t.reverse with
    | some v => simp
    | none =>
      by_cases hb : a.BankId = b
      · subst hb; simp
      · have hb1 : b ≠ a.BankId := fun e => hb e.symm
        simp [hb, Function.update_noteq hb1]

/-- C26. Success and overwrite of mintAccount: when every entry of the batch
passes verifyAccount, MintAccount succeeds; for each bank id of the batch the
stored account is exactly the cmBalance of the last batch entry with that id (the
account table holds a commitment only, no proof); accounts of bank ids not in the
batch are unchanged, and so are all other tables. -/
theorem mintAccount_success [DecidableEq G] (S : Scheme G P PP) (s : Ledger G P PP)
    (batch : List (BankAccount G P))
    (h : ∀ a ∈ batch, verifyAccount S s a = Res.ok true) :
    (MintAccount S s batch).res = Res.ok () ∧
    (∀ a ∈ batch, ∃ last ∈ batch, last.BankId = a.BankId ∧
      lastMinted batch a.BankId = some last.CmBalance ∧
      (MintAccount S s batch).state.account a.BankId = some last.CmBalance) ∧
    (∀ b, (∀ a ∈ batch, a.BankId ≠ b) → (MintAccount S s batch).state.account b = s.account b) ∧
    (MintAccount S s batch).state.payment = s.payment ∧
    (MintAccount S s batch).state.queue = s.queue ∧
    (MintAccount S s batch).state.config = s.config ∧
    (MintAccount S s batch).state.proposal = s.proposal ∧
    (MintAccount S s batch).state.params = s.params := by
  obtain ⟨h1, h2⟩ := mintAccount_ok S batch s h
  obtain ⟨f1, f2, f3, f4, f5⟩ := mintAccount_frame S batch s
  refine ⟨h1, ?_, ?_, f1, f3, f2, f4, f5⟩
  · intro a ha
    have : ((batch.reverse.find? (fun a1 => decide (a1.BankId = a.BankId)))).isSome = true := by
      rw [List.find?_isSome]
      exact ⟨a, List.mem_reverse.mpr ha, by simp⟩
    obtain ⟨last, hl⟩ := Option.isSome_iff_exists.mp this
    have hm := List.mem_of_find?_eq_some hl
    have hp := List.find?_some hl
    refine ⟨last, List.mem_reverse.mp hm, by simpa using hp, ?_, ?_⟩
    · simp [lastMinted, hl]
    · rw [h2]; simp [lastMinted, hl]
  · intro b hb
    rw [h2]
    have : batch.reverse.find? (fun a1 => decide (a1.BankId = b)) = none := by
      rw [List.find?_eq_none]
      intro a ha
      simpa using hb a (List.mem_reverse.mp ha)
    simp [lastMinted, this]

theorem mintAccount_success_witness :
    (∀ a ∈ [(⟨1, 100, 100⟩ : BankAccount Int Int), ⟨2, 100, 100⟩, ⟨1, 70, 70⟩],
      verifyAccount idealScheme emptyLedger a = Res.ok true) ∧
    lastMinted [(⟨1, 100, 100⟩ : BankAccount Int Int), ⟨2, 100, 100⟩, ⟨1, 70, 70⟩] 1 = some 70 ∧
    (MintAccount idealScheme emptyLedger [⟨1, 100, 100⟩, ⟨2, 100, 100⟩, ⟨1, 70, 70⟩]).state.account 1
      = some 70 :=
  ⟨by decide, by decide, by
    obtain ⟨last, _, _, h1, h2⟩ := (mintAccount_success idealScheme emptyLedger
      [⟨1, 100, 100⟩, ⟨2, 100, 100⟩, ⟨1, 70, 70⟩] (by decide)).2.1 ⟨1, 100, 100⟩ (by simp)
    rw [h2, ← h1]; decide⟩

theorem verifyAccount_cases [DecidableEq G] (S : Scheme G P PP) (s : Ledger G P PP)
    (a : BankAccount G P) :
    verifyAccount S s a = Res.ok true ∨ verifyAccount S s a = Res.ok false ∨
    verifyAccount S s a = Res.error "ZKP verification failed" := by
  unfold verifyAccount
  by_cases h1 : a.BankId > NumOfBanks ∨ a.BankId ≤ 0
  · simp [h1]
  · by_cases h2 : S.C a.Zkrp ≠ a.CmBalance
    · simp [h1, h2]
    · by_cases h3 : S.VerifyUL a.Zkrp s.params ≠ true
      · simp [h1, h2, h3]
      · simp [h1, h2, h3]

theorem verifyAccount_true [DecidableEq G] (S : Scheme G P PP) (s : Ledger G P PP)
    (a : BankAccount G P) (h : verifyAccount S s a = Res.ok true) :
    (1 ≤ a.BankId ∧ a.BankId ≤ NumOfBanks) ∧ S.C a.Zkrp = a.CmBalance ∧
    S.VerifyUL a.Zkrp s.params = true := by
  unfold verifyAccount at h
  by_cases h1 : a.BankId > NumOfBanks ∨ a.BankId ≤ 0
  · simp [h1] at h
  · by_cases h2 : S.C a.Zkrp ≠ a.CmBalance
    · simp [h1, h2] at h
    · by_cases h3 : S.VerifyUL a.Zkrp s.params ≠ true
      · simp [h1, h2, h3] at h
      · exact ⟨by omega, not_not.mp h2, not_not.mp h3⟩

theorem mintAccount_rejects [DecidableEq G] (S : Scheme G P PP) :
    ∀ (batch : List (BankAccount G P)) (s : Ledger G P PP),
      (∃ a ∈ batch, verifyAccount S s a ≠ Res.ok true) →
      ∃ msg, (MintAccount S s batch).res = Res.error msg := by
  intro batch
  induction batch with
  | nil => intro s h; obtain ⟨a, ha, _⟩ := h; simp at ha
  | cons a t ih =>
    intro s h
    rcases verifyAccount_cases S s a with hv | hv | hv
    · simp only [MintAccount, hv]
      apply ih
      obtain ⟨a1, h1, h2⟩ := h
      rcases List.mem_cons.mp h1 with rfl | h1
      · exact absurd hv h2
      · exact ⟨a1, h1, h2⟩
    · exact ⟨"MintAcount is not valid", by simp [MintAccount, hv]⟩
    · exact ⟨"ZKP verification failed", by simp [MintAccount, hv]⟩

theorem verifyPaymentMessage_mismatch [DecidableEq G] (S : Scheme G P PP) (s : Ledger G P PP)
    (m : PaymentMessage G P) (h : S.C m.Zkrp ≠ m.CmAmount) :
    verifyPaymentMessage S s m = Res.ok false := by
  unfold verifyPaymentMessage
  split_ifs <;> rfl

theorem verifySettlementSet_mismatch [AddCommGroup G] [DecidableEq G] (C : P → G)
    (V V1 : P → Option PP → Bool) (s : Ledger G P PP) (bankId : Int) (cmBalance : G)
    (zkrp : P) (pid : Int) (h : C zkrp ≠ cmBalance + -(amountOf s pid)) :
    verifySettlementSet ⟨C, V1⟩ s bankId cmBalance zkrp [pid]
      = verifySettlementSet ⟨C, V⟩ s bankId cmBalance zkrp [pid] := by
  unfold verifySettlementSet
  by_cases hb : bankId > NumOfBanks ∨ bankId ≤ 0
  · simp [hb]
  · simp only [hb, if_false]
    cases ha : s.account bankId with
    | none => simp [GetAccountFromLedger, ha, Res.unchecked]
    | some account =>
      simp only [GetAccountFromLedger, ha, Res.unchecked]
      by_cases hc : account ≠ cmBalance
      · simp [hc]
      · simp only [hc, if_false]
        have hc1 : account = cmBalance := not_not.mp hc
        subst hc1
        cases hp : s.payment pid with
        | none => simp [subtractOwnOutgoing, GetPaymentFromLedger, hp]
        | some p =>
          simp only [subtractOwnOutgoing, GetPaymentFromLedger, hp]
          by_cases h1 : p.Sender ≠ bankId
          · simp [h1]
          · simp only [h1, if_false]
            by_cases h2 : p.Status = StatusType.SETTLED
            · simp [h2]
            · simp only [h2, if_false]
              have h3 : C zkrp ≠ account + -p.CmAmount := by
                simpa [amountOf, hp] using h
              simp [h3]

theorem grossSettlement_state_of_not_verified [AddCommGroup G] [DecidableEq G]
    (S : Scheme G P PP) (s : Ledger G P PP) (x : GrossSettlementSet G P)
    (h : verifySettlementSet S s x.BankId x.CmBalance x.Zkrp [x.PaymentId] ≠ Res.ok true) :
    (GrossSettlement S s x).state = s := by
  unfold GrossSettlement
  rcases verifyStrictPriority_single_total s x.BankId x.PaymentId with hp | hp
  · simp only [hp]
    cases hv : verifySettlementSet S s x.BankId x.CmBalance x.Zkrp [x.PaymentId] with
    | error m => rfl
    | panic => rfl
    | ok b =>
      cases b with
      | false => rfl
      | true => exact absurd hv h
  · simp [hp]

theorem adds_ok_eq [AddCommGroup G] (s : Ledger G P PP) (prop : GridlockProposal G P)
    (cmSum1 cmSum : G)
    (hin : addFeasibleIncoming s
      (GetQueueFromLedger s QueueTable.InfeasibleTable prop.GridlockId)
      (GetQueueFromLedger s QueueTable.InQueueTable prop.BankId) prop.CmBalance = Res.ok cmSum1)
    (hout : subtractOutgoing s prop.OutgoingIds cmSum1 = Res.ok cmSum) :
    cmSum = cmPost s prop := by
  obtain ⟨i1, _⟩ := addFeasibleIncoming_ok s _ _ _ _ hin
  obtain ⟨o1, _⟩ := subtractOutgoing_ok s _ _ _ hout
  rw [o1, i1, cmPost]

theorem verifyGridlockProposal_mismatch [AddCommGroup G] [DecidableEq G] (C : P → G)
    (V V1 : P → Option PP → Bool) (s : Ledger G P PP) (prop : GridlockProposal G P)
    (h : C prop.Zkrp1 ≠ cmPost s prop) :
    verifyGridlockProposal ⟨C, V1⟩ s prop = verifyGridlockProposal ⟨C, V⟩ s prop := by
  unfold verifyGridlockProposal
  cases hcfg : s.config prop.GridlockId with
  | none => simp [GetGLRConfigFromLedger, hcfg, Res.unchecked]
  | some cfg =>
    simp only [GetGLRConfigFromLedger, hcfg, Res.unchecked]
    by_cases c1 : cfg.Status ≠ GLRStatusType.START
    · simp [c1]
    · simp only [c1, if_false]
      by_cases c2 : cfg.BankIds.any (fun id => id == prop.BankId) = false
      · simp [c2]
      · simp only [c2, Bool.false_eq_true, if_false]
        cases hv : VerifyStrictPriority s prop.BankId prop.OutgoingIds with
        | error m => rfl
        | panic => rfl
        | ok b =>
          cases b with
          | false => rfl
          | true =>
            simp only []
            cases ha : s.account prop.BankId with
            | none => simp [GetAccountFromLedger, ha]
            | some account =>
              simp only [GetAccountFromLedger, ha]
              by_cases c3 : account ≠ prop.CmBalance
              · simp [c3]
              · simp only [c3, if_false]
                have e3 : account = prop.CmBalance := not_not.mp c3
                subst e3
                cases hin : addFeasibleIncoming s
                    (GetQueueFromLedger s QueueTable.InfeasibleTable prop.GridlockId)
                    (GetQueueFromLedger s QueueTable.InQueueTable prop.BankId)
                    prop.CmBalance with
                | error m => rfl
                | panic => rfl
                | ok cmSum1 =>
                  simp only []
                  cases hout : subtractOutgoing s prop.OutgoingIds cmSum1 with
                  | error m => rfl
                  | panic => rfl
                  | ok cmSum =>
                    simp only []
                    have e := adds_ok_eq s prop cmSum1 cmSum hin hout
                    have c4 : C prop.Zkrp1 ≠ cmSum := by rw [e]; exact h
                    simp [c4]

theorem proposeNettableSet_state_of_not_ok [AddCommGroup G] [DecidableEq G]
    (S : Scheme G P PP) (s : Ledger G P PP) (prop : GridlockProposal G P)
    (h : verifyGridlockProposal S s prop ≠ Res.ok true) :
    (proposeNettableSet S s prop).state = s := by
  unfold proposeNettableSet
  cases hv : verifyGridlockProposal S s prop with
  | error m => rfl
  | panic => rfl
  | ok b =>
    cases b with
    | false => rfl
    | true => exact absurd hv h

/-- C24. The commitment-mismatch check decides before VerifyUL is consulted. For
every commitment map C and whatever verdicts V the verifier would give: a mint
batch containing an entry whose proof commits to something other than its claimed
cmBalance is rejected with an error; an addMessage whose proof commits to
something other than the claimed cmAmount returns the error of a failed
verification and leaves the store unchanged; a grossSettlement whose proof commits
to something other than the recomputed cmBalance minus the payment amount, and a
proposeNettableSet whose zkrp1 commits to something other than the recomputed
cmPost, do not succeed, leave the store unchanged and return the same outcome
under every other verifier V1; and a proposeNettableSet whose zkrp2 commits to
something other than neg(cmPost - amount of the least infeasible id) does not
succeed and leaves the store unchanged. -/
theorem commitment_mismatch_rejected [AddCommGroup G] [DecidableEq G] (C : P → G)
    (V : P → Option PP → Bool) (s : Ledger G P PP) :
    (∀ batch : List (BankAccount G P), (∃ a ∈ batch, C a.Zkrp ≠ a.CmBalance) →
      ∃ msg, (MintAccount ⟨C, V⟩ s batch).res = Res.error msg) ∧
    (∀ m : PaymentMessage G P, C m.Zkrp ≠ m.CmAmount →
      AddMessage ⟨C, V⟩ s m = ⟨Res.error "Payment message is not valid", s⟩) ∧
    (∀ x : GrossSettlementSet G P, C x.Zkrp ≠ x.CmBalance + -(amountOf s x.PaymentId) →
      (GrossSettlement ⟨C, V⟩ s x).res ≠ Res.ok () ∧ (GrossSettlement ⟨C, V⟩ s x).state = s ∧
      ∀ V1, GrossSettlement ⟨C, V1⟩ s x = GrossSettlement ⟨C, V⟩ s x) ∧
    (∀ prop : GridlockProposal G P, C prop.Zkrp1 ≠ cmPost s prop →
      (proposeNettableSet ⟨C, V⟩ s prop).res ≠ Res.ok () ∧
      (proposeNettableSet ⟨C, V⟩ s prop).state = s ∧
      ∀ V1, proposeNettableSet ⟨C, V1⟩ s prop = proposeNettableSet ⟨C, V⟩ s prop) ∧
    (∀ (prop : GridlockProposal G P) (sm : Int), IsLeast {i | i ∈ prop.InfeasibleIds} sm →
      C prop.Zkrp2 ≠ -(cmPost s prop - amountOf s sm) →
      (proposeNettableSet ⟨C, V⟩ s prop).res ≠ Res.ok () ∧
      (proposeNettableSet ⟨C, V⟩ s prop).state = s) := by
  refine ⟨?_, ?_, ?_, ?_, ?_⟩
  · intro batch h
    apply mintAccount_rejects
    obtain ⟨a, ha, hne⟩ := h
    exact ⟨a, ha, fun hv => hne (verifyAccount_true _ s a hv).2.1⟩
  · intro m h
    unfold AddMessage
    rw [verifyPaymentMessage_mismatch _ s m h]
  · intro x h
    have hv : verifySettlementSet ⟨C, V⟩ s x.BankId x.CmBalance x.Zkrp [x.PaymentId]
        ≠ Res.ok true := by
      intro hv
      obtain ⟨_, _, _, p, hp, _, _, hc, _⟩ := verifySettlementSet_single_ok _ s _ _ _ _ hv
      apply h
      simp only [] at hc
      rw [hc, amountOf, hp]
    refine ⟨fun hok => hv (grossSettlement_ok _ s x hok).2.1,
      grossSettlement_state_of_not_verified _ s x hv, fun V1 => ?_⟩
    unfold GrossSettlement
    rw [verifySettlementSet_mismatch C V V1 s _ _ _ _ h]
  · intro prop h
    have hv : verifyGridlockProposal ⟨C, V⟩ s prop ≠ Res.ok true := by
      intro hv
      exact h (verifyGridlockProposal_ok _ s prop hv).2.2.2.2.2.1
    refine ⟨fun hok => hv ((proposeNettableSet_res_ok _ s prop).mp hok),
      proposeNettableSet_state_of_not_ok _ s prop hv, fun V1 => ?_⟩
    unfold proposeNettableSet
    rw [verifyGridlockProposal_mismatch C V V1 s prop h]
  · intro prop sm hsm h
    have hv : verifyGridlockProposal ⟨C, V⟩ s prop ≠ Res.ok true := by
      intro hv
      obtain ⟨_, _, _, _, _, h1, _, h2⟩ := verifyGridlockProposal_ok _ s prop hv
      have hne : prop.InfeasibleIds ≠ [] := by
        intro e
        have := hsm.1
        simp [e] at this
      obtain ⟨sm1, p, hl, hp, hc, _⟩ := h2 hne
      have e : sm = sm1 := hsm.unique hl
      apply h
      simp only [] at hc h1
      rw [hc, h1, e, amountOf, hp, cmPost]
    exact ⟨fun hok => hv ((proposeNettableSet_res_ok _ s prop).mp hok),
      proposeNettableSet_state_of_not_ok _ s prop hv⟩

theorem commitment_mismatch_rejected_witness :
    (∃ msg, (MintAccount idealScheme scenarioBStarted.state [⟨1, 100, 90⟩]).res
      = Res.error msg) ∧
    AddMessage idealScheme scenarioBStarted.state ⟨11, 1, 2, 10, 7⟩
      = ⟨Res.error "Payment message is not valid", scenarioBStarted.state⟩ ∧
    ((0 : Int) ≠ 3 + -(amountOf scenarioBStarted.state 1) ∧
      (GrossSettlement idealScheme scenarioBStarted.state ⟨1, 1, 3, 0⟩).res ≠ Res.ok () ∧
      (GrossSettlement idealScheme scenarioBStarted.state ⟨1, 1, 3, 0⟩).state
        = scenarioBStarted.state) ∧
    ((6 : Int) ≠ cmPost scenarioBStarted.state ⟨1001, 1, [1, 7], [], 3, 6, 0⟩ ∧
      (proposeNettableSet idealScheme scenarioBStarted.state
        ⟨1001, 1, [1, 7], [], 3, 6, 0⟩).res ≠ Res.ok ()) ∧
    ((40 : Int) ≠ -(cmPost scenarioBStarted.state ⟨1001, 3, [4], [5], 5, 39, 40⟩
        - amountOf scenarioBStarted.state 5) ∧
      (proposeNettableSet idealScheme scenarioBStarted.state
        ⟨1001, 3, [4], [5], 5, 39, 40⟩).res ≠ Res.ok ()) :=
  ⟨(commitment_mismatch_rejected idealScheme.C idealScheme.VerifyUL scenarioBStarted.state).1
      [⟨1, 100, 90⟩] ⟨⟨1, 100, 90⟩, List.mem_singleton.mpr rfl, by decide⟩,
    (commitment_mismatch_rejected idealScheme.C idealScheme.VerifyUL
      scenarioBStarted.state).2.1 ⟨11, 1, 2, 10, 7⟩ (by decide),
    ⟨by decide,
      ((commitment_mismatch_rejected idealScheme.C idealScheme.VerifyUL
        scenarioBStarted.state).2.2.1 ⟨1, 1, 3, 0⟩ (by decide)).1,
      ((commitment_mismatch_rejected idealScheme.C idealScheme.VerifyUL
        scenarioBStarted.state).2.2.1 ⟨1, 1, 3, 0⟩ (by decide)).2.1⟩,
    ⟨by decide,
      ((commitment_mismatch_rejected idealScheme.C idealScheme.VerifyUL
        scenarioBStarted.state).2.2.2.1 ⟨1001, 1, [1, 7], [], 3, 6, 0⟩ (by decide)).1⟩,
    ⟨by decide,
      ((commitment_mismatch_rejected idealScheme.C idealScheme.VerifyUL
        scenarioBStarted.state).2.2.2.2 ⟨1001, 3, [4], [5], 5, 39, 40⟩ 5
        ⟨List.mem_singleton.mpr rfl, fun i hi => le_of_eq (List.mem_singleton.mp hi).symm⟩
        (by decide)).1⟩⟩

theorem mintAccount_outside_range [DecidableEq G] (S : Scheme G P PP) (b : Int)
    (hb : b ≤ 0 ∨ b > NumOfBanks) :
    ∀ (batch : List (BankAccount G P)) (s : Ledger G P PP),
      (MintAccount S s batch).state.account b = s.account b := by
  intro batch
  induction batch with
  | nil => intro s; rfl
  | cons a t ih =>
    intro s
    rcases verifyAccount_cases S s a with hv | hv | hv
    · simp only [MintAccount, hv]
      rw [ih]
      have hr := (verifyAccount_true S s a hv).1
      have hne : b ≠ a.BankId := by omega
      simp [AddAccountToLedger, Function.update_noteq hne]
    · simp [MintAccount, hv]
    · simp [MintAccount, hv]

theorem netGLSettlement_config_of_ok [AddCommGroup G] (s : Ledger G P PP) (gid : Int)
    (h : (NetGLSettlement s gid).res = Res.ok ()) : ∃ cfg, s.config gid = some cfg := by
  cases hc : s.config gid with
  | none => simp [NetGLSettlement, GetGLRConfigFromLedger, hc] at h
  | some cfg => exact ⟨cfg, rfl⟩

theorem invoke_accountsInRange [AddCommGroup G] [DecidableEq G] (S : Scheme G P PP)
    (s : Ledger G P PP) (inv : Invocation G P PP) (h : (Invoke S s inv).res = Res.ok ())
    (hs : AccountsInRange s) : AccountsInRange (Invoke S s inv).state := by
  cases inv with
  | initParams params => exact hs
  | mintAccount accounts => exact mintAccount_accountsInRange S accounts s hs
  | addMessage m =>
    intro b hb
    simp only [Invoke, addMessage_account] at hb
    exact hs b hb
  | grossSettlement x =>
    obtain ⟨_, _, p, balS, balR, qIn, qOut, hp, hS, hR, _, _, hst⟩ := grossSettlement_ok S s x h
    intro b hb
    simp only [Invoke] at hb
    rw [hst] at hb
    simp only [grossPost] at hb
    by_cases h1 : b = p.Receiver
    · subst h1
      by_cases h2 : p.Receiver = p.Sender
      · apply hs; rw [h2, hS]; simp
      · rw [Function.update_noteq h2] at hR
        apply hs; rw [hR]; simp
    · rw [Function.update_noteq h1] at hb
      by_cases h2 : b = p.Sender
      · subst h2; apply hs; rw [hS]; simp
      · rw [Function.update_noteq h2] at hb
        exact hs b hb
  | startGLResolution c =>
    intro b hb
    simp only [Invoke, startGLResolution_account] at hb
    exact hs b hb
  | proposeNettableSet p =>
    intro b hb
    simp only [Invoke, proposeNettableSet_account] at hb
    exact hs b hb
  | tallyGridlockProposal gid =>
    intro b hb
    simp only [Invoke, (tallyGridlockProposal_frame s gid).1] at hb
    exact hs b hb
  | NetGLSettlement gid =>
    simp only [Invoke] at h ⊢
    obtain ⟨cfg, hcfg⟩ := netGLSettlement_config_of_ok s gid h
    by_cases hS : cfg.Status = GLRStatusType.SUCCESS
    · obtain ⟨h1, h2, _⟩ := netGLSettlement_ok s gid cfg hcfg hS h
      intro b hb
      by_cases hm : b ∈ cfg.BankIds
      · obtain ⟨bal, hbal, _⟩ := h1 b hm
        apply hs; rw [hbal]; simp
      · rw [h2 b hm] at hb
        exact hs b hb
    · rw [(netGLSettlement_wrong_status s gid cfg hcfg hS).2]
      exact hs

theorem reachable_accountsInRange [AddCommGroup G] [DecidableEq G] (S : Scheme G P PP)
    (s : Ledger G P PP) (h : Reachable S s) : AccountsInRange s := by
  induction h with
  | empty => intro b hb; exact absurd rfl hb
  | step s inv _ hok ih => exact invoke_accountsInRange S s inv hok ih

theorem scenarioADispatched_reachable : Reachable idealScheme scenarioADispatched.state := by
  have h0 : Reachable idealScheme
      (Invoke idealScheme (emptyStore : Ledger Int Int Unit) (.initParams ())).state :=
    Reachable.step _ _ Reachable.empty (by decide)
  have h1 := Reachable.step _ (.mintAccount [⟨1, 100, 100⟩, ⟨2, 100, 100⟩]) h0 (by decide)
  have h2 := Reachable.step _ (.addMessage ⟨1, 1, 2, 10, 10⟩) h1 (by decide)
  exact h2

/-- C25. Bank-id range of accounts: MintAccount returns an error for every batch
that contains an entry whose bankId is at most 0 or greater than NumOfBanks;
whatever it returns, it leaves the account under every key outside
[1, NumOfBanks] as it was; and in every store reachable from the empty store by
the dispatched operations every stored account has its bank id in
[1, NumOfBanks]. -/
theorem mintAccount_bank_range [AddCommGroup G] [DecidableEq G] (S : Scheme G P PP) :
    (∀ (s : Ledger G P PP) (batch : List (BankAccount G P)),
      (∃ a ∈ batch, a.BankId ≤ 0 ∨ a.BankId > NumOfBanks) →
      ∃ msg, (MintAccount S s batch).res = Res.error msg) ∧
    (∀ (s : Ledger G P PP) (batch : List (BankAccount G P)) (b : Int),
      b ≤ 0 ∨ b > NumOfBanks → (MintAccount S s batch).state.account b = s.account b) ∧
    (∀ s : Ledger G P PP, Reachable S s → ∀ b, s.account b ≠ none → 1 ≤ b ∧ b ≤ NumOfBanks) := by
  refine ⟨?_, ?_, ?_⟩
  · intro s batch h
    apply mintAccount_rejects
    obtain ⟨a, ha, hr⟩ := h
    refine ⟨a, ha, fun hv => ?_⟩
    have := (verifyAccount_true S s a hv).1
    omega
  · intro s batch b hb
    exact mintAccount_outside_range S b hb batch s
  · intro s h
    exact reachable_accountsInRange S s h

theorem mintAccount_bank_range_witness :
    (∃ msg, partialMint.res = Res.error msg) ∧
    partialMint.state.account 9 = emptyLedger.account 9 ∧
    scenarioADispatched.state.account 1 ≠ none ∧ (1 : Int) ≤ 1 ∧ (1 : Int) ≤ NumOfBanks :=
  ⟨(mintAccount_bank_range idealScheme).1 emptyLedger [⟨1, 100, 100⟩, ⟨9, 1, 1⟩]
      ⟨⟨9, 1, 1⟩, by simp, by decide⟩,
    (mintAccount_bank_range idealScheme).2.1 emptyLedger [⟨1, 100, 100⟩, ⟨9, 1, 1⟩] 9
      (by decide),
    by decide,
    (mintAccount_bank_range idealScheme).2.2 scenarioADispatched.state
      scenarioADispatched_reachable 1 (by decide)⟩

theorem verifyPaymentMessage_ok_inv [DecidableEq G] (S : Scheme G P PP) (s : Ledger G P PP)
    (m : PaymentMessage G P) (h : verifyPaymentMessage S s m = Res.ok true) :
    (1 ≤ m.Sender ∧ m.Sender ≤ NumOfBanks) ∧ (1 ≤ m.Receiver ∧ m.Receiver ≤ NumOfBanks) ∧
    m.Sender ≠ m.Receiver := by
  unfold verifyPaymentMessage at h
  by_cases h1 : m.Sender > NumOfBanks ∨ m.Sender ≤ 0
  · simp [h1] at h
  · by_cases h2 : m.Receiver > NumOfBanks ∨ m.Receiver ≤ 0
    · simp [h1, h2] at h
    · by_cases h3 : m.Sender = m.Receiver
      · simp [h1, h2, h3] at h
      · exact ⟨by omega, by omega, h3⟩

theorem settlementFrame_paymentsWellFormed {s s1 : Ledger G P PP} (hf : SettlementFrame s s1)
    (hs : PaymentsWellFormed s) : PaymentsWellFormed s1 := by
  intro pid p hp
  rcases hf.2.2.2.2 pid with e | e
  · exact hs pid p (e ▸ hp)
  · rw [e] at hp
    cases hq : s.payment pid with
    | none => rw [hq] at hp; cases hp
    | some q =>
      rw [hq] at hp
      simp only [Option.map_some', Option.some.injEq] at hp
      subst hp
      exact hs pid q hq

theorem invoke_paymentsWellFormed [AddCommGroup G] [DecidableEq G] (S : Scheme G P PP)
    (s : Ledger G P PP) (inv : Invocation G P PP) (hs : PaymentsWellFormed s) :
    PaymentsWellFormed (Invoke S s inv).state := by
  cases inv with
  | initParams params => exact hs
  | mintAccount accounts =>
    intro pid p hp
    simp only [Invoke, (mintAccount_frame S accounts s).1] at hp
    exact hs pid p hp
  | addMessage m =>
    simp only [Invoke, AddMessage]
    cases hv : verifyPaymentMessage S s m with
    | error e => exact hs
    | panic => exact hs
    | ok b =>
      cases b with
      | false => exact hs
      | true =>
        intro pid p hp
        simp only [AddQueueElementToLedger, AddQueueToLedger, AddPaymentToLedger] at hp
        by_cases hpid : pid = m.PaymentId
        · subst hpid
          simp only [Function.update_same, Option.some.injEq] at hp
          subst hp
          exact verifyPaymentMessage_ok_inv S s m hv
        · rw [Function.update_noteq hpid] at hp
          exact hs pid p hp
  | grossSettlement x =>
    exact settlementFrame_paymentsWellFormed (grossSettlement_frame S s x) hs
  | startGLResolution c =>
    intro pid p hp
    simp only [Invoke, startGLResolution_payment] at hp
    exact hs pid p hp
  | proposeNettableSet pr =>
    intro pid p hp
    simp only [Invoke, proposeNettableSet_payment] at hp
    exact hs pid p hp
  | tallyGridlockProposal gid =>
    intro pid p hp
    simp only [Invoke, (tallyGridlockProposal_frame s gid).2] at hp
    exact hs pid p hp
  | NetGLSettlement gid =>
    exact settlementFrame_paymentsWellFormed (netGLSettlement_frame s gid) hs

theorem reachable_paymentsWellFormed [AddCommGroup G] [DecidableEq G] (S : Scheme G P PP)
    (s : Ledger G P PP) (h : Reachable S s) : PaymentsWellFormed s := by
  induction h with
  | empty => intro pid p hp; cases hp
  | step s inv _ _ ih => exact invoke_paymentsWellFormed S s inv ih

/-- C30. Payment well-formedness: in every store reachable from the empty store by
the dispatched operations, every stored payment has its sender and its receiver
in [1, NumOfBanks] and its sender different from its receiver. -/
theorem payments_well_formed [AddCommGroup G] [DecidableEq G] (S : Scheme G P PP)
    (s : Ledger G P PP) (h : Reachable S s) (pid : Int) (p : StoredPaymentMessage G P)
    (hp : s.payment pid = some p) :
    (1 ≤ p.Sender ∧ p.Sender ≤ NumOfBanks) ∧ (1 ≤ p.Receiver ∧ p.Receiver ≤ NumOfBanks) ∧
    p.Sender ≠ p.Receiver :=
  reachable_paymentsWellFormed S s h pid p hp

theorem payments_well_formed_witness :
    scenarioADispatched.state.payment 1 = some ⟨1, 2, 10, 10, StatusType.ACTIVE⟩ ∧
    ((1 : Int) ≤ 1 ∧ (1 : Int) ≤ NumOfBanks) ∧ ((1 : Int) ≤ 2 ∧ (2 : Int) ≤ NumOfBanks) ∧
    (1 : Int) ≠ 2 :=
  ⟨by rfl, payments_well_formed idealScheme scenarioADispatched.state
    scenarioADispatched_reachable 1 ⟨1, 2, 10, 10, StatusType.ACTIVE⟩ (by rfl)⟩

theorem addMessage_state_of_not_ok [DecidableEq G] (S : Scheme G P PP) (s : Ledger G P PP)
    (m : PaymentMessage G P) (h : (AddMessage S s m).res ≠ Res.ok ()) :
    (AddMessage S s m).state = s := by
  unfold AddMessage at h ⊢
  cases hv : verifyPaymentMessage S s m with
  | error e => rfl
  | panic => rfl
  | ok b =>
    cases b with
    | false => rfl
    | true => simp [hv] at h

theorem tallyGridlockProposal_state_of_not_ok (s : Ledger G P PP) (gid : Int)
    (h : (tallyGridlockProposal s gid).res ≠ Res.ok ()) :
    (tallyGridlockProposal s gid).state = s := by
  unfold tallyGridlockProposal at h ⊢
  cases hc : (GetGLRConfigFromLedger s gid).unchecked with
  | error e => rfl
  | panic => rfl
  | ok cfg =>
    simp only [hc] at h ⊢
    by_cases c1 : cfg.Status ≠ GLRStatusType.START
    · simp [c1]
    · simp only [c1, if_false] at h ⊢
      cases hi : collectInfeasible s gid cfg.BankIds [] with
      | error e => rfl
      | panic => rfl
      | ok inf =>
        simp only [hi] at h
        split_ifs at h <;> simp at h

theorem mintAccount_settlementFrame [DecidableEq G] (S : Scheme G P PP) (s : Ledger G P PP)
    (batch : List (BankAccount G P)) : SettlementFrame s (MintAccount S s batch).state := by
  obtain ⟨f1, f2, f3, f4, f5⟩ := mintAccount_frame S batch s
  exact ⟨f5, f2, f4, by rw [f3], fun pid => Or.inl (by rw [f1])⟩

/-- What a failed operation hands back, before the host discards it: when an
invocation does not succeed, (1) unless it is a mintAccount, a grossSettlement or a
NetGLSettlement, the store it leaves is the store it was given; (2) a mintAccount
leaves payments and queues unchanged, so only accounts can have been written;
(3) in every case parameters, configurations, proposals and infeasible lists are
unchanged and each payment record is unchanged or marked settled. -/
theorem failure_leaves_store [AddCommGroup G] [DecidableEq G] (S : Scheme G P PP)
    (s : Ledger G P PP) (inv : Invocation G P PP) (h : (Invoke S s inv).res ≠ Res.ok ()) :
    ((∀ accounts, inv ≠ .mintAccount accounts) → (∀ x, inv ≠ .grossSettlement x) →
      (∀ gid, inv ≠ .NetGLSettlement gid) → (Invoke S s inv).state = s) ∧
    ((∃ accounts, inv = .mintAccount accounts) →
      (Invoke S s inv).state.payment = s.payment ∧ (Invoke S s inv).state.queue = s.queue) ∧
    SettlementFrame s (Invoke S s inv).state := by
  cases inv with
  | initParams params => exact absurd rfl h
  | mintAccount accounts =>
    refine ⟨fun h1 _ _ => absurd rfl (h1 accounts), fun _ => ?_,
      mintAccount_settlementFrame S s accounts⟩
    exact ⟨(mintAccount_frame S accounts s).1, (mintAccount_frame S accounts s).2.2.1⟩
  | addMessage m =>
    have e : (Invoke S s (.addMessage m)).state = s := addMessage_state_of_not_ok S s m h
    refine ⟨fun _ _ _ => e, (fun h1 => by obtain ⟨a, ha⟩ := h1; cases ha), ?_⟩
    rw [e]; exact settlementFrame_refl s
  | grossSettlement x =>
    exact ⟨fun _ h2 _ => absurd rfl (h2 x), (fun h1 => by obtain ⟨a, ha⟩ := h1; cases ha),
      grossSettlement_frame S s x⟩
  | startGLResolution c => exact absurd rfl h
  | proposeNettableSet pr =>
    have hv : verifyGridlockProposal S s pr ≠ Res.ok true :=
      fun hv => h ((proposeNettableSet_res_ok S s pr).mpr hv)
    have e : (Invoke S s (.proposeNettableSet pr)).state = s :=
      proposeNettableSet_state_of_not_ok S s pr hv
    refine ⟨fun _ _ _ => e, (fun h1 => by obtain ⟨a, ha⟩ := h1; cases ha), ?_⟩
    rw [e]; exact settlementFrame_refl s
  | tallyGridlockProposal gid =>
    have e : (Invoke S s (.tallyGridlockProposal gid)).state = s :=
      tallyGridlockProposal_state_of_not_ok s gid h
    refine ⟨fun _ _ _ => e, (fun h1 => by obtain ⟨a, ha⟩ := h1; cases ha), ?_⟩
    rw [e]; exact settlementFrame_refl s
  | NetGLSettlement gid =>
    exact ⟨fun _ _ h3 => absurd rfl (h3 gid), (fun h1 => by obtain ⟨a, ha⟩ := h1; cases ha),
      netGLSettlement_frame s gid⟩

/-- The write set of a failed invocation need not be empty: a mint batch whose
second entry names bank 9 returns an error after the account of bank 1 was
written, and a grossSettlement whose receiver has no account returns an error
after the payment was marked settled and the sender debited.  These are the
writes the host discards. -/
theorem failed_invocation_write_set :
    (Invoke idealScheme emptyLedger (.mintAccount [⟨1, 100, 100⟩, ⟨9, 1, 1⟩])).res
      = Res.error "MintAcount is not valid" ∧
    (Invoke idealScheme emptyLedger (.mintAccount [⟨1, 100, 100⟩, ⟨9, 1, 1⟩])).state.account 1
      = some 100 ∧
    emptyLedger.account 1 = none ∧
    unmintedReceiver.res = Res.ok () ∧
    (Invoke idealScheme unmintedReceiver.state (.grossSettlement ⟨1, 1, 100, 90⟩)).res
      = Res.error "No stored account with this key" ∧
    unmintedReceiver.state.account 1 = some 100 ∧
    (Invoke idealScheme unmintedReceiver.state (.grossSettlement ⟨1, 1, 100, 90⟩)).state.account 1
      = some 90 ∧
    (unmintedReceiver.state.payment 1).map (fun p => p.Status) = some StatusType.ACTIVE ∧
    ((Invoke idealScheme unmintedReceiver.state
        (.grossSettlement ⟨1, 1, 100, 90⟩)).state.payment 1).map (fun p => p.Status)
      = some StatusType.SETTLED := by
  decide

/-- C28, the code evaluated. On a store with no configuration and no account,
tallyGridlockProposal, proposeNettableSet and grossSettlement for bank 1 end in a
nil dereference instead of returning an error, while NetGLSettlement returns the
error of the failed read. -/
theorem absent_record_dereferenced :
    (tallyGridlockProposal emptyLedger 1).res = Res.panic ∧
    (proposeNettableSet idealScheme emptyLedger ⟨1, 1, [], [], 0, 0, 0⟩).res = Res.panic ∧
    (GrossSettlement idealScheme emptyLedger ⟨1, 1, 0, 0⟩).res = Res.panic ∧
    (NetGLSettlement emptyLedger 1).res = Res.error "No stored config with this key" := by
  decide

theorem outQueueInvariant_of_eq {s s1 : Ledger G P PP}
    (hq : s1.queue QueueTable.OutQueueTable = s.queue QueueTable.OutQueueTable)
    (hp : s1.payment = s.payment) (hs : OutQueueInvariant s) : OutQueueInvariant s1 := by
  intro b pid hmem
  simp only [GetQueueFromLedger, hq] at hmem
  obtain ⟨p, h1, h2⟩ := hs b pid hmem
  exact ⟨p, by rw [hp]; exact h1, h2⟩

theorem tallyGridlockProposal_outQueue (s : Ledger G P PP) (gid : Int) :
    (tallyGridlockProposal s gid).state.queue QueueTable.OutQueueTable
      = s.queue QueueTable.OutQueueTable := by
  have hne : QueueTable.OutQueueTable ≠ QueueTable.InfeasibleTable := by decide
  unfold tallyGridlockProposal
  cases hc : (GetGLRConfigFromLedger s gid).unchecked with
  | error e => rfl
  | panic => rfl
  | ok cfg =>
    simp only []
    by_cases c1 : cfg.Status ≠ GLRStatusType.START
    · simp [c1]
    · simp only [c1, if_false]
      cases hi : collectInfeasible s gid cfg.BankIds [] with
      | error e => rfl
      | panic => rfl
      | ok inf =>
        simp only []
        split_ifs <;>
          simp [AddGLRConfigurationToLedger, AddQueueToLedger, Function.update_noteq hne]

theorem addMessage_outQueueInvariant [DecidableEq G] (S : Scheme G P PP) (s : Ledger G P PP)
    (m : PaymentMessage G P) (hfresh : s.payment m.PaymentId = none)
    (hs : OutQueueInvariant s) : OutQueueInvariant (AddMessage S s m).state := by
  have hne : QueueTable.OutQueueTable ≠ QueueTable.InQueueTable := by decide
  unfold AddMessage
  cases hv : verifyPaymentMessage S s m with
  | error e => exact hs
  | panic => exact hs
  | ok b =>
    cases b with
    | false => exact hs
    | true =>
      intro b pid hmem
      simp only [GetQueueFromLedger, AddQueueElementToLedger, AddQueueToLedger,
        AddPaymentToLedger, Function.update_noteq hne, Function.update_same] at hmem ⊢
      have hold : ∀ q, s.queue QueueTable.OutQueueTable b = some q → pid ∈ q →
          ∃ p, Function.update s.payment m.PaymentId
              (some { Sender := m.Sender, Receiver := m.Receiver, CmAmount := m.CmAmount,
                      Zkrp := m.Zkrp, Status := StatusType.ACTIVE }) pid = some p ∧
            p.Status = StatusType.ACTIVE ∧ p.Sender = b := by
        intro q hq hpq
        have hm : pid ∈ GetQueueFromLedger s QueueTable.OutQueueTable b := by
          simp only [GetQueueFromLedger, hq]; exact hpq
        obtain ⟨p, h1, h2⟩ := hs b pid hm
        have hpid : pid ≠ m.PaymentId := by
          intro e; rw [e, hfresh] at h1; cases h1
        exact ⟨p, by rw [Function.update_noteq hpid]; exact h1, h2⟩
      by_cases hb : b = m.Sender
      · subst hb
        simp only [Function.update_same] at hmem
        rcases List.mem_append.mp hmem with h1 | h1
        · cases hq : s.queue QueueTable.OutQueueTable m.Sender with
          | none => rw [hq] at h1; simp at h1
          | some q =>
            rw [hq] at h1
            exact hold q hq h1
        · have e : pid = m.PaymentId := by simpa using h1
          subst e
          exact ⟨_, by rw [Function.update_same], rfl, rfl⟩
      · rw [Function.update_noteq hb] at hmem
        cases hq : s.queue QueueTable.OutQueueTable b with
        | none => rw [hq] at hmem; simp at hmem
        | some q =>
          rw [hq] at hmem
          exact hold q hq hmem

theorem grossSettlement_outQueueInvariant [AddCommGroup G] [DecidableEq G] (S : Scheme G P PP)
    (s : Ledger G P PP) (x : GrossSettlementSet G P)
    (h : (GrossSettlement S s x).res = Res.ok ())
    (hs : OutQueueInvariant s) : OutQueueInvariant (GrossSettlement S s x).state := by
  obtain ⟨_, _, p, balS, balR, qIn, qOut, hp, _, _, _, hqO, hst⟩ := grossSettlement_ok S s x h
  rw [hst]
  intro b pid hmem
  simp only [GetQueueFromLedger, grossPost, Function.update_same] at hmem ⊢
  have key : pid ∈ GetQueueFromLedger s QueueTable.OutQueueTable b ∧ pid ≠ x.PaymentId := by
    by_cases hb : b = p.Sender
    · subst hb
      simp only [Function.update_same, removeIds_singleton, List.mem_filter] at hmem
      refine ⟨by simp only [GetQueueFromLedger, hqO]; exact hmem.1, by simpa using hmem.2⟩
    · rw [Function.update_noteq hb] at hmem
      have hm : pid ∈ GetQueueFromLedger s QueueTable.OutQueueTable b := hmem
      refine ⟨hm, fun e => ?_⟩
      obtain ⟨p1, h1, _, h3⟩ := hs b pid hm
      rw [e, hp] at h1
      cases h1
      exact hb h3.symm
  obtain ⟨p1, h1, h2⟩ := hs b pid key.1
  exact ⟨p1, by rw [Function.update_noteq key.2]; exact h1, h2⟩

theorem netGLSettlement_outQueueInvariant [AddCommGroup G] (s : Ledger G P PP) (gid : Int)
    (h : (NetGLSettlement s gid).res = Res.ok ())
    (hs : OutQueueInvariant s) : OutQueueInvariant (NetGLSettlement s gid).state := by
  obtain ⟨cfg, hcfg⟩ := netGLSettlement_config_of_ok s gid h
  by_cases hS : cfg.Status = GLRStatusType.SUCCESS
  · obtain ⟨_, _, hpay, hsr, hout, _, hrest, _⟩ := netGLSettlement_ok s gid cfg hcfg hS h
    intro b pid hmem
    have key : pid ∈ GetQueueFromLedger s QueueTable.OutQueueTable b ∧
        pid ∉ proposedOutgoing s cfg.GridlockId cfg.BankIds := by
      by_cases hb : b ∈ cfg.BankIds
      · obtain ⟨q, hq, hq1⟩ := hout b hb
        simp only [GetQueueFromLedger, hq1, removeIds_eq_filter, List.mem_filter] at hmem
        have hm : pid ∈ GetQueueFromLedger s QueueTable.OutQueueTable b := by
          simp only [GetQueueFromLedger, hq]; exact hmem.1
        refine ⟨hm, fun hin => ?_⟩
        obtain ⟨p1, h1, _, h3⟩ := hs b pid hm
        have : pid ∈ (proposedOutgoing s cfg.GridlockId cfg.BankIds).filter (senderIs s b) := by
          simp [List.mem_filter, hin, senderIs, h1, h3]
        have h2 := hmem.2
        simp only [decide_eq_true_eq] at h2
        exact h2 (List.mem_filter.mp this)
      · simp only [GetQueueFromLedger, (hrest b hb).1] at hmem
        have hm : pid ∈ GetQueueFromLedger s QueueTable.OutQueueTable b := hmem
        refine ⟨hm, fun hin => ?_⟩
        obtain ⟨p1, h1, _, h3⟩ := hs b pid hm
        obtain ⟨p2, h4, h5, _⟩ := hsr pid hin
        rw [h1] at h4
        cases h4
        exact hb (h3 ▸ h5)
    obtain ⟨p1, h1, h2⟩ := hs b pid key.1
    exact ⟨p1, by rw [hpay]; simp only [markAll, key.2, if_false]; exact h1, h2⟩
  · rw [(netGLSettlement_wrong_status s gid cfg hcfg hS).2]
    exact hs

theorem invoke_outQueueInvariant [AddCommGroup G] [DecidableEq G] (S : Scheme G P PP)
    (s : Ledger G P PP) (inv : Invocation G P PP) (hf : reusesPaymentId s inv = false)
    (h : (Invoke S s inv).res = Res.ok ()) (hs : OutQueueInvariant s) :
    OutQueueInvariant (Invoke S s inv).state := by
  cases inv with
  | initParams params => exact outQueueInvariant_of_eq rfl rfl hs
  | mintAccount accounts =>
    obtain ⟨f1, _, f3, _, _⟩ := mintAccount_frame S accounts s
    exact outQueueInvariant_of_eq (by simp only [Invoke, f3]) (by simp only [Invoke, f1]) hs
  | addMessage m =>
    apply addMessage_outQueueInvariant S s m _ hs
    simpa [reusesPaymentId] using hf
  | grossSettlement x => exact grossSettlement_outQueueInvariant S s x h hs
  | startGLResolution c => exact outQueueInvariant_of_eq rfl rfl hs
  | proposeNettableSet pr =>
    exact outQueueInvariant_of_eq
      (by simp only [Invoke, (proposeNettableSet_frame S s pr).2.1])
      (by simp only [Invoke, proposeNettableSet_payment]) hs
  | tallyGridlockProposal gid =>
    exact outQueueInvariant_of_eq (tallyGridlockProposal_outQueue s gid)
      (tallyGridlockProposal_frame s gid).2 hs
  | NetGLSettlement gid => exact netGLSettlement_outQueueInvariant s gid h hs

theorem reachableFresh_outQueueInvariant [AddCommGroup G] [DecidableEq G] (S : Scheme G P PP)
    (s : Ledger G P PP) (h : ReachableFresh S s) : OutQueueInvariant s := by
  induction h with
  | empty => intro b pid hmem; simp [GetQueueFromLedger, emptyStore] at hmem
  | step s inv _ hf hok ih => exact invoke_outQueueInvariant S s inv hf hok ih

theorem scenarioADispatched_reachableFresh :
    ReachableFresh idealScheme scenarioADispatched.state := by
  have h0 : ReachableFresh idealScheme
      (Invoke idealScheme (emptyStore : Ledger Int Int Unit) (.initParams ())).state :=
    ReachableFresh.step _ _ ReachableFresh.empty (by decide) (by decide)
  have h1 := ReachableFresh.step _ (.mintAccount [⟨1, 100, 100⟩, ⟨2, 100, 100⟩]) h0
    (by decide) (by decide)
  have h2 := ReachableFresh.step _ (.addMessage ⟨1, 1, 2, 10, 10⟩) h1 (by decide) (by decide)
  exact h2

theorem reusedId_reachable : Reachable idealScheme reusedId.state := by
  have h0 : Reachable idealScheme
      (Invoke idealScheme (emptyStore : Ledger Int Int Unit) (.initParams ())).state :=
    Reachable.step _ _ Reachable.empty (by decide)
  have h1 := Reachable.step _ (.addMessage ⟨1, 1, 2, 10, 10⟩) h0 (by decide)
  have h2 := Reachable.step _ (.addMessage ⟨1, 2, 1, 10, 10⟩) h1 (by decide)
  exact h2

/-- C29, amended. Out-queue invariant: in every store reachable from the empty
store by successful dispatched operations none of which is an addMessage carrying
the id of an already stored payment, every id listed in OutQueue(b) refers to a
stored payment whose status is ACTIVE and whose sender is b. -/
theorem outQueue_invariant [AddCommGroup G] [DecidableEq G] (S : Scheme G P PP)
    (s : Ledger G P PP) (h : ReachableFresh S s) (b pid : Int)
    (hmem : pid ∈ GetQueueFromLedger s QueueTable.OutQueueTable b) :
    ∃ p, s.payment pid = some p ∧ p.Status = StatusType.ACTIVE ∧ p.Sender = b :=
  reachableFresh_outQueueInvariant S s h b pid hmem

theorem outQueue_invariant_witness :
    (1 : Int) ∈ GetQueueFromLedger scenarioADispatched.state QueueTable.OutQueueTable 1 ∧
    ∃ p, scenarioADispatched.state.payment 1 = some p ∧ p.Status = StatusType.ACTIVE ∧
      p.Sender = 1 :=
  ⟨by decide, outQueue_invariant idealScheme scenarioADispatched.state
    scenarioADispatched_reachableFresh 1 1 (by decide)⟩

/-- C29, counterexample. After payment id 1 has been admitted from bank 1 to
bank 2 and then again from bank 2 to bank 1, a store reachable by the dispatched
operations, OutQueue(1) lists id 1 but the payment stored under id 1 has sender
2, so no ACTIVE payment with sender 1 is stored under it. -/
theorem outQueue_foreign_sender :
    Reachable idealScheme reusedId.state ∧
    (1 : Int) ∈ GetQueueFromLedger reusedId.state QueueTable.OutQueueTable 1 ∧
    (reusedId.state.payment 1).map (fun p => p.Sender) = some 2 ∧
    ¬ ∃ p, reusedId.state.payment 1 = some p ∧ p.Status = StatusType.ACTIVE ∧ p.Sender = 1 := by
  refine ⟨reusedId_reachable, by decide, by decide, ?_⟩
  rintro ⟨p, h1, _, h3⟩
  have h4 : (reusedId.state.payment 1).map (fun p => p.Sender) = some 2 := by decide
  rw [h1] at h4
  simp only [Option.map_some', Option.some.injEq] at h4
  omega

/-- C31. Additive homomorphism of the curve commitment: for all integers x1, r1,
x2, r2 and every second generator h, Commit(x1, r1, h) + Commit(x2, r2, h) is the
group element Commit(x1 + x2, r1 + r2, h); being equal elements they have equal
images under any marshalling function. -/
theorem commit_add {G : Type} [AddCommGroup G] (g h : G) (x1 r1 x2 r2 : Int) :
    Commit g x1 r1 h + Commit g x2 r2 h = Commit g (x1 + x2) (r1 + r2) h ∧
    ∀ {B : Type} (marshal : G → B),
      marshal (Commit g x1 r1 h + Commit g x2 r2 h) = marshal (Commit g (x1 + x2) (r1 + r2) h) := by
  have e : Commit g x1 r1 h + Commit g x2 r2 h = Commit g (x1 + x2) (r1 + r2) h := by
    simp only [Commit, add_smul]
    abel
  exact ⟨e, fun marshal => by rw [e]⟩

/-- C32. Subtraction and negation of curve commitments: for all integers x1, r1,
x2, r2 and every h, Commit(x1, r1, h) + Neg(Commit(x2, r2, h)) is
Commit(x1 - x2, r1 - r2, h); in particular Commit(x, r, h) + Neg(Commit(x, r, h))
and Commit(x, r, h) + Commit(-x, -r, h) are both the group identity. -/
theorem commit_sub_neg {G : Type} [AddCommGroup G] (g h : G) (x1 r1 x2 r2 : Int) :
    Commit g x1 r1 h + -Commit g x2 r2 h = Commit g (x1 - x2) (r1 - r2) h ∧
    Commit g x1 r1 h + -Commit g x1 r1 h = 0 ∧
    Commit g x1 r1 h + Commit g (-x1) (-r1) h = 0 := by
  refine ⟨?_, ?_, ?_⟩
  · simp only [Commit, sub_smul]
    abel
  · simp
  · simp only [Commit, neg_smul]
    abel

theorem pow_mod_order (x p : Int) (q n : Nat) (hx : x ^ q % p = 1 % p) :
    x ^ (n % q) % p = x ^ n % p := by
  have h1 : x ^ q ≡ 1 [ZMOD p] := hx
  have h2 : x ^ n = (x ^ q) ^ (n / q) * x ^ (n % q) := by
    rw [← pow_mul, ← pow_add, Nat.div_add_mod]
  have h3 : (x ^ q) ^ (n / q) * x ^ (n % q) ≡ 1 ^ (n / q) * x ^ (n % q) [ZMOD p] :=
    (h1.pow _).mul_right _
  rw [h2]
  have h4 : x ^ (n % q) ≡ (x ^ q) ^ (n / q) * x ^ (n % q) [ZMOD p] := by
    simpa using h3.symm
  exact h4

theorem mul_mod_pow (x y p : Int) (a b c d : Nat) :
    ((x ^ a % p * (y ^ b % p)) % p * ((x ^ c % p * (y ^ d % p)) % p)) % p
      = (x ^ (a + c) * y ^ (b + d)) % p := by
  have h1 : (x ^ a % p * (y ^ b % p)) % p ≡ x ^ a * y ^ b [ZMOD p] :=
    (Int.mod_modEq _ _).trans ((Int.mod_modEq _ _).mul (Int.mod_modEq _ _))
  have h2 : (x ^ c % p * (y ^ d % p)) % p ≡ x ^ c * y ^ d [ZMOD p] :=
    (Int.mod_modEq _ _).trans ((Int.mod_modEq _ _).mul (Int.mod_modEq _ _))
  have h3 := h1.mul h2
  have e : x ^ a * y ^ b * (x ^ c * y ^ d) = x ^ (a + c) * y ^ (b + d) := by
    rw [pow_add, pow_add]; ring
  rw [e] at h3
  exact h3

theorem calculateCommitment_ok (p : PedersenPublic) (val r : Int) (h0 : 0 ≤ val)
    (h1 : val ≤ p.Group.Q) :
    p.CalculateCommitment val r
      = Res.ok ((p.Group.G ^ val.toNat % p.Group.P * (p.H ^ r.toNat % p.Group.P)) % p.Group.P) := by
  unfold PedersenPublic.CalculateCommitment
  have : ¬ (val > p.Group.Q ∨ val < 0) := by omega
  simp [this, SchnorrGroup.Exp, SchnorrGroup.Mul]

theorem toNat_add_emod (a b q : Int) (ha : 0 ≤ a) (hb : 0 ≤ b) (hq : 0 < q) :
    ((a + b) % q).toNat = (a.toNat + b.toNat) % q.toNat := by
  lift a to ℕ using ha
  lift b to ℕ using hb
  lift q to ℕ using hq.le
  simp only [Int.toNat_ofNat]
  have : ((a : Int) + b) % q = (((a + b) % q : ℕ) : Int) := by push_cast; rfl
  rw [this, Int.toNat_ofNat]

/-- C33. Homomorphism of the Schnorr-group commitment: for public parameters with
modulus p > 1 and order q > 0 in which g ^ q and H ^ q are 1 modulo p, and for all
a1, a2, r1, r2 in [0, q), CalculateCommitment succeeds on (a1, r1) and (a2, r2)
and CheckCommitment accepts ((a1 + a2) mod q, (r1 + r2) mod q) against the
SumCommitment of the two results; and the SumCommitment of the commitment to
(a1, r1) with the commitment to (-a1 mod q, -r1 mod q) is 1. -/
theorem schnorr_commitment_homomorphic (p : PedersenPublic) (hP : 1 < p.Group.P)
    (hQ : 0 < p.Group.Q) (hg : p.Group.G ^ p.Group.Q.toNat % p.Group.P = 1)
    (hH : p.H ^ p.Group.Q.toNat % p.Group.P = 1) (a1 r1 a2 r2 : Int)
    (ha1 : 0 ≤ a1 ∧ a1 < p.Group.Q) (hr1 : 0 ≤ r1 ∧ r1 < p.Group.Q)
    (ha2 : 0 ≤ a2 ∧ a2 < p.Group.Q) (hr2 : 0 ≤ r2 ∧ r2 < p.Group.Q) :
    (∃ c1 c2, p.CalculateCommitment a1 r1 = Res.ok c1 ∧
      p.CalculateCommitment a2 r2 = Res.ok c2 ∧
      p.CheckCommitment ((a1 + a2) % p.Group.Q) ((r1 + r2) % p.Group.Q)
        (p.SumCommitment c1 c2) = true) ∧
    (∃ c1 c2, p.CalculateCommitment a1 r1 = Res.ok c1 ∧
      p.CalculateCommitment (-a1 % p.Group.Q) (-r1 % p.Group.Q) = Res.ok c2 ∧
      p.SumCommitment c1 c2 = 1) := by
  have one : (1 : Int) = 1 % p.Group.P := (Int.emod_eq_of_lt (by omega) hP).symm
  have hg1 : p.Group.G ^ p.Group.Q.toNat % p.Group.P = 1 % p.Group.P := by rw [hg, ← one]
  have hH1 : p.H ^ p.Group.Q.toNat % p.Group.P = 1 % p.Group.P := by rw [hH, ← one]
  constructor
  · refine ⟨_, _, calculateCommitment_ok p a1 r1 ha1.1 ha1.2.le,
      calculateCommitment_ok p a2 r2 ha2.1 ha2.2.le, ?_⟩
    simp only [PedersenPublic.CheckCommitment, PedersenPublic.SumCommitment, SchnorrGroup.Exp,
      SchnorrGroup.Mul, decide_eq_true_eq]
    rw [mul_mod_pow, toNat_add_emod a1 a2 _ ha1.1 ha2.1 hQ,
      toNat_add_emod r1 r2 _ hr1.1 hr2.1 hQ]
    have e1 := pow_mod_order p.Group.G p.Group.P p.Group.Q.toNat (a1.toNat + a2.toNat) hg1
    have e2 := pow_mod_order p.H p.Group.P p.Group.Q.toNat (r1.toNat + r2.toNat) hH1
    exact (Int.mod_modEq _ _).mul (Int.mod_modEq _ _) |>.trans
      ((show _ ≡ _ [ZMOD p.Group.P] from e1).mul (show _ ≡ _ [ZMOD p.Group.P] from e2))
  · have hn : ∀ a : Int, 0 ≤ a → a < p.Group.Q →
        0 ≤ -a % p.Group.Q ∧ -a % p.Group.Q < p.Group.Q ∧
        (a.toNat + (-a % p.Group.Q).toNat) % p.Group.Q.toNat = 0 := by
      intro a h0 h1
      have b0 : 0 ≤ -a % p.Group.Q := Int.emod_nonneg _ (by omega)
      have b1 : -a % p.Group.Q < p.Group.Q := Int.emod_lt_of_pos _ hQ
      refine ⟨b0, b1, ?_⟩
      rw [← toNat_add_emod a (-a % p.Group.Q) _ h0 b0 hQ]
      have : (a + -a % p.Group.Q) % p.Group.Q = 0 := by
        rw [Int.add_emod, Int.emod_emod_of_dvd _ (dvd_refl _), ← Int.add_emod]
        simp
      rw [this]; rfl
    obtain ⟨a0, a1', a2'⟩ := hn a1 ha1.1 ha1.2
    obtain ⟨r0, r1', r2'⟩ := hn r1 hr1.1 hr1.2
    refine ⟨_, _, calculateCommitment_ok p a1 r1 ha1.1 ha1.2.le,
      calculateCommitment_ok p _ _ a0 a1'.le, ?_⟩
    simp only [PedersenPublic.SumCommitment, SchnorrGroup.Mul]
    rw [mul_mod_pow]
    have e1 := pow_mod_order p.Group.G p.Group.P p.Group.Q.toNat
      (a1.toNat + (-a1 % p.Group.Q).toNat) hg1
    have e2 := pow_mod_order p.H p.Group.P p.Group.Q.toNat
      (r1.toNat + (-r1 % p.Group.Q).toNat) hH1
    rw [a2', pow_zero] at e1
    rw [r2', pow_zero] at e2
    have e3 : p.Group.G ^ (a1.toNat + (-a1 % p.Group.Q).toNat)
        * p.H ^ (r1.toNat + (-r1 % p.Group.Q).toNat) ≡ 1 * 1 [ZMOD p.Group.P] :=
      (show _ ≡ _ [ZMOD p.Group.P] from e1.symm).mul (show _ ≡ _ [ZMOD p.Group.P] from e2.symm)
    have e4 : (p.Group.G ^ (a1.toNat + (-a1 % p.Group.Q).toNat)
        * p.H ^ (r1.toNat + (-r1 % p.Group.Q).toNat)) % p.Group.P = (1 * 1) % p.Group.P := e3
    rw [e4, mul_one, ← one]

theorem schnorr_commitment_homomorphic_witness :
    (∃ c1 c2, smallPedersen.CalculateCommitment 7 3 = Res.ok c1 ∧
      smallPedersen.CalculateCommitment 9 10 = Res.ok c2 ∧
      smallPedersen.CheckCommitment ((7 + 9) % smallPedersen.Group.Q)
        ((3 + 10) % smallPedersen.Group.Q) (smallPedersen.SumCommitment c1 c2) = true) ∧
    (∃ c1 c2, smallPedersen.CalculateCommitment 7 3 = Res.ok c1 ∧
      smallPedersen.CalculateCommitment (-7 % smallPedersen.Group.Q)
        (-3 % smallPedersen.Group.Q) = Res.ok c2 ∧
      smallPedersen.SumCommitment c1 c2 = 1) :=
  schnorr_commitment_homomorphic smallPedersen (by decide) (by decide) (by decide) (by decide)
    7 3 9 10 (by decide) (by decide) (by decide) (by decide)

theorem calculateCommitment_error_iff (p : PedersenPublic) (val r : Int) :
    (∃ msg, p.CalculateCommitment val r = Res.error msg) ↔ val < 0 ∨ val > p.Group.Q := by
  unfold PedersenPublic.CalculateCommitment
  by_cases h : val > p.Group.Q ∨ val < 0
  · simp only [h, if_true]
    constructor
    · intro _; omega
    · intro _; exact ⟨_, rfl⟩
  · simp only [h, if_false]
    constructor
    · rintro ⟨msg, hm⟩; cases hm
    · intro h1; exact absurd (by omega) h

/-- C36, the code evaluated. In the group of order 11 modulo 23,
CalculateCommitment accepts the value 11, which is the order and so not in Z_q,
and returns what it returns for the value 0; the value 12 is refused. -/
theorem calculateCommitment_accepts_order :
    smallPedersen.Group.Q = 11 ∧
    smallPedersen.CalculateCommitment 11 3 = Res.ok 18 ∧
    smallPedersen.CalculateCommitment 0 3 = Res.ok 18 ∧
    smallPedersen.CalculateCommitment 12 3
      = Res.error "committed value needs to be in Z_q (order of a base point)" := by
  decide


theorem verifyStrictPriority_total (s : Ledger G P PP) (bankId : Int) (paymentIds : List Int)
    (hP : paymentIds ≠ []) :
    VerifyStrictPriority s bankId paymentIds = Res.ok true ∨
    VerifyStrictPriority s bankId paymentIds = Res.ok false := by
  unfold VerifyStrictPriority
  simp only [infeasibleOf_eq_filter]
  generalize (GetQueueFromLedger s QueueTable.OutQueueTable bankId).filter
      (fun q => decide (q ∉ paymentIds)) = I
  cases I with
  | nil => simp
  | cons q0 I1 =>
    cases paymentIds with
    | nil => exact absurd rfl hP
    | cons p0 P1 =>
      simp only [List.length_cons, Nat.succ_ne_zero, if_false, List.head?_cons]
      split_ifs
      · exact Or.inr rfl
      · exact Or.inl rfl

theorem verifyStrictPriority_of_forall (s : Ledger G P PP) (bankId : Int)
    (paymentIds : List Int)
    (h : ∀ q ∈ GetQueueFromLedger s QueueTable.OutQueueTable bankId, q ∉ paymentIds →
      ∀ p ∈ paymentIds, p < q) :
    paymentIds ≠ [] → VerifyStrictPriority s bankId paymentIds = Res.ok true := by
  intro hP
  unfold VerifyStrictPriority
  simp only [infeasibleOf_eq_filter]
  have hI : ∀ q ∈ (GetQueueFromLedger s QueueTable.OutQueueTable bankId).filter
      (fun q => decide (q ∉ paymentIds)), ∀ p ∈ paymentIds, p < q := by
    intro q hq
    simp only [List.mem_filter, decide_eq_true_eq] at hq
    exact h q hq.1 hq.2
  generalize (GetQueueFromLedger s QueueTable.OutQueueTable bankId).filter
      (fun q => decide (q ∉ paymentIds)) = I at hI
  cases I with
  | nil => simp
  | cons q0 I1 =>
    cases paymentIds with
    | nil => exact absurd rfl hP
    | cons p0 P1 =>
      simp only [List.length_cons, Nat.succ_ne_zero, if_false, List.head?_cons]
      obtain ⟨a1, _, _⟩ := foldl_min_spec (q0 :: I1) q0
      obtain ⟨b1, _, _⟩ := foldl_max_spec (p0 :: P1) p0
      have hsm : (q0 :: I1).foldl (fun m qid => if qid < m then qid else m) q0 ∈ q0 :: I1 := by
        rcases a1 with e | e
        · rw [e]; exact List.mem_cons_self _ _
        · exact e
      have hbg : (p0 :: P1).foldl (fun m pid => if pid > m then pid else m) p0 ∈ p0 :: P1 := by
        rcases b1 with e | e
        · rw [e]; exact List.mem_cons_self _ _
        · exact e
      have hlt := hI _ hsm _ hbg
      generalize (q0 :: I1).foldl (fun m qid => if qid < m then qid else m) q0 = sm at hlt
      generalize (p0 :: P1).foldl (fun m pid => if pid > m then pid else m) p0 = bg at hlt
      have c : ¬ sm ≤ bg := by omega
      simp [c]

theorem take_length_filter (f : Int → Bool) :
    ∀ Q : List Int, Q.Pairwise (fun a b => a < b) →
      (∀ q ∈ Q, f q = false → ∀ p ∈ Q, f p = true → p < q) →
      Q.take (Q.filter f).length = Q.filter f := by
  intro Q
  induction Q with
  | nil => intro _ _; rfl
  | cons a t ih =>
    intro hs h
    have hst : t.Pairwise (fun a b => a < b) := (List.pairwise_cons.mp hs).2
    have hat : ∀ x ∈ t, a < x := (List.pairwise_cons.mp hs).1
    cases hfa : f a with
    | true =>
      simp only [List.filter_cons, hfa, if_true, List.length_cons, List.take_succ_cons]
      rw [ih hst (fun q hq hfq p hp hfp =>
        h q (List.mem_cons_of_mem _ hq) hfq p (List.mem_cons_of_mem _ hp) hfp)]
    | false =>
      have hnone : t.filter f = [] := by
        rw [List.filter_eq_nil_iff]
        intro p hp hfp
        have h1 := h a (List.mem_cons_self _ _) hfa p (List.mem_cons_of_mem _ hp) hfp
        have h2 := hat p hp
        omega
      simp [List.filter_cons, hfa, hnone]

/-- C35. Prefix characterisation: for a strictly increasing out-queue Q and a
non-empty list of ids all of which occur in Q, VerifyStrictPriority returns a
boolean, and it accepts the list if and only if the ids of the list are exactly
the ids of the first k entries of Q for some k with 1 <= k <= length of Q. -/
theorem verifyStrictPriority_initial_segment (s : Ledger G P PP) (bankId : Int) (paymentIds : List Int)
    (hQ : (GetQueueFromLedger s QueueTable.OutQueueTable bankId).Pairwise (fun a b => a < b))
    (hP : paymentIds ≠ [])
    (hsub : ∀ p ∈ paymentIds, p ∈ GetQueueFromLedger s QueueTable.OutQueueTable bankId) :
    (VerifyStrictPriority s bankId paymentIds = Res.ok true ∨
      VerifyStrictPriority s bankId paymentIds = Res.ok false) ∧
    (VerifyStrictPriority s bankId paymentIds = Res.ok true ↔
      ∃ k, 1 ≤ k ∧ k ≤ (GetQueueFromLedger s QueueTable.OutQueueTable bankId).length ∧
        ∀ x, x ∈ paymentIds ↔
          x ∈ (GetQueueFromLedger s QueueTable.OutQueueTable bankId).take k) := by
  refine ⟨verifyStrictPriority_total s bankId paymentIds hP, ?_⟩
  generalize hQdef : GetQueueFromLedger s QueueTable.OutQueueTable bankId = Q at hQ hsub
  constructor
  · intro h
    have hall := verifyStrictPriority_true s bankId paymentIds h
    rw [hQdef] at hall
    have htake := take_length_filter (fun x => decide (x ∈ paymentIds)) Q hQ (by
      intro q hq hfq p _ hfp
      simp only [decide_eq_false_iff_not] at hfq
      simp only [decide_eq_true_eq] at hfp
      exact hall q hq hfq p hfp)
    have hmem : ∀ x, x ∈ paymentIds ↔ x ∈ Q.filter (fun x => decide (x ∈ paymentIds)) := by
      intro x
      simp only [List.mem_filter, decide_eq_true_eq]
      exact ⟨fun hx => ⟨hsub x hx, hx⟩, fun hx => hx.2⟩
    refine ⟨(Q.filter (fun x => decide (x ∈ paymentIds))).length, ?_,
      List.length_filter_le _ _, ?_⟩
    · obtain ⟨p0, hp0⟩ := List.exists_mem_of_ne_nil _ hP
      have := (hmem p0).mp hp0
      exact List.length_pos_of_mem this
    · intro x
      rw [htake]
      exact hmem x
  · rintro ⟨k, _, _, hk⟩
    apply verifyStrictPriority_of_forall s bankId paymentIds _ hP
    rw [hQdef]
    intro q hq hqn p hp
    have hpt : p ∈ Q.take k := (hk p).mp hp
    have hqd : q ∈ Q.drop k := by
      have : q ∈ Q.take k ++ Q.drop k := by rw [List.take_append_drop]; exact hq
      rcases List.mem_append.mp this with h1 | h1
      · exact absurd ((hk q).mpr h1) hqn
      · exact h1
    have hsplit : (Q.take k ++ Q.drop k).Pairwise (fun a b => a < b) := by
      rw [List.take_append_drop]; exact hQ
    exact (List.pairwise_append.mp hsplit).2.2 p hpt q hqd

theorem verifyStrictPriority_initial_segment_witness :
    GetQueueFromLedger fourQueued.state QueueTable.OutQueueTable 1 = [1, 2, 3, 4] ∧
    VerifyStrictPriority fourQueued.state 1 [1, 2, 3] = Res.ok true ∧
    VerifyStrictPriority fourQueued.state 1 [1, 2, 4] = Res.ok false ∧
    ¬ ∃ k, 1 ≤ k ∧ k ≤ (GetQueueFromLedger fourQueued.state QueueTable.OutQueueTable 1).length ∧
        ∀ x, x ∈ [(1 : Int), 2, 4] ↔
          x ∈ (GetQueueFromLedger fourQueued.state QueueTable.OutQueueTable 1).take k := by
  have e : GetQueueFromLedger fourQueued.state QueueTable.OutQueueTable 1 = [1, 2, 3, 4] := by
    decide
  refine ⟨e, ?_, by decide, ?_⟩
  · refine (verifyStrictPriority_initial_segment fourQueued.state 1 [1, 2, 3] (by rw [e]; decide)
      (by decide) (by rw [e]; decide)).2.mpr ⟨3, by decide, by rw [e]; decide, ?_⟩
    intro x
    rw [e]
    simp
  · intro h
    have := (verifyStrictPriority_initial_segment fourQueued.state 1 [1, 2, 4] (by rw [e]; decide)
      (by decide) (by rw [e]; decide)).2.mpr h
    revert this
    decide

/-- C37, the code evaluated. Against the non-empty out-queue [1, 7] of bank 1 in
Scenario B, VerifyStrictPriority on the empty candidate list reads the first
element of the empty list and panics, and so does a proposeNettableSet of bank 1
with no outgoing ids; against an empty queue the empty list is accepted. -/
theorem verifyStrictPriority_empty_candidates :
    scenarioBStarted.res = Res.ok () ∧
    GetQueueFromLedger scenarioBStarted.state QueueTable.OutQueueTable 1 = [1, 7] ∧
    VerifyStrictPriority scenarioBStarted.state 1 [] = Res.panic ∧
    (proposeNettableSet idealScheme scenarioBStarted.state
      ⟨1001, 1, [], [1, 7], 3, 3, 2⟩).res = Res.panic ∧
    VerifyStrictPriority scenarioAMinted.state 1 [] = Res.ok true := by
  decide

theorem digitChar_toNat (k : Nat) (h : k < 10) : (Nat.digitChar k).toNat - 48 = k := by
  interval_cases k <;> rfl

theorem digitChar_ne_minus (k : Nat) (h : k < 10) : Nat.digitChar k ≠ '-' := by
  interval_cases k <;> decide

theorem toDigitsCore_decode :
    ∀ (fuel n : Nat) (ds : List Char), n < fuel →
      (Nat.toDigitsCore 10 fuel n ds).foldl (fun acc c => 10 * acc + (c.toNat - 48)) 0
        = ds.foldl (fun acc c => 10 * acc + (c.toNat - 48)) n := by
  intro fuel
  induction fuel with
  | zero => intro n ds h; omega
  | succ fuel ih =>
    intro n ds h
    simp only [Nat.toDigitsCore]
    by_cases h0 : n / 10 = 0
    · simp only [h0, if_true, List.foldl_cons, Nat.mul_zero, Nat.zero_add]
      rw [digitChar_toNat _ (Nat.mod_lt _ (by decide))]
      have : n % 10 = n := by omega
      rw [this]
    · simp only [h0, if_false]
      rw [ih (n / 10) _ (by omega)]
      simp only [List.foldl_cons]
      rw [digitChar_toNat _ (Nat.mod_lt _ (by decide))]
      have : 10 * (n / 10) + n % 10 = n := Nat.div_add_mod n 10
      rw [this]

theorem toDigitsCore_ne_minus :
    ∀ (fuel n : Nat) (ds : List Char), (∀ c ∈ ds, c ≠ '-') →
      ∀ c ∈ Nat.toDigitsCore 10 fuel n ds, c ≠ '-' := by
  intro fuel
  induction fuel with
  | zero => intro n ds h; simpa [Nat.toDigitsCore] using h
  | succ fuel ih =>
    intro n ds h
    have hd : ∀ c ∈ Nat.digitChar (n % 10) :: ds, c ≠ '-' := by
      intro c hc
      rcases List.mem_cons.mp hc with e | e
      · rw [e]; exact digitChar_ne_minus _ (Nat.mod_lt _ (by decide))
      · exact h c e
    simp only [Nat.toDigitsCore]
    by_cases h0 : n / 10 = 0
    · simp only [h0, if_true]; exact hd
    · simp only [h0, if_false]; exact ih _ _ hd

theorem nat_repr_injective (m n : Nat) (h : (Nat.repr m).data = (Nat.repr n).data) : m = n := by
  have e : ∀ k : Nat, (Nat.repr k).data.foldl (fun acc c => 10 * acc + (c.toNat - 48)) 0 = k := by
    intro k
    show (Nat.toDigitsCore 10 (k + 1) k []).foldl _ 0 = k
    rw [toDigitsCore_decode (k + 1) k [] (by omega)]
    rfl
  rw [← e m, ← e n, h]

theorem nat_repr_ne_minus (n : Nat) : ∀ c ∈ (Nat.repr n).data, c ≠ '-' := by
  show ∀ c ∈ Nat.toDigitsCore 10 (n + 1) n [], c ≠ '-'
  exact toDigitsCore_ne_minus _ _ _ (by simp)

theorem int_toString_ofNat (m : Nat) : (toString (Int.ofNat m)).data = (Nat.repr m).data := rfl

theorem int_toString_negSucc (m : Nat) :
    (toString (Int.negSucc m)).data = '-' :: (Nat.repr (m + 1)).data := rfl

theorem int_toString_injective (a b : Int) (h : (toString a).data = (toString b).data) :
    a = b := by
  cases a with
  | ofNat m =>
    cases b with
    | ofNat n =>
      rw [int_toString_ofNat, int_toString_ofNat] at h
      rw [nat_repr_injective m n h]
    | negSucc n =>
      rw [int_toString_ofNat, int_toString_negSucc] at h
      exact absurd rfl (nat_repr_ne_minus m '-' (by rw [h]; exact List.mem_cons_self _ _))
  | negSucc m =>
    cases b with
    | ofNat n =>
      rw [int_toString_ofNat, int_toString_negSucc] at h
      exact absurd rfl (nat_repr_ne_minus n '-' (by rw [← h]; exact List.mem_cons_self _ _))
    | negSucc n =>
      rw [int_toString_negSucc, int_toString_negSucc] at h
      have := nat_repr_injective _ _ (List.cons.inj h).2
      have e : m = n := by omega
      rw [e]

theorem toString_bank (b : Int) (h1 : 1 ≤ b) (h2 : b ≤ NumOfBanks) :
    ∃ c, (toString b).data = [c] ∧
      (c = '1' ∧ b = 1 ∨ c = '2' ∧ b = 2 ∨ c = '3' ∧ b = 3 ∨ c = '4' ∧ b = 4 ∨
        c = '5' ∧ b = 5) := by
  simp only [NumOfBanks] at h2
  have : b = 1 ∨ b = 2 ∨ b = 3 ∨ b = 4 ∨ b = 5 := by omega
  rcases this with e | e | e | e | e <;> subst e
  · exact ⟨'1', rfl, by simp⟩
  · exact ⟨'2', rfl, by simp⟩
  · exact ⟨'3', rfl, by simp⟩
  · exact ⟨'4', rfl, by simp⟩
  · exact ⟨'5', rfl, by simp⟩

theorem proposalKey_injective (gid gid1 b b1 : Int) (hb : 1 ≤ b ∧ b ≤ NumOfBanks)
    (hb1 : 1 ≤ b1 ∧ b1 ≤ NumOfBanks) (h : proposalKey gid b = proposalKey gid1 b1) :
    gid = gid1 ∧ b = b1 := by
  have hd : (toString gid).data ++ (toString b).data
      = (toString gid1).data ++ (toString b1).data := by
    have := congrArg String.data h
    simpa [proposalKey] using this
  obtain ⟨c, hc, hcb⟩ := toString_bank b hb.1 hb.2
  obtain ⟨c1, hc1, hcb1⟩ := toString_bank b1 hb1.1 hb1.2
  rw [hc, hc1] at hd
  obtain ⟨e1, e2⟩ := List.append_inj' hd rfl
  have ec : c = c1 := by simpa using e2
  refine ⟨int_toString_injective _ _ e1, ?_⟩
  subst ec
  rcases hcb with ⟨x, y⟩ | ⟨x, y⟩ | ⟨x, y⟩ | ⟨x, y⟩ | ⟨x, y⟩ <;>
    rcases hcb1 with ⟨x1, y1⟩ | ⟨x1, y1⟩ | ⟨x1, y1⟩ | ⟨x1, y1⟩ | ⟨x1, y1⟩ <;>
    first
    | (exfalso; rw [x] at x1; revert x1; decide)
    | (rw [y, y1])

theorem snapshotBalances_total (s : Ledger G P PP) :
    ∀ (banks : List Int) (init : Int → Option G), (∀ b ∈ banks, s.account b ≠ none) →
      ∃ bb, snapshotBalances s banks init = Res.ok bb := by
  intro banks
  induction banks with
  | nil => intro init _; exact ⟨init, rfl⟩
  | cons b rest ih =>
    intro init h
    cases ha : s.account b with
    | none => exact absurd ha (h b (List.mem_cons_self _ _))
    | some v =>
      simp only [snapshotBalances, GetAccountFromLedger, ha, Res.unchecked]
      exact ih _ (fun b1 h1 => h b1 (List.mem_cons_of_mem _ h1))

theorem settleOutgoing_no_panic [AddCommGroup G] (banks : List Int) (pids : List Int) :
    ∀ (st : NetState G P PP), (∀ b ∈ banks, st.bankBalance b ≠ none) →
      (∀ pid p, st.ledger.payment pid = some p → p.Sender ∈ banks ∧ p.Receiver ∈ banks) →
      (settleOutgoing pids st).res ≠ Res.panic ∧
      (∀ b ∈ banks, (settleOutgoing pids st).state.bankBalance b ≠ none) ∧
      (∀ pid p, (settleOutgoing pids st).state.ledger.payment pid = some p →
        p.Sender ∈ banks ∧ p.Receiver ∈ banks) := by
  induction pids with
  | nil => intro st h1 h2; exact ⟨by simp [settleOutgoing], h1, h2⟩
  | cons pid rest ih =>
    intro st h1 h2
    unfold settleOutgoing
    cases hp : st.ledger.payment pid with
    | none =>
      simp only [GetPaymentFromLedger, hp]
      exact ⟨by simp, h1, h2⟩
    | some pm =>
      simp only [GetPaymentFromLedger, hp]
      obtain ⟨hS, hR⟩ := h2 pid pm hp
      cases hbS : st.bankBalance pm.Sender with
      | none => exact absurd hbS (h1 _ hS)
      | some balS =>
        dsimp only
        have hR1 : Function.update st.bankBalance pm.Sender (some (balS + -pm.CmAmount))
            pm.Receiver ≠ none := by
          by_cases e : pm.Receiver = pm.Sender
          · rw [e, Function.update_same]; simp
          · rw [Function.update_noteq e]; exact h1 _ hR
        cases hbR : Function.update st.bankBalance pm.Sender (some (balS + -pm.CmAmount))
            pm.Receiver with
        | none => exact absurd hbR hR1
        | some balR =>
          dsimp only
          simp only [MarkPaymentFromLedger, GetPaymentFromLedger, hp]
          apply ih
          · intro b hb
            dsimp only
            by_cases e1 : b = pm.Receiver
            · rw [e1, Function.update_same]; simp
            · rw [Function.update_noteq e1]
              by_cases e2 : b = pm.Sender
              · rw [e2, Function.update_same]; simp
              · rw [Function.update_noteq e2]; exact h1 b hb
          · intro pid1 p1 hp1
            dsimp only at hp1
            by_cases e : pid1 = pid
            · rw [e, Function.update_same] at hp1
              simp only [Option.some.injEq] at hp1
              subst hp1
              exact ⟨hS, hR⟩
            · rw [Function.update_noteq e] at hp1
              exact h2 pid1 p1 hp1

theorem settleProposals_no_panic [AddCommGroup G] (banks : List Int) (gid : Int)
    (ids : List Int) :
    ∀ (st : NetState G P PP), (∀ b ∈ banks, st.bankBalance b ≠ none) →
      (∀ pid p, st.ledger.payment pid = some p → p.Sender ∈ banks ∧ p.Receiver ∈ banks) →
      (settleProposals gid ids st).res ≠ Res.panic ∧
      (∀ b ∈ banks, (settleProposals gid ids st).state.bankBalance b ≠ none) := by
  induction ids with
  | nil => intro st h1 _; exact ⟨by simp [settleProposals], h1⟩
  | cons b rest ih =>
    intro st h1 h2
    unfold settleProposals
    cases hq : st.ledger.proposal (proposalKey gid b) with
    | none =>
      simp only [GetGridlockProposalFromLedger, hq]
      exact ⟨by simp, h1⟩
    | some prop =>
      simp only [GetGridlockProposalFromLedger, hq]
      obtain ⟨n1, n2, n3⟩ := settleOutgoing_no_panic banks prop.OutgoingIds st h1 h2
      cases hso : settleOutgoing prop.OutgoingIds st with
      | mk res st1 =>
        rw [hso] at n1 n2 n3
        cases res with
        | error m => exact ⟨by simp, n2⟩
        | panic => exact absurd rfl n1
        | ok u => exact ih st1 n2 n3

theorem writeBack_no_panic (bb : Int → Option G) (out inc : Int → List Int) (banks : List Int)
    (hbb : ∀ b ∈ banks, bb b ≠ none) :
    ∀ (s : Ledger G P PP), (writeBack bb out inc banks s).res ≠ Res.panic := by
  induction banks with
  | nil => intro s; simp [writeBack]
  | cons b rest ih =>
    intro s
    have ih1 := ih (fun b1 h1 => hbb b1 (List.mem_cons_of_mem _ h1))
    unfold writeBack
    cases hb : bb b with
    | none => exact absurd hb (hbb b (List.mem_cons_self _ _))
    | some v =>
      dsimp only
      cases hq1 : (AddAccountToLedger s b v).queue QueueTable.InQueueTable b with
      | none => simp [removeQueue_none _ hq1, Res.andThen]
      | some q1 =>
        rw [removeQueue_some _ hq1]
        simp only [Res.andThen]
        cases hq2 : (AddQueueToLedger (AddAccountToLedger s b v) QueueTable.InQueueTable b
            (removeIds q1 (inc b))).queue QueueTable.OutQueueTable b with
        | none => simp [removeQueue_none _ hq2]
        | some q2 =>
          rw [removeQueue_some _ hq2]
          exact ih1 _

theorem writeBack_missing_queue (bb : Int → Option G) (out inc : Int → List Int) :
    ∀ (banks : List Int) (s : Ledger G P PP),
      (∃ b ∈ banks, s.queue QueueTable.InQueueTable b = none ∨
        s.queue QueueTable.OutQueueTable b = none) →
      (writeBack bb out inc banks s).res ≠ Res.ok () := by
  intro banks s h hok
  obtain ⟨b, hb, hq⟩ := h
  have := (writeBack_ok bb out inc banks s hok).2.2.2.2.2.2.2.2 b hb
  rcases hq with e | e
  · rw [e] at this; simp at this
  · rw [e] at this; simp at this

theorem netGLSettlement_no_panic [AddCommGroup G] (s : Ledger G P PP) (gid : Int)
    (cfg : GLRConfiguration) (hcfg : s.config gid = some cfg)
    (hacc : ∀ b ∈ cfg.BankIds, s.account b ≠ none)
    (hpay : ∀ pid p, s.payment pid = some p →
      p.Sender ∈ cfg.BankIds ∧ p.Receiver ∈ cfg.BankIds) :
    (NetGLSettlement s gid).res ≠ Res.panic := by
  unfold NetGLSettlement
  simp only [GetGLRConfigFromLedger, hcfg]
  split
  · simp
  · obtain ⟨bb, hbb⟩ := snapshotBalances_total s cfg.BankIds (fun _ => none) hacc
    simp only [hbb]
    have hdom : ∀ b ∈ cfg.BankIds, bb b ≠ none := by
      intro b hb
      rw [(snapshotBalances_ok s cfg.BankIds _ _ hbb).1 b, if_pos hb]
      exact hacc b hb
    obtain ⟨n1, n2⟩ := settleProposals_no_panic cfg.BankIds cfg.GridlockId cfg.BankIds
      ({ ledger := s, bankBalance := bb, outgoingIds := fun _ => [],
         incomingIds := fun _ => [] } : NetState G P PP) hdom hpay
    cases hsp : settleProposals cfg.GridlockId cfg.BankIds
      ({ ledger := s, bankBalance := bb, outgoingIds := fun _ => [],
         incomingIds := fun _ => [] } : NetState G P PP) with
    | mk res st1 =>
      rw [hsp] at n1 n2
      cases res with
      | error m => simp
      | panic => exact absurd rfl n1
      | ok u => exact writeBack_no_panic _ _ _ _ n2 _

/-- Removal from an absent queue, and its effect on a session in status
SUCCESS: when no queue is stored under the
key, RemoveQueueElementFromLedger returns an error, and returns no store, while
GetQueueFromLedger returns the empty list. Hence, for a session stored with status
SUCCESS in which some bank of config.bankIds has no stored in-queue or no stored
out-queue, NetGLSettlement does not succeed, and it returns an error when every
bank of the configuration has an account and every stored payment is between banks
of the configuration. -/
theorem removal_from_absent_queue [AddCommGroup G] (s : Ledger G P PP) :
    (∀ (t : QueueTable) (k : Int) (ids : List Int), s.queue t k = none →
      RemoveQueueElementFromLedger s t k ids = Res.error "No stored queue with this key" ∧
      GetQueueFromLedger s t k = []) ∧
    (∀ (gid : Int) (cfg : GLRConfiguration), s.config gid = some cfg →
      cfg.Status = GLRStatusType.SUCCESS →
      (∃ b ∈ cfg.BankIds, s.queue QueueTable.InQueueTable b = none ∨
        s.queue QueueTable.OutQueueTable b = none) →
      (NetGLSettlement s gid).res ≠ Res.ok () ∧
      ((∀ b ∈ cfg.BankIds, s.account b ≠ none) →
        (∀ pid p, s.payment pid = some p →
          p.Sender ∈ cfg.BankIds ∧ p.Receiver ∈ cfg.BankIds) →
        ∃ msg, (NetGLSettlement s gid).res = Res.error msg)) := by
  refine ⟨fun t k ids h => ⟨removeQueue_none ids h, by simp [GetQueueFromLedger, h]⟩, ?_⟩
  intro gid cfg hcfg hS hq
  have hne : (NetGLSettlement s gid).res ≠ Res.ok () := by
    intro hok
    obtain ⟨_, _, _, _, hout, hin, _⟩ := netGLSettlement_ok s gid cfg hcfg hS hok
    obtain ⟨b, hb, hqb⟩ := hq
    rcases hqb with e | e
    · obtain ⟨q, h1, _⟩ := hin b hb
      rw [e] at h1; cases h1
    · obtain ⟨q, h1, _⟩ := hout b hb
      rw [e] at h1; cases h1
  refine ⟨hne, fun hacc hpay => ?_⟩
  have hnp := netGLSettlement_no_panic s gid cfg hcfg hacc hpay
  cases hr : (NetGLSettlement s gid).res with
  | ok u => exact absurd hr hne
  | error m => exact ⟨m, rfl⟩
  | panic => exact absurd hr hnp

theorem mem_banks_of_range (b : Int) (h : 1 ≤ b ∧ b ≤ NumOfBanks) :
    b ∈ ([1, 2, 3, 4, 5] : List Int) := by
  obtain ⟨h1, h2⟩ := h
  simp only [NumOfBanks] at h2
  have : b = 1 ∨ b = 2 ∨ b = 3 ∨ b = 4 ∨ b = 5 := by omega
  rcases this with e | e | e | e | e <;> simp [e]

theorem sparseSession_paymentsWellFormed : PaymentsWellFormed sparseSession.state := by
  unfold sparseSession
  apply thenDo_preserves PaymentsWellFormed
  · apply proposeAll_preserves PaymentsWellFormed
      (fun s p hs => invoke_paymentsWellFormed idealScheme s (.proposeNettableSet p) hs)
    apply thenDo_preserves PaymentsWellFormed
    · apply thenDo_preserves PaymentsWellFormed
      · exact invoke_paymentsWellFormed idealScheme emptyLedger (.mintAccount _)
          (fun pid p hp => by cases hp)
      · intro s hs
        exact invoke_paymentsWellFormed idealScheme s (.addMessage _) hs
    · intro s hs
      exact invoke_paymentsWellFormed idealScheme s (.startGLResolution _) hs
  · intro s hs
    exact invoke_paymentsWellFormed idealScheme s (.tallyGridlockProposal 7) hs

theorem removal_from_absent_queue_witness :
    sparseSession.state.queue QueueTable.InQueueTable 1 = none ∧
    (RemoveQueueElementFromLedger sparseSession.state QueueTable.InQueueTable 1 [1]
        = Res.error "No stored queue with this key" ∧
      GetQueueFromLedger sparseSession.state QueueTable.InQueueTable 1 = []) ∧
    sparseSession.state.config 7 = some ⟨7, [1, 2, 3, 4, 5], GLRStatusType.SUCCESS⟩ ∧
    (NetGLSettlement sparseSession.state 7).res ≠ Res.ok () ∧
    (∃ msg, (NetGLSettlement sparseSession.state 7).res = Res.error msg) ∧
    (NetGLSettlement sparseSession.state 7).res = Res.error "No stored queue with this key" := by
  have hq : sparseSession.state.queue QueueTable.InQueueTable 1 = none := by decide
  have hcfg : sparseSession.state.config 7
      = some ⟨7, [1, 2, 3, 4, 5], GLRStatusType.SUCCESS⟩ := by decide
  have hnet := (removal_from_absent_queue sparseSession.state).2 7
    ⟨7, [1, 2, 3, 4, 5], GLRStatusType.SUCCESS⟩ hcfg rfl ⟨1, by decide, Or.inl hq⟩
  refine ⟨hq, (removal_from_absent_queue sparseSession.state).1 _ 1 [1] hq, hcfg, hnet.1,
    hnet.2 (by decide) ?_, by decide⟩
  intro pid p hp
  obtain ⟨h1, h2, _⟩ := sparseSession_paymentsWellFormed pid p hp
  exact ⟨mem_banks_of_range _ h1, mem_banks_of_range _ h2⟩

theorem scenarioADispatchedStarted_reachable :
    Reachable idealScheme scenarioADispatchedStarted.state :=
  Reachable.step _ (.startGLResolution ⟨7, [1, 2], GLRStatusType.START⟩)
    scenarioADispatched_reachable (by decide)

/-- C38, amended. Proposal keys are injective on bank ids in [1, NumOfBanks]: for
bank ids b and b1 in that range, equal keys for (gid, b) and (gid1, b1) force
gid = gid1 and b = b1. In a store reachable by the dispatched operations an
accepted proposeNettableSet has its bank id in that range and leaves the proposal
stored under the key of every other pair (gid1, b1) with b1 in range unchanged. -/
theorem proposal_keys_injective_in_range [AddCommGroup G] [DecidableEq G] (S : Scheme G P PP) :
    (∀ gid gid1 b b1 : Int, 1 ≤ b ∧ b ≤ NumOfBanks → 1 ≤ b1 ∧ b1 ≤ NumOfBanks →
      proposalKey gid b = proposalKey gid1 b1 → gid = gid1 ∧ b = b1) ∧
    (∀ (s : Ledger G P PP) (prop : GridlockProposal G P), Reachable S s →
      (proposeNettableSet S s prop).res = Res.ok () →
      (1 ≤ prop.BankId ∧ prop.BankId ≤ NumOfBanks) ∧
      ∀ gid1 b1 : Int, 1 ≤ b1 ∧ b1 ≤ NumOfBanks →
        (gid1, b1) ≠ (prop.GridlockId, prop.BankId) →
        (proposeNettableSet S s prop).state.proposal (proposalKey gid1 b1)
          = s.proposal (proposalKey gid1 b1)) := by
  refine ⟨fun gid gid1 b b1 hb hb1 h => proposalKey_injective gid gid1 b b1 hb hb1 h, ?_⟩
  intro s prop hr hok
  have hv := (proposeNettableSet_res_ok S s prop).mp hok
  have hacc := (verifyGridlockProposal_ok S s prop hv).2.2.1
  have hrange : 1 ≤ prop.BankId ∧ prop.BankId ≤ NumOfBanks :=
    reachable_accountsInRange S s hr prop.BankId (by rw [hacc]; simp)
  refine ⟨hrange, fun gid1 b1 hb1 hne => ?_⟩
  have hk : proposalKey gid1 b1 ≠ proposalKey prop.GridlockId prop.BankId := by
    intro e
    obtain ⟨e1, e2⟩ := proposalKey_injective _ _ _ _ hb1 hrange e
    exact hne (by rw [e1, e2])
  unfold proposeNettableSet
  rw [hv]
  simp only [AddGridlockProposalToLedger, Function.update_noteq hk]

theorem proposal_keys_injective_in_range_witness :
    (proposalKey 7 1 = proposalKey 7 1 ∧ ((7 : Int) = 7 ∧ (1 : Int) = 1)) ∧
    (proposeNettableSet idealScheme scenarioADispatchedStarted.state
      ⟨7, 1, [1], [], 100, 90, 0⟩).res = Res.ok () ∧
    (proposeNettableSet idealScheme scenarioADispatchedStarted.state
      ⟨7, 1, [1], [], 100, 90, 0⟩).state.proposal (proposalKey 7 2)
      = scenarioADispatchedStarted.state.proposal (proposalKey 7 2) :=
  ⟨⟨rfl, (proposal_keys_injective_in_range idealScheme).1 7 7 1 1 (by decide) (by decide) rfl⟩,
    by decide,
    ((proposal_keys_injective_in_range idealScheme).2 scenarioADispatchedStarted.state
      ⟨7, 1, [1], [], 100, 90, 0⟩ scenarioADispatchedStarted_reachable (by decide)).2 7 2
      (by decide) (by decide)⟩

/-- C38, counterexample. The pairs (1, 11) and (11, 1) are different and have the
same key. After bank 1 has proposed in session 11, a tally of session 1, whose
configuration names the bank id 11, succeeds by reading that proposal and stores
its infeasible ids as those of session 1. -/
theorem proposal_keys_collide :
    ((1 : Int), (11 : Int)) ≠ (11, 1) ∧
    proposalKey 1 11 = proposalKey 11 1 ∧
    crossSession.res = Res.ok () ∧
    (crossSession.state.proposal (proposalKey 11 1)).map (fun p => p.InfeasibleIds)
      = some [2] ∧
    crossSession.state.config 1 = some ⟨1, [11], GLRStatusType.START⟩ ∧
    (tallyGridlockProposal crossSession.state 1).res = Res.ok () ∧
    (tallyGridlockProposal crossSession.state 1).state.queue QueueTable.InfeasibleTable 1
      = some [2] := by
  decide

/-- C40, the code evaluated. In Scenario B the first NetGLSettlement of the
converged session writes the balances 5, 3, 9, 0, 2 and marks its payments
settled, the session keeps status SUCCESS, and a second NetGLSettlement of the same
session succeeds and writes 7, 2, 13, -4, 1: the settled payments are debited and
credited once more. -/
theorem netGLSettlement_twice :
    scenarioBSettled.res = Res.ok () ∧
    [1, 2, 3, 4, 5].map (fun b => scenarioBSettled.state.account b)
      = [some 5, some 3, some 9, some 0, some 2] ∧
    (scenarioBSettled.state.config 1001).map (fun c => c.Status)
      = some GLRStatusType.SUCCESS ∧
    (scenarioBSettled.state.payment 1).map (fun p => p.Status) = some StatusType.SETTLED ∧
    scenarioBSettledTwice.res = Res.ok () ∧
    [1, 2, 3, 4, 5].map (fun b => scenarioBSettledTwice.state.account b)
      = [some 7, some 2, some 13, some (-4), some 1] := by
  decide

theorem ledgerAfter_of_not_ok [AddCommGroup G] [DecidableEq G] (S : Scheme G P PP)
    (s : Ledger G P PP) (inv : Invocation G P PP) (h : (Invoke S s inv).res ≠ Res.ok ()) :
    ledgerAfter S s inv = s := by
  unfold ledgerAfter
  cases hr : (Invoke S s inv).res with
  | ok u => cases u; exact absurd hr h
  | error m => rfl
  | panic => rfl

theorem ledgerAfter_of_ok [AddCommGroup G] [DecidableEq G] (S : Scheme G P PP)
    (s : Ledger G P PP) (inv : Invocation G P PP) (h : (Invoke S s inv).res = Res.ok ()) :
    ledgerAfter S s inv = (Invoke S s inv).state := by
  unfold ledgerAfter
  rw [h]

theorem ledgerAfter_reachable [AddCommGroup G] [DecidableEq G] (S : Scheme G P PP)
    (s : Ledger G P PP) (inv : Invocation G P PP) (h : Reachable S s) :
    Reachable S (ledgerAfter S s inv) := by
  by_cases hr : (Invoke S s inv).res = Res.ok ()
  · rw [ledgerAfter_of_ok S s inv hr]
    exact Reachable.step s inv h hr
  · rw [ledgerAfter_of_not_ok S s inv hr]
    exact h

/-- C23. Atomicity of failure: for every dispatched operation, every ledger state
and every input, if the operation does not return success (it returns an error,
or panics) then the ledger state after the call equals the state before it, the
host keeping no write of the failed invocation; and unless the operation is a
mintAccount, a grossSettlement or a NetGLSettlement, the store the operation hands
back is already the store it was given, no write having been issued. -/
theorem atomicity_of_failure [AddCommGroup G] [DecidableEq G] (S : Scheme G P PP)
    (s : Ledger G P PP) (inv : Invocation G P PP) (h : (Invoke S s inv).res ≠ Res.ok ()) :
    ledgerAfter S s inv = s ∧
    ((∀ accounts, inv ≠ .mintAccount accounts) → (∀ x, inv ≠ .grossSettlement x) →
      (∀ gid, inv ≠ .NetGLSettlement gid) → (Invoke S s inv).state = s) :=
  ⟨ledgerAfter_of_not_ok S s inv h, (failure_leaves_store S s inv h).1⟩

theorem atomicity_of_failure_witness :
    (Invoke idealScheme emptyLedger (.mintAccount [⟨1, 100, 100⟩, ⟨9, 1, 1⟩])).res
      = Res.error "MintAcount is not valid" ∧
    ledgerAfter idealScheme emptyLedger (.mintAccount [⟨1, 100, 100⟩, ⟨9, 1, 1⟩])
      = emptyLedger ∧
    (Invoke idealScheme unmintedReceiver.state (.grossSettlement ⟨1, 1, 100, 90⟩)).res
      = Res.error "No stored account with this key" ∧
    ledgerAfter idealScheme unmintedReceiver.state (.grossSettlement ⟨1, 1, 100, 90⟩)
      = unmintedReceiver.state ∧
    (Invoke idealScheme scenarioA.state (.addMessage ⟨2, 1, 1, 10, 10⟩)).res
      = Res.error "Payment message is not valid" ∧
    (Invoke idealScheme scenarioA.state (.addMessage ⟨2, 1, 1, 10, 10⟩)).state
      = scenarioA.state :=
  ⟨by decide,
    (atomicity_of_failure idealScheme emptyLedger (.mintAccount [⟨1, 100, 100⟩, ⟨9, 1, 1⟩])
      (by decide)).1,
    by decide,
    (atomicity_of_failure idealScheme unmintedReceiver.state
      (.grossSettlement ⟨1, 1, 100, 90⟩) (by decide)).1,
    by decide,
    (atomicity_of_failure idealScheme scenarioA.state (.addMessage ⟨2, 1, 1, 10, 10⟩)
      (by decide)).2 (fun _ e => by cases e) (fun _ e => by cases e) (fun _ e => by cases e)⟩

/-- C9, the code evaluated. In Scenario B with the first round of proposals stored
and the session still in status START, NetGLSettlement returns success; payment 1,
which the stored proposal of bank 1 lists as outgoing, is still ACTIVE and still in
OutQueue(1) and InQueue(2). -/
theorem netGLSettlement_start_settles_nothing :
    scenarioBProposed1.res = Res.ok () ∧
    (scenarioBProposed1.state.config 1001).map (fun c => c.Status)
      = some GLRStatusType.START ∧
    outgoingOf scenarioBProposed1.state 1001 1 = [1, 7] ∧
    (NetGLSettlement scenarioBProposed1.state 1001).res = Res.ok () ∧
    ((NetGLSettlement scenarioBProposed1.state 1001).state.payment 1).map
      (fun p => (p.Sender, p.Receiver, p.Status)) = some (1, 2, StatusType.ACTIVE) ∧
    (1 : Int) ∈ GetQueueFromLedger (NetGLSettlement scenarioBProposed1.state 1001).state
      QueueTable.OutQueueTable 1 ∧
    (1 : Int) ∈ GetQueueFromLedger (NetGLSettlement scenarioBProposed1.state 1001).state
      QueueTable.InQueueTable 2 := by
  decide

/-- C39, the code evaluated. After Scenario A and startGLResolution of session 7
over banks 1 and 2, bank 1 has no stored in-queue and removal from that key returns
an error, yet NetGLSettlement returns success, the session being in status START.
In a converged session over banks 1 and 2 in which bank 1 has no stored in-queue and
the receiver of the settled payment is bank 3, NetGLSettlement panics. -/
theorem netGLSettlement_absent_queue_no_error :
    scenarioADispatchedStarted.res = Res.ok () ∧
    scenarioADispatchedStarted.state.config 7 = some ⟨7, [1, 2], GLRStatusType.START⟩ ∧
    scenarioADispatchedStarted.state.queue QueueTable.InQueueTable 1 = none ∧
    RemoveQueueElementFromLedger scenarioADispatchedStarted.state QueueTable.InQueueTable 1 []
      = Res.error "No stored queue with this key" ∧
    (NetGLSettlement scenarioADispatchedStarted.state 7).res = Res.ok () ∧
    outsideReceiverSession.res = Res.ok () ∧
    outsideReceiverSession.state.config 7 = some ⟨7, [1, 2], GLRStatusType.SUCCESS⟩ ∧
    outsideReceiverSession.state.queue QueueTable.InQueueTable 1 = none ∧
    (outsideReceiverSession.state.payment 1).map (fun p => p.Receiver) = some 3 ∧
    (NetGLSettlement outsideReceiverSession.state 7).res = Res.panic :=
  ⟨by decide, by decide, by decide, removeQueue_none [] (by decide), by decide, by decide,
    by decide, by decide, by decide, by decide⟩

end Gridlock
